import Mathlib

/-!
# qpdfview main window: tabs, bookmarks and the widgets of the current tab

A shallow embedding of the parts of `mainwindow.cpp` that keep the list of
open tabs and the list of bookmarks, and that write them to and read them
from `tabs.xml` and `bookmarks.xml`, together with the slots that refresh the
tabs after the settings dialog and that read the scale factor box, the slots
of the view signals and of the tab widget that keep the widgets of the window
up to date, tab navigation and closing, and the geometry written at close.

The toolkit is represented by small executable models: attribute text for
numbers (`QString::number`, `QString::toInt`, `QString::toUInt`), the values
of the types `float` and `double` with rounding to the nearest value, the
element tree of a `QDomDocument`, and the two files on disk, whose removal can
fail.
-/

namespace Qpdfview

/-! ## Number text (QString) -/

/-- The decimal digit character of `d` (for `d < 10`). -/
def digitChar (d : Nat) : Char := Char.ofNat (48 + d)

/-- Decimal digits of `n`, most significant first; `fuel` bounds the number of
digits produced and `n + 1` always suffices. -/
def decimal : Nat → Nat → List Char
  | 0, _ => []
  | fuel + 1, n =>
    if n < 10 then [digitChar n] else decimal fuel (n / 10) ++ [digitChar (n % 10)]

/-- Text of an unsigned number, `QString::number(uint)`. -/
def numberUInt (n : Nat) : String := String.mk (decimal (n + 1) n)

/-- Text of a signed number, `QString::number(int)`: a minus sign and the
digits of the magnitude for a negative value. -/
def numberInt (i : Int) : String :=
  if i < 0 then String.mk ('-' :: decimal (i.natAbs + 1) i.natAbs)
  else String.mk (decimal (i.natAbs + 1) i.natAbs)

/-- One step of reading digits from the left; any other character fails. -/
def digitStep (acc : Option Nat) (c : Char) : Option Nat :=
  if c.isDigit then acc.map (fun v => v * 10 + (c.toNat - 48)) else none

/-- Value of a non-empty run of decimal digits. -/
def parseDigits : List Char → Option Nat
  | [] => none
  | c :: cs => (c :: cs).foldl digitStep (some 0)

/-- Signed value of a text made of an optional sign and decimal digits, as
`QString::toLongLong` reads it; `none` when the text is anything else. -/
def toLongLong (s : String) : Option Int :=
  match s.data with
  | '-' :: cs => (parseDigits cs).map (fun (n : Nat) => - (n : Int))
  | '+' :: cs => (parseDigits cs).map (fun (n : Nat) => (n : Int))
  | cs => (parseDigits cs).map (fun (n : Nat) => (n : Int))

/-- Range of the C++ type `int`. -/
def isInt (i : Int) : Prop := -2147483648 ≤ i ∧ i ≤ 2147483647

instance (i : Int) : Decidable (isInt i) :=
  inferInstanceAs (Decidable (-2147483648 ≤ i ∧ i ≤ 2147483647))

/-- Range of the C++ type `uint`. -/
def isUInt (n : Nat) : Prop := n ≤ 4294967295

instance (n : Nat) : Decidable (isUInt n) := inferInstanceAs (Decidable (n ≤ 4294967295))

/-- Model of `QString::toInt()`: the value read by `toLongLong` when it fits an
`int`, and `0` when the conversion fails. -/
def toInt (s : String) : Int :=
  match toLongLong s with
  | some v => if isInt v then v else 0
  | none => 0

/-- Model of `QString::toUInt()`: the value read by `toLongLong` when it fits a
`uint`, and `0` when the conversion fails. -/
def toUInt (s : String) : Nat :=
  match toLongLong s with
  | some v => if 0 ≤ v ∧ v ≤ 4294967295 then v.toNat else 0
  | none => 0

/-! ## Floating-point numbers -/

/-- The whole number nearest to a rational, a tie going to the even one. -/
def roundHalfEven (x : Rat) : Int :=
  if x - ⌊x⌋ < 1 / 2 then ⌊x⌋
  else if 1 / 2 < x - ⌊x⌋ then ⌊x⌋ + 1
  else if ⌊x⌋ % 2 = 0 then ⌊x⌋ else ⌊x⌋ + 1

/-- The number with `digits` significant digits in base `base` nearest to a
rational, a tie going to the even last digit: the rational is divided by the
unit of its last digit, rounded to a whole number and multiplied again. The
range of the exponent is left out. -/
def roundTo (base digits : Nat) (q : Rat) : Rat :=
  if q = 0 then 0
  else
    (roundHalfEven (q / (base : Rat) ^ (Int.log base |q| - ((digits : Int) - 1))) : Rat)
      * (base : Rat) ^ (Int.log base |q| - ((digits : Int) - 1))

/-- The value of the C++ type `float` nearest to a rational: 24 bits of
significand, rounding to nearest, ties to even. -/
def toSingle (q : Rat) : Rat := roundTo 2 24 q

/-- The value of the C++ type `double` nearest to a rational: 53 bits of
significand, rounding to nearest, ties to even. It is the result of an
arithmetic operation on `double` values whose exact result is the rational. -/
def toDouble (q : Rat) : Rat := roundTo 2 53 q

/-- Model of the conversion of a `double` to `int`: the fraction is dropped. -/
def truncate (x : Rat) : Int := if 0 ≤ x then ⌊x⌋ else ⌈x⌉

/-! ## XML documents (QDomDocument) -/

/-- A node of a parsed document: an element with its attributes and child
nodes, or character data. -/
inductive QDomNode where
  | element (tagName : String) (attributes : List (String × String))
      (childNodes : List QDomNode)
  | text (data : String)

namespace QDomNode

/-- The node made by `QDomDocument::createElement(tagName)`. -/
def createElement (tagName : String) : QDomNode := element tagName [] []

/-- Whether the node is an element (`!toElement().isNull()`). -/
def isElement : QDomNode → Bool
  | element _ _ _ => true
  | text _ => false

/-- Model of `QDomElement::attribute(name)`: the value of the attribute, the
empty text when the element has no such attribute. -/
def getAttribute : QDomNode → String → String
  | element _ attrs _, name =>
    match attrs.lookup name with
    | some v => v
    | none => ""
  | text _, _ => ""

/-- Attribute list after `setAttribute(name, value)`: the value of an attribute
already present is replaced, a new attribute is added otherwise. -/
def setAttr (name value : String) : List (String × String) → List (String × String)
  | [] => [(name, value)]
  | (k, v) :: rest =>
    if k = name then (k, value) :: rest else (k, v) :: setAttr name value rest

/-- Model of `QDomElement::setAttribute(name, value)`. -/
def setAttribute : QDomNode → String → String → QDomNode
  | element t attrs cs, name, value => element t (setAttr name value attrs) cs
  | text d, _, _ => text d

/-- Model of `QDomNode::appendChild(child)`. -/
def appendChild : QDomNode → QDomNode → QDomNode
  | element t attrs cs, c => element t attrs (cs ++ [c])
  | text d, _ => text d

/-- The child elements in document order: the nodes visited by
`firstChildElement()` followed by `nextSiblingElement()` until a null element. -/
def childElements : QDomNode → List QDomNode
  | element _ _ cs => cs.filter isElement
  | text _ => []

end QDomNode

/-! ## Files -/

/-- What a file holds, as `QDomDocument::setContent` sees it: text that is not
a well-formed document (setContent returns false), or a document with its root
element. Writing a document with `QDomDocument::save` and reading the file
again gives back the same element tree. -/
inductive FileContent where
  | malformed
  | xml (documentElement : QDomNode)

/-- One file on disk: its content (`none` when the file does not exist),
whether it can be opened for reading and for writing, and whether it can be
removed, which it can unless said otherwise. -/
structure DiskFile where
  content : Option FileContent
  readable : Bool
  writable : Bool
  removable : Bool := true

namespace DiskFile

/-- Model of `QFile::open(ReadOnly | Text)`: the content when the file exists and
may be read, `none` when the open fails. -/
def openRead (f : DiskFile) : Option FileContent :=
  if f.readable then f.content else none

/-- Model of `QFile::open(WriteOnly | Text)`: whether the open succeeds. -/
def openWrite (f : DiskFile) : Bool := f.writable

/-- The file after a document with root `root` was written to it. -/
def write (f : DiskFile) (root : QDomNode) : DiskFile :=
  { f with content := some (FileContent.xml root) }

/-- Model of `QFile::remove()`: the file is gone afterwards when it can be
removed, and stays as it is when the removal fails. The callers ignore the
result of the call, so it is not part of the model. -/
def remove (f : DiskFile) : DiskFile := if f.removable then { f with content := none } else f

end DiskFile

/-- The two files next to the settings file. -/
structure FileSystem where
  tabsXml : DiskFile
  bookmarksXml : DiskFile

/-! ## Document views and bookmarks -/

/-- The C++ type `qreal`, a `double`: its values are rationals, and an operation
of the source that rounds its result is written with `toDouble`. -/
abbrev qreal := Rat

/-- Modelled from the spec: the declaration of `DocumentView::ScaleMode` is not
among the sources. A scale mode is the unsigned value of the enumeration, its
enumerators numbered in the order the spec lists them (fixed factor, fit width,
fit page). -/
structure ScaleMode where
  value : Nat
  deriving DecidableEq, Repr

/-- Scale by the scale factor. -/
def ScaleMode.ScaleFactor : ScaleMode := { value := 0 }
/-- Fit the page width. -/
def ScaleMode.FitToPageWidth : ScaleMode := { value := 1 }
/-- Fit the whole page. -/
def ScaleMode.FitToPageSize : ScaleMode := { value := 2 }

/-- The unsigned value of `Poppler::Page::Rotation` (0, 90, 180 and 270 degrees
are numbered 0 to 3). -/
structure Rotation where
  value : Nat
  deriving DecidableEq, Repr

/-- Modelled from the spec: the class `DocumentView` is not among the sources.
A view is the record of the attributes the spec gives a tab; every getter
returns the stored attribute and every setter stores its argument. `object` is
the identity of the C++ object. -/
structure DocumentView where
  object : Nat
  filePath : String
  currentPage : Int
  continousMode : Bool
  twoPagesMode : Bool
  scaleMode : ScaleMode
  scaleFactor : qreal
  rotation : Rotation
  deriving DecidableEq, Repr

/-- Modelled from the spec: the class `Bookmark` is not among the sources. A
bookmark is a file path with the ordered list of its recorded pages;
`addJumpToPage` appends unconditionally. `deferredDelete` is set by
`deleteLater()` and read when control is back in the event loop. -/
structure Bookmark where
  filePath : String
  pages : List Int
  deferredDelete : Bool
  deriving DecidableEq, Repr

/-- What the toolkit and the document layer decide: the path functions of
`QFileInfo`, whether `DocumentView::open` succeeds on a path, the text of a
`qreal` and its value read back, and the attributes of a view just constructed. -/
structure Env where
  absoluteFilePath : String → String
  absolutePath : String → String
  completeBaseName : String → String
  canOpen : String → Bool
  numberReal : qreal → String
  toFloat : String → qreal
  newView : DocumentView

namespace DocumentView

/-- Modelled from the spec: `open(path) -> success` (`DocumentView::open`); a
successful open makes
`path` the file path of the view, a failed one is `none`. -/
def openDocument (env : Env) (v : DocumentView) (filePath : String) : Option DocumentView :=
  if env.canOpen filePath then some { v with filePath := filePath } else none

/-- Setter of the continuous-mode flag. -/
def setContinousMode (v : DocumentView) (b : Bool) : DocumentView :=
  { v with continousMode := b }

/-- Setter of the two-pages-mode flag. -/
def setTwoPagesMode (v : DocumentView) (b : Bool) : DocumentView :=
  { v with twoPagesMode := b }

/-- Setter of the scale mode. -/
def setScaleMode (v : DocumentView) (m : ScaleMode) : DocumentView :=
  { v with scaleMode := m }

/-- Setter of the scale factor. -/
def setScaleFactor (v : DocumentView) (f : qreal) : DocumentView :=
  { v with scaleFactor := f }

/-- Setter of the rotation. -/
def setRotation (v : DocumentView) (r : Rotation) : DocumentView :=
  { v with rotation := r }

/-- Modelled from the spec: jump to the given page. -/
def jumpToPage (v : DocumentView) (page : Int) : DocumentView :=
  { v with currentPage := page }

end DocumentView

namespace Bookmark

/-- The bookmark made by `new Bookmark(filePath)`: no page recorded. -/
def new (filePath : String) : Bookmark :=
  { filePath := filePath, pages := [], deferredDelete := false }

/-- Modelled from the spec: append `page` to the recorded pages. -/
def addJumpToPage (b : Bookmark) (page : Int) : Bookmark :=
  { b with pages := b.pages ++ [page] }

/-- Model of `QObject::deleteLater()`: the object stays until the event loop
deletes it. -/
def deleteLater (b : Bookmark) : Bookmark := { b with deferredDelete := true }

end Bookmark


/-! ## The main window -/

/-- The settings the persistence code reads and writes (`m_settings`): the keys
`mainWindow/restoreTabs` and `mainWindow/restoreBookmarks`, both false when
absent, and `mainWindow/path`. -/
structure QSettings where
  restoreTabs : Bool
  restoreBookmarks : Bool
  path : Option String
  deriving DecidableEq, Repr

/-- An entry of a menu: a plain action, a separator, the action of a tab (its
parent is the view of that tab), or the action of a bookmark sub-menu. -/
inductive QAction where
  | action (text : String)
  | separator
  | tabAction (text : String) (parent : Nat)
  | menuAction (menu : Bookmark)
  deriving DecidableEq, Repr

/-- The bookmark behind an action, `qobject_cast< Bookmark* >(action->menu())`;
`none` is the null pointer. -/
def QAction.menu : QAction → Option Bookmark
  | QAction.menuAction b => some b
  | _ => none

/-- One page of the tab widget: the view with the text and tool tip of its tab. -/
structure TabPage where
  widget : DocumentView
  text : String
  toolTip : String
  deriving DecidableEq, Repr

/-- State of the main window: the settings, the pages of `m_tabWidget` with its
current index (-1 without tabs), the actions of `m_tabsMenu` and of
`m_bookmarksMenu`, the warnings shown with `QMessageBox::warning`, the paths
handed to `DocumentView::open` so far, and the identity of the next object.
The enabled and checked states of the actions and the other widgets that the
slots of the view signals update are not part of this state; they make up the
state `Widgets`. -/
structure MainWindow where
  settings : QSettings
  tabs : List TabPage
  currentIndex : Int
  tabsMenu : List QAction
  bookmarksMenu : List QAction
  warnings : List String
  openCalls : List String
  nextObject : Nat
  deriving DecidableEq, Repr

namespace MainWindow

/-- The window as `createWidgets` to `createMenus` leave it, before anything is
restored: no tab, and the fixed entries of the two menus. -/
def create (settings : QSettings) : MainWindow :=
  { settings := settings
    tabs := []
    currentIndex := -1
    tabsMenu := [QAction.action "&Previous tab", QAction.action "&Next tab",
      QAction.separator, QAction.action "&Close tab", QAction.action "Close &all tabs",
      QAction.separator]
    bookmarksMenu := [QAction.action "&Add bookmark",
      QAction.action "&Remove all bookmarks", QAction.separator]
    warnings := []
    openCalls := []
    nextObject := 0 }

/-- The views of the open tabs, in tab order. -/
def views (w : MainWindow) : List DocumentView := w.tabs.map TabPage.widget

/-- The bookmarks of the bookmarks menu, in menu order. -/
def bookmarks (w : MainWindow) : List Bookmark := w.bookmarksMenu.filterMap QAction.menu

/-- Embedding of `MainWindow::tab(index)`; `none` is the null pointer. -/
def tab (w : MainWindow) (index : Int) : Option DocumentView :=
  if 0 ≤ index then (w.tabs.get? index.toNat).map TabPage.widget else none

/-- Embedding of `MainWindow::currentTab()`; `none` is the null pointer. -/
def currentTab (w : MainWindow) : Option DocumentView := w.tab w.currentIndex

/-- A call `currentTab()->f(...)` of a setter: the view at the current index is
replaced by the result; `none` when `currentTab()` is null. -/
def onCurrentTab (w : MainWindow) (f : DocumentView → DocumentView) : Option MainWindow :=
  match w.currentTab with
  | some _ =>
    let tabs := w.tabs.modify (fun t => { t with widget := f t.widget }) w.currentIndex.toNat
    some { w with tabs := tabs }
  | none => none

end MainWindow

/-- Embedding of `MainWindow::openInNewTab(filePath, page)`: the window
afterwards and the returned flag. `newTab` is a pointer in the source, so the
jump made after `addTab` is a jump of the view held by the tab widget. -/
def openInNewTab (env : Env) (w : MainWindow) (filePath : String) (page : Int) :
    MainWindow × Bool :=
  let newTab : DocumentView := { env.newView with object := w.nextObject }
  let w1 : MainWindow :=
    { w with nextObject := w.nextObject + 1, openCalls := w.openCalls ++ [filePath] }
  match newTab.openDocument env filePath with
  | some opened =>
    let index : Nat := w1.tabs.length
    let text := env.completeBaseName filePath
    let newPage : TabPage :=
      { widget := opened.jumpToPage page
        text := text
        toolTip := env.absoluteFilePath filePath }
    ({ w1 with
        tabs := w1.tabs ++ [newPage]
        currentIndex := (index : Int)
        settings := { w1.settings with path := some (env.absolutePath filePath) }
        tabsMenu := w1.tabsMenu ++ [QAction.tabAction text opened.object] }, true)
  | none =>
    ({ w1 with warnings := w1.warnings ++ ["Could not open \x27" ++ filePath ++ "\x27."] },
      false)

/-- Body of the loop of `restoreTabs` for one child element of the root. The
call `openInNewTab(tabElement.attribute("filePath"))` takes the default page of
the declaration, which is not among the sources: the first page. -/
def restoreTab (env : Env) (w : MainWindow) (tabElement : QDomNode) : Option MainWindow :=
  match openInNewTab env w (tabElement.getAttribute "filePath") 1 with
  | (w1, true) => do
    let w2 ← w1.onCurrentTab (fun v =>
      v.setContinousMode (toUInt (tabElement.getAttribute "continuousMode") != 0))
    let w3 ← w2.onCurrentTab (fun v =>
      v.setTwoPagesMode (toUInt (tabElement.getAttribute "twoPagesMode") != 0))
    let w4 ← w3.onCurrentTab (fun v =>
      v.setScaleMode { value := toUInt (tabElement.getAttribute "scaleMode") })
    let w5 ← w4.onCurrentTab (fun v =>
      v.setScaleFactor (env.toFloat (tabElement.getAttribute "scaleFactor")))
    let w6 ← w5.onCurrentTab (fun v =>
      v.setRotation { value := toUInt (tabElement.getAttribute "rotation") })
    w6.onCurrentTab (fun v => v.jumpToPage (toInt (tabElement.getAttribute "currentPage")))
  | (w1, false) => some w1

/-- The `while(!tabElement.isNull())` loop of `restoreTabs` over the child
elements of the root, in document order. -/
def restoreTabsLoop (env : Env) : List QDomNode → MainWindow → Option MainWindow
  | [], w => some w
  | tabElement :: rest, w => (restoreTab env w tabElement).bind (restoreTabsLoop env rest)

/-- Embedding of `MainWindow::restoreTabs()`; `none` would be a null
`currentTab()` being dereferenced. -/
def restoreTabs (env : Env) (w : MainWindow) (fs : FileSystem) : Option MainWindow :=
  if w.settings.restoreTabs then
    match fs.tabsXml.openRead with
    | some (FileContent.xml rootElement) => restoreTabsLoop env rootElement.childElements w
    | _ => some w
  else some w

/-- The element `saveTabs` writes for one tab. -/
def tabElementOf (env : Env) (v : DocumentView) : QDomNode :=
  let e0 := QDomNode.createElement "tab"
  let e1 := e0.setAttribute "filePath" (env.absoluteFilePath v.filePath)
  let e2 := e1.setAttribute "currentPage" (numberInt v.currentPage)
  let e3 := e2.setAttribute "continuousMode" (numberUInt (if v.continousMode then 1 else 0))
  let e4 := e3.setAttribute "twoPagesMode" (numberUInt (if v.twoPagesMode then 1 else 0))
  let e5 := e4.setAttribute "scaleMode" (numberUInt v.scaleMode.value)
  let e6 := e5.setAttribute "scaleFactor" (env.numberReal v.scaleFactor)
  e6.setAttribute "rotation" (numberUInt v.rotation.value)

/-- Embedding of `MainWindow::saveTabs()`: the files afterwards. -/
def saveTabs (env : Env) (w : MainWindow) (fs : FileSystem) : FileSystem :=
  if w.settings.restoreTabs then
    if fs.tabsXml.openWrite then
      let rootElement := w.tabs.foldl
        (fun root t => root.appendChild (tabElementOf env t.widget))
        (QDomNode.createElement "tabs")
      { fs with tabsXml := fs.tabsXml.write rootElement }
    else fs
  else { fs with tabsXml := fs.tabsXml.remove }

/-! ## Bookmarks -/

/-- The `foreach` loop of `on_addBookmark_triggered` over the actions of the
bookmarks menu, for the file path and the current page of the current tab:
`some` of the menu afterwards when the loop leaves the function at a bookmark of
the same absolute file path, `none` when the loop runs to its end. -/
def addBookmarkLoop (env : Env) (filePath : String) (currentPage : Int) :
    List QAction → Option (List QAction)
  | [] => none
  | action :: rest =>
    match action.menu with
    | some bookmark =>
      if env.absoluteFilePath bookmark.filePath = env.absoluteFilePath filePath then
        if currentPage ≠ 1 then
          some (QAction.menuAction (bookmark.addJumpToPage currentPage) :: rest)
        else some (action :: rest)
      else (addBookmarkLoop env filePath currentPage rest).map (fun m => action :: m)
    | none => (addBookmarkLoop env filePath currentPage rest).map (fun m => action :: m)

/-- Embedding of `MainWindow::on_addBookmark_triggered()`; `none` would be a null
`currentTab()` being dereferenced. -/
def on_addBookmark_triggered (env : Env) (w : MainWindow) : Option MainWindow :=
  match w.currentTab with
  | none => none
  | some currentTab =>
    match addBookmarkLoop env currentTab.filePath currentTab.currentPage w.bookmarksMenu with
    | some menu => some { w with bookmarksMenu := menu }
    | none =>
      let bookmark := Bookmark.new currentTab.filePath
      let bookmark :=
        if currentTab.currentPage ≠ 1 then bookmark.addJumpToPage currentTab.currentPage
        else bookmark
      some { w with bookmarksMenu := w.bookmarksMenu ++ [QAction.menuAction bookmark] }

/-- Embedding of `MainWindow::on_removeAllBookmarks_triggered()`: `deleteLater()`
is called on every bookmark of the menu. -/
def on_removeAllBookmarks_triggered (w : MainWindow) : MainWindow :=
  { w with bookmarksMenu := w.bookmarksMenu.map (fun action =>
      match action.menu with
      | some bookmark => QAction.menuAction bookmark.deleteLater
      | none => action) }

/-- Control returns to the event loop after a slot: the objects on which
`deleteLater()` was called are deleted, and a deleted bookmark takes its action
out of the bookmarks menu. -/
def processDeferredDeletes (w : MainWindow) : MainWindow :=
  { w with bookmarksMenu := w.bookmarksMenu.filter (fun action =>
      match action.menu with
      | some bookmark => !bookmark.deferredDelete
      | none => true) }

/-- The bookmark `restoreBookmarks` builds from one child element of the root:
`new Bookmark(attribute filePath)` and one `addJumpToPage` per child element. -/
def bookmarkOfElement (bookmarkElement : QDomNode) : Bookmark :=
  bookmarkElement.childElements.foldl
    (fun bookmark jumpToPageElement =>
      bookmark.addJumpToPage (toInt (jumpToPageElement.getAttribute "page")))
    (Bookmark.new (bookmarkElement.getAttribute "filePath"))

/-- Embedding of `MainWindow::restoreBookmarks()`. -/
def restoreBookmarks (w : MainWindow) (fs : FileSystem) : MainWindow :=
  if w.settings.restoreBookmarks then
    match fs.bookmarksXml.openRead with
    | some (FileContent.xml rootElement) =>
      rootElement.childElements.foldl
        (fun w1 bookmarkElement =>
          { w1 with bookmarksMenu :=
              w1.bookmarksMenu ++ [QAction.menuAction (bookmarkOfElement bookmarkElement)] })
        w
    | _ => w
  else w

/-- The element `saveBookmarks` writes for one bookmark. -/
def bookmarkElementOf (env : Env) (bookmark : Bookmark) : QDomNode :=
  bookmark.pages.foldl
    (fun bookmarkElement page =>
      bookmarkElement.appendChild
        ((QDomNode.createElement "jumpToPage").setAttribute "page" (numberInt page)))
    ((QDomNode.createElement "bookmark").setAttribute "filePath"
      (env.absoluteFilePath bookmark.filePath))

/-- Embedding of `MainWindow::saveBookmarks()`: the files afterwards. -/
def saveBookmarks (env : Env) (w : MainWindow) (fs : FileSystem) : FileSystem :=
  if w.settings.restoreBookmarks then
    if fs.bookmarksXml.openWrite then
      let rootElement := w.bookmarksMenu.foldl
        (fun root action =>
          match action.menu with
          | some bookmark => root.appendChild (bookmarkElementOf env bookmark)
          | none => root)
        (QDomNode.createElement "bookmarks")
      { fs with bookmarksXml := fs.bookmarksXml.write rootElement }
    else fs
  else { fs with bookmarksXml := fs.bookmarksXml.remove }

/-! ## Calls on views, the settings dialog and the scale-factor box -/

/-- A call of a setter of a view, with its argument. -/
inductive ViewCall where
  | setContinousMode (b : Bool)
  | setTwoPagesMode (b : Bool)
  | setScaleMode (m : ScaleMode)
  | setScaleFactor (f : qreal)
  | setRotation (r : Rotation)
  | jumpToPage (page : Int)
  deriving DecidableEq, Repr

/-- What the call does to the view that receives it. -/
def ViewCall.apply : ViewCall → DocumentView → DocumentView
  | ViewCall.setContinousMode b, v => v.setContinousMode b
  | ViewCall.setTwoPagesMode b, v => v.setTwoPagesMode b
  | ViewCall.setScaleMode m, v => v.setScaleMode m
  | ViewCall.setScaleFactor f, v => v.setScaleFactor f
  | ViewCall.setRotation r, v => v.setRotation r
  | ViewCall.jumpToPage page, v => v.jumpToPage page

/-- A call `currentTab()->setter(argument)` together with its record: the
window afterwards, and the call with the identity of the view that received
it; `none` when `currentTab()` is null. -/
def MainWindow.callCurrentTab (w : MainWindow) (call : ViewCall) :
    Option (MainWindow × (Nat × ViewCall)) :=
  match w.currentTab with
  | some v => (w.onCurrentTab call.apply).map (fun w1 => (w1, (v.object, call)))
  | none => none

/-- The body of the loop of `restoreTabs` for one child element of the root, as
`restoreTab`, with the list of the calls `currentTab()->...` it makes, in the
order in which it makes them. The `jumpToPage(page)` inside `openInNewTab`
belongs to the opening of the tab and is not listed. -/
def restoreTabCalls (env : Env) (w : MainWindow) (tabElement : QDomNode) :
    Option (MainWindow × List (Nat × ViewCall)) :=
  match openInNewTab env w (tabElement.getAttribute "filePath") 1 with
  | (w1, true) => do
    let (w2, c1) ← w1.callCurrentTab
      (ViewCall.setContinousMode (toUInt (tabElement.getAttribute "continuousMode") != 0))
    let (w3, c2) ← w2.callCurrentTab
      (ViewCall.setTwoPagesMode (toUInt (tabElement.getAttribute "twoPagesMode") != 0))
    let (w4, c3) ← w3.callCurrentTab
      (ViewCall.setScaleMode { value := toUInt (tabElement.getAttribute "scaleMode") })
    let (w5, c4) ← w4.callCurrentTab
      (ViewCall.setScaleFactor (env.toFloat (tabElement.getAttribute "scaleFactor")))
    let (w6, c5) ← w5.callCurrentTab
      (ViewCall.setRotation { value := toUInt (tabElement.getAttribute "rotation") })
    let (w7, c6) ← w6.callCurrentTab
      (ViewCall.jumpToPage (toInt (tabElement.getAttribute "currentPage")))
    some (w7, [c1, c2, c3, c4, c5, c6])
  | (w1, false) => some (w1, [])

/-- The loop of `restoreTabs` over the child elements of the root, as
`restoreTabsLoop`, with the list of all setter calls made, in order. -/
def restoreTabsLoopCalls (env : Env) :
    List QDomNode → MainWindow → Option (MainWindow × List (Nat × ViewCall))
  | [], w => some (w, [])
  | tabElement :: rest, w =>
    match restoreTabCalls env w tabElement with
    | some (w1, calls) =>
      match restoreTabsLoopCalls env rest w1 with
      | some (w2, more) => some (w2, calls ++ more)
      | none => none
    | none => none

/-- The text of the warning shown for a view that does not refresh,
`tr("Could not refresh '%1'.").arg(filePath)`. -/
def couldNotRefresh (filePath : String) : String :=
  "Could not refresh \x27" ++ filePath ++ "\x27."

/-- Embedding of `MainWindow::on_refresh_triggered()`. `refresh` stands for
`DocumentView::refresh()`, which is not among the sources: whether reloading
the document of a view succeeds; the attributes of the views are left as they
are. `none` would be a null `currentTab()` being dereferenced. -/
def on_refresh_triggered (refresh : DocumentView → Bool) (w : MainWindow) : Option MainWindow :=
  match w.currentTab with
  | some currentTab =>
    if !refresh currentTab then
      some { w with warnings := w.warnings ++ [couldNotRefresh currentTab.filePath] }
    else some w
  | none => none

/-- The `for` loop of `on_settings_triggered` over the tabs, in index order:
`tab(index)->refresh()` is tried, and on failure the warning is shown with
`currentTab()->filePath()`. -/
def refreshLoop (refresh : DocumentView → Bool) : List TabPage → MainWindow → Option MainWindow
  | [], w => some w
  | page :: rest, w =>
    if !refresh page.widget then
      match w.currentTab with
      | some currentTab =>
        refreshLoop refresh rest
          { w with warnings := w.warnings ++ [couldNotRefresh currentTab.filePath] }
      | none => none
    else refreshLoop refresh rest w

/-- Embedding of `MainWindow::on_settings_triggered()`; `accepted` says whether
the settings dialog was accepted. The tab position, the tab bar policy and the
page cache, which it also sets, are not part of the window state. -/
def on_settings_triggered (refresh : DocumentView → Bool) (accepted : Bool) (w : MainWindow) :
    Option MainWindow :=
  if accepted then refreshLoop refresh w.tabs w else some w

/-- Model of the flag of `QString::toInt(&ok)`: whether the text is read as an
`int`. -/
def toIntOk (s : String) : Bool :=
  match toLongLong s with
  | some v => decide (isInt v)
  | none => false

/-- Embedding of `MainWindow::on_scaleFactor_editingFinished()`, with the list
of the setter calls it makes. `text` is the text of the line edit of the scale
factor box; `minimumScaleFactor` and `maximumScaleFactor` stand for the static
functions of `DocumentView`, which are not among the sources. The quotient
`toInt(&ok) / 100.0` is a quotient of `double` values. The two slots
called at the end read the current tab and update widgets, which are not part
of the window state. `none` would be a null `currentTab()` being dereferenced. -/
def on_scaleFactor_editingFinished (minimumScaleFactor maximumScaleFactor : qreal)
    (text : String) (w : MainWindow) : Option (MainWindow × List (Nat × ViewCall)) :=
  if w.currentIndex ≠ -1 then
    let ok := toIntOk text
    let scaleFactor : qreal := toDouble ((toInt text : qreal) / 100)
    let scaleFactor := if scaleFactor ≥ minimumScaleFactor then scaleFactor else minimumScaleFactor
    let scaleFactor := if scaleFactor ≤ maximumScaleFactor then scaleFactor else maximumScaleFactor
    if ok then do
      let (w1, c1) ← w.callCurrentTab (ViewCall.setScaleFactor scaleFactor)
      let (w2, c2) ← w1.callCurrentTab (ViewCall.setScaleMode ScaleMode.ScaleFactor)
      let _ ← w2.currentTab
      some (w2, [c1, c2])
    else do
      let _ ← w.currentTab
      some (w, [])
  else some (w, [])

/-! ## Widgets of the window and the slots of the view signals -/

/-- The actions and the input widgets of the window (`createActions`,
`createWidgets`), named as the members of the class without `m_`. -/
inductive Control where
  | openAction
  | openInNewTabAction
  | refreshAction
  | saveCopyAction
  | printAction
  | exitAction
  | previousPageAction
  | nextPageAction
  | firstPageAction
  | lastPageAction
  | jumpToPageAction
  | searchAction
  | findPreviousAction
  | findNextAction
  | cancelSearchAction
  | settingsAction
  | continuousModeAction
  | twoPagesModeAction
  | zoomInAction
  | zoomOutAction
  | originalSizeAction
  | fitToPageWidthAction
  | fitToPageSizeAction
  | rotateLeftAction
  | rotateRightAction
  | fontsAction
  | fullscreenAction
  | presentationAction
  | previousTabAction
  | nextTabAction
  | closeTabAction
  | closeAllTabsAction
  | addBookmarkAction
  | removeAllBookmarksAction
  | aboutAction
  | currentPageLineEdit
  | scaleFactorComboBox
  | searchLineEdit
  | matchCaseCheckBox
  | highlightAllCheckBox
  deriving DecidableEq, Repr

/-- State of the widgets that the slots below read and write: the window
title, the text of the page line edit and the range of its validator, the text
of the page-count label, the checked states of the two mode actions, of the two
fit actions and of the highlight-all box, the current index of the scale-factor
box and the text of its line edit, the search tool bar with its timer and the
text and progress of its line edit, and which controls are enabled. The models
of the outline and properties views and the scene of the thumbnails view are
not part of this state. -/
structure Widgets where
  windowTitle : String
  currentPageLineEdit : String
  currentPageValidator : Int × Int
  numberOfPagesLabel : String
  continuousModeAction : Bool
  twoPagesModeAction : Bool
  fitToPageWidthAction : Bool
  fitToPageSizeAction : Bool
  scaleFactorComboBox : Int
  scaleFactorLineEdit : String
  highlightAllCheckBox : Bool
  searchToolBar : Bool
  searchTimer : Bool
  searchLineEdit : String
  searchProgress : Int
  enabled : Control → Bool

/-- The items of the scale-factor box in the order `createWidgets` adds them,
each with its text and its user data; the first two carry no data. -/
def scaleFactorItems : List (String × Option qreal) :=
  [("Page width", none), ("Page size", none), ("50 %", some (1 / 2)), ("75 %", some (3 / 4)),
    ("100 %", some 1), ("125 %", some (5 / 4)), ("150 %", some (3 / 2)), ("200 %", some 2),
    ("400 %", some 4)]

/-- The item of the scale-factor box at an index; `none` when the box has no
such item. -/
def scaleFactorItem (index : Int) : Option (String × Option qreal) :=
  if 0 ≤ index then scaleFactorItems.get? index.toNat else none

namespace Widgets

/-- Model of `setEnabled(b)` on one control. -/
def setEnabled (ui : Widgets) (c : Control) (b : Bool) : Widgets :=
  { ui with enabled := fun x => if x = c then b else ui.enabled x }

/-- Model of `m_scaleFactorComboBox->setCurrentIndex(index)` on the editable
box: the index of an item makes that item current and its text the text of the
line edit, any other index leaves the box without current item and with an
empty line edit. The signal `currentIndexChanged` that the box emits when its
index changes runs `on_scaleFactor_currentIndexChanged`, which is embedded as a
step of its own. -/
def setScaleFactorIndex (ui : Widgets) (index : Int) : Widgets :=
  match scaleFactorItem index with
  | some (text, _) => { ui with scaleFactorComboBox := index, scaleFactorLineEdit := text }
  | none => { ui with scaleFactorComboBox := -1, scaleFactorLineEdit := "" }

end Widgets

/-- What `sender()` returns inside a slot: a document view, given by the
identity of the object, or something that is no document view (null when no
signal made the call, the tab widget, an action). -/
inductive Sender where
  | view (object : Nat)
  | other
  deriving DecidableEq, Repr

/-- Embedding of `MainWindow::senderIsCurrentTab()`: the sender is the current
widget of the tab widget, or the cast of the sender to `DocumentView*` is null.
A sender that is no view passes by the second test; a view passes by the first
one only, as the widget of every tab is a view. -/
def senderIsCurrentTab (w : MainWindow) : Sender → Bool
  | Sender.view object =>
    match w.currentTab with
    | some currentTab => currentTab.object == object
    | none => false
  | Sender.other => true

/-- The parent of an action when it is a view, `tabAction->parent()`; the
actions that `createActions` makes have the window as their parent. -/
def QAction.parent : QAction → Option Nat
  | QAction.tabAction _ parent => some parent
  | _ => none

/-- Model of `QAction::setText`; separators and the actions of sub-menus carry
no text in this state. -/
def QAction.setText : QAction → String → QAction
  | QAction.action _, text => QAction.action text
  | QAction.tabAction _ parent, text => QAction.tabAction text parent
  | a, _ => a

namespace MainWindow

/-- Number of tabs, `m_tabWidget->count()`. -/
def count (w : MainWindow) : Int := (w.tabs.length : Int)

/-- Model of `m_tabWidget->setCurrentIndex(index)`: an index that is not the
index of a tab is ignored. The slot of the signal `currentChanged` is embedded
as a step of its own. -/
def setCurrentIndex (w : MainWindow) (index : Int) : MainWindow :=
  if 0 ≤ index ∧ index < w.count then { w with currentIndex := index } else w

/-- Model of `m_tabWidget->tabText(index)`: the empty text when there is no
such tab. -/
def tabText (w : MainWindow) (index : Int) : String :=
  if 0 ≤ index then
    match w.tabs.get? index.toNat with
    | some tabPage => tabPage.text
    | none => ""
  else ""

/-- Model of `m_tabWidget->setTabText(index, text)`: nothing happens when there
is no such tab. -/
def setTabText (w : MainWindow) (index : Int) (text : String) : MainWindow :=
  if 0 ≤ index then
    { w with tabs := w.tabs.modify (fun t => { t with text := text }) index.toNat }
  else w

/-- Model of `m_tabWidget->setTabToolTip(index, toolTip)`: nothing happens when
there is no such tab. -/
def setTabToolTip (w : MainWindow) (index : Int) (toolTip : String) : MainWindow :=
  if 0 ≤ index then
    { w with tabs := w.tabs.modify (fun t => { t with toolTip := toolTip }) index.toNat }
  else w

end MainWindow

/-- The `foreach` loop of `on_currentTab_filePathChanged` over the actions of
the tabs menu: the first action whose parent is the view `object` gets the
text, and the loop ends there. -/
def setTextOfTabAction (object : Nat) (text : String) : List QAction → List QAction
  | [] => []
  | tabAction :: rest =>
    if tabAction.parent = some object then tabAction.setText text :: rest
    else tabAction :: setTextOfTabAction object text rest

/-- The `for` loop of `on_currentTab_filePathChanged` from `index` on, over the
pages of the tab widget from that index on: at the first tab whose widget is
the sender, the text and the tool tip of the tab at `currentIndex()` are set,
the action of the tabs menu whose parent is the widget at `index` gets the text
of the tab at `index`, and the loop ends. -/
def filePathChangedLoop (env : Env) (sender : Sender) (filePath : String) :
    Nat → List TabPage → MainWindow → MainWindow
  | _, [], w => w
  | index, tabPage :: rest, w =>
    if sender = Sender.view tabPage.widget.object then
      let w1 := w.setTabText w.currentIndex (env.completeBaseName filePath)
      let w2 := w1.setTabToolTip w1.currentIndex (env.absoluteFilePath filePath)
      { w2 with
        tabsMenu := setTextOfTabAction tabPage.widget.object (w2.tabText index) w2.tabsMenu }
    else filePathChangedLoop env sender filePath (index + 1) rest w

/-- Embedding of `MainWindow::on_currentTab_filePathChanged(filePath)`, run
with the given sender. -/
def on_currentTab_filePathChanged (env : Env) (w : MainWindow) (ui : Widgets) (sender : Sender)
    (filePath : String) : MainWindow × Widgets :=
  let w1 := filePathChangedLoop env sender filePath 0 w.tabs w
  if senderIsCurrentTab w1 sender then
    (w1, { ui with windowTitle := w1.tabText w1.currentIndex ++ " - qpdfview" })
  else (w1, ui)

/-- Embedding of `MainWindow::on_currentTab_numberOfPagesChaned(numberOfPages)`. -/
def on_currentTab_numberOfPagesChaned (w : MainWindow) (ui : Widgets) (sender : Sender)
    (numberOfPages : Int) : Widgets :=
  if senderIsCurrentTab w sender then
    { ui with
      currentPageValidator := (1, numberOfPages)
      numberOfPagesLabel := "of " ++ numberInt numberOfPages }
  else ui

/-- Embedding of `MainWindow::on_currentTab_currentPageChanged(currentPage)`.
The thumbnails view, which it scrolls to the item of the page, is not part of
the state; `none` would be a null `currentTab()` being dereferenced. -/
def on_currentTab_currentPageChanged (w : MainWindow) (ui : Widgets) (sender : Sender)
    (currentPage : Int) : Option Widgets :=
  if senderIsCurrentTab w sender then
    match w.currentTab with
    | some _ => some { ui with currentPageLineEdit := numberInt currentPage }
    | none => none
  else some ui

/-- Embedding of `MainWindow::on_currentTab_continuousModeChanged(continuousMode)`. -/
def on_currentTab_continuousModeChanged (w : MainWindow) (ui : Widgets) (sender : Sender)
    (continuousMode : Bool) : Widgets :=
  if senderIsCurrentTab w sender then { ui with continuousModeAction := continuousMode } else ui

/-- Embedding of `MainWindow::on_currentTab_twoPagesModeChanged(twoPagesMode)`. -/
def on_currentTab_twoPagesModeChanged (w : MainWindow) (ui : Widgets) (sender : Sender)
    (twoPagesMode : Bool) : Widgets :=
  if senderIsCurrentTab w sender then { ui with twoPagesModeAction := twoPagesMode } else ui

/-- Model of `qRound(qreal d)`, which is
`d >= 0.0 ? int(d + 0.5) : int(d - int(d-1) + 0.5) + int(d-1)` with every
operation made in `double`. -/
def qRound (d : qreal) : Int :=
  if d ≥ 0 then truncate (toDouble (d + 1 / 2))
  else
    truncate (toDouble (toDouble (d - (truncate (toDouble (d - 1)) : Rat)) + 1 / 2))
      + truncate (toDouble (d - 1))

/-- Embedding of `MainWindow::on_currentTab_scaleFactorChanged(scaleFactor)`;
the product `scaleFactor * 100.0` is a product of `double` values. `none` would
be a null `currentTab()` being dereferenced. -/
def on_currentTab_scaleFactorChanged (w : MainWindow) (ui : Widgets) (sender : Sender)
    (scaleFactor : qreal) : Option Widgets :=
  if senderIsCurrentTab w sender then
    match w.currentTab with
    | some currentTab =>
      if currentTab.scaleMode = ScaleMode.ScaleFactor then
        some { ui with
          scaleFactorLineEdit := numberInt (qRound (toDouble (scaleFactor * 100))) ++ " %" }
      else some ui
    | none => none
  else some ui

/-- Embedding of `MainWindow::on_currentTab_scaleModeChanged(scaleMode)`: the
`switch` has a case for each of the three enumerators and no default; `none`
would be a null `currentTab()` being dereferenced. -/
def on_currentTab_scaleModeChanged (w : MainWindow) (ui : Widgets) (sender : Sender)
    (scaleMode : ScaleMode) : Option Widgets :=
  if senderIsCurrentTab w sender then
    if scaleMode = ScaleMode.ScaleFactor then
      let ui1 := { ui with fitToPageWidthAction := false }
      let ui2 := { ui1 with fitToPageSizeAction := false }
      let ui3 := ui2.setScaleFactorIndex (-1)
      match w.currentTab with
      | some currentTab => on_currentTab_scaleFactorChanged w ui3 sender currentTab.scaleFactor
      | none => none
    else if scaleMode = ScaleMode.FitToPageWidth then
      let ui1 := { ui with fitToPageWidthAction := true }
      let ui2 := { ui1 with fitToPageSizeAction := false }
      some (ui2.setScaleFactorIndex 0)
    else if scaleMode = ScaleMode.FitToPageSize then
      let ui1 := { ui with fitToPageWidthAction := false }
      let ui2 := { ui1 with fitToPageSizeAction := true }
      some (ui2.setScaleFactorIndex 1)
    else some ui
  else some ui

/-- Embedding of `MainWindow::on_currentTab_highlightAllChanged(highlightAll)`. -/
def on_currentTab_highlightAllChanged (w : MainWindow) (ui : Widgets) (sender : Sender)
    (highlightAll : Bool) : Widgets :=
  if senderIsCurrentTab w sender then { ui with highlightAllCheckBox := highlightAll } else ui

/-- Embedding of `MainWindow::on_scaleFactor_currentIndexChanged(index)`: the
user data of the item at `index` is read as a `qreal`, which fails when the
item has no data or there is no such item. `none` would be a null
`currentTab()` being dereferenced. -/
def on_scaleFactor_currentIndexChanged (w : MainWindow) (index : Int) : Option MainWindow :=
  if w.currentIndex ≠ -1 then
    if index = 0 then w.onCurrentTab (fun v => v.setScaleMode ScaleMode.FitToPageWidth)
    else if index = 1 then w.onCurrentTab (fun v => v.setScaleMode ScaleMode.FitToPageSize)
    else
      match (scaleFactorItem index).bind Prod.snd with
      | some scaleFactor => do
        let w1 ← w.onCurrentTab (fun v => v.setScaleFactor scaleFactor)
        w1.onCurrentTab (fun v => v.setScaleMode ScaleMode.ScaleFactor)
      | none => some w
  else some w

/-- Embedding of `MainWindow::on_fitToPageWidth_triggered(checked)`; `none`
would be a null `currentTab()` being dereferenced. -/
def on_fitToPageWidth_triggered (w : MainWindow) (checked : Bool) : Option MainWindow :=
  if checked then w.onCurrentTab (fun v => v.setScaleMode ScaleMode.FitToPageWidth)
  else w.onCurrentTab (fun v => v.setScaleMode ScaleMode.ScaleFactor)

/-- Embedding of `MainWindow::on_fitToPageSize_triggered(checked)`; `none`
would be a null `currentTab()` being dereferenced. -/
def on_fitToPageSize_triggered (w : MainWindow) (checked : Bool) : Option MainWindow :=
  if checked then w.onCurrentTab (fun v => v.setScaleMode ScaleMode.FitToPageSize)
  else w.onCurrentTab (fun v => v.setScaleMode ScaleMode.ScaleFactor)

/-- The controls that `on_tabWidget_currentChanged` enables or disables, in the
order of its `setEnabled` calls, which is the same in both branches. -/
def currentTabControls : List Control :=
  [Control.refreshAction, Control.saveCopyAction, Control.printAction,
    Control.previousPageAction, Control.nextPageAction, Control.firstPageAction,
    Control.lastPageAction,
    Control.jumpToPageAction,
    Control.searchAction, Control.findPreviousAction, Control.findNextAction,
    Control.cancelSearchAction,
    Control.continuousModeAction, Control.twoPagesModeAction,
    Control.zoomInAction, Control.zoomOutAction, Control.originalSizeAction,
    Control.fitToPageWidthAction, Control.fitToPageSizeAction,
    Control.rotateLeftAction, Control.rotateRightAction,
    Control.fontsAction,
    Control.presentationAction,
    Control.previousTabAction, Control.nextTabAction, Control.closeTabAction,
    Control.closeAllTabsAction,
    Control.addBookmarkAction,
    Control.currentPageLineEdit, Control.scaleFactorComboBox, Control.searchLineEdit,
    Control.matchCaseCheckBox, Control.highlightAllCheckBox]

/-- The `setEnabled(b)` calls at the head of a branch of
`on_tabWidget_currentChanged`, one after the other. -/
def setCurrentTabControlsEnabled (ui : Widgets) (b : Bool) : Widgets :=
  currentTabControls.foldl (fun ui c => ui.setEnabled c b) ui

/-- Embedding of `MainWindow::on_tabWidget_currentChanged(index)`, run with the
given sender. `numberOfPages` and `highlightAll` stand for the getters of
`DocumentView` of these names, which are not among the sources, as is
`cancelSearch`, whose effect on the views is not part of the state. The calls
of the slots are direct calls, so these run with the sender of this slot.
`none` would be a null `currentTab()` being dereferenced. -/
def on_tabWidget_currentChanged (env : Env) (numberOfPages : DocumentView → Int)
    (highlightAll : DocumentView → Bool) (w : MainWindow) (ui : Widgets) (sender : Sender)
    (index : Int) : Option (MainWindow × Widgets) :=
  if index ≠ -1 then do
    let ui1 := setCurrentTabControlsEnabled ui true
    let ui2 :=
      if ui1.searchToolBar then
        { ui1 with searchTimer := false, searchLineEdit := "", searchProgress := 0 }
      else ui1
    let v1 ← w.currentTab
    let (w1, ui3) := on_currentTab_filePathChanged env w ui2 sender v1.filePath
    let v2 ← w1.currentTab
    let ui4 := on_currentTab_numberOfPagesChaned w1 ui3 sender (numberOfPages v2)
    let v3 ← w1.currentTab
    let ui5 ← on_currentTab_currentPageChanged w1 ui4 sender v3.currentPage
    let v4 ← w1.currentTab
    let ui6 := on_currentTab_continuousModeChanged w1 ui5 sender v4.continousMode
    let v5 ← w1.currentTab
    let ui7 := on_currentTab_twoPagesModeChanged w1 ui6 sender v5.twoPagesMode
    let v6 ← w1.currentTab
    let ui8 ← on_currentTab_scaleModeChanged w1 ui7 sender v6.scaleMode
    let v7 ← w1.currentTab
    let ui9 ← on_currentTab_scaleFactorChanged w1 ui8 sender v7.scaleFactor
    let v8 ← w1.currentTab
    let ui10 := on_currentTab_highlightAllChanged w1 ui9 sender (highlightAll v8)
    some (w1, ui10)
  else
    let ui1 := setCurrentTabControlsEnabled ui false
    let ui2 :=
      if ui1.searchToolBar then
        { ui1 with
          searchTimer := false, searchToolBar := false, searchLineEdit := "",
          searchProgress := 0 }
      else ui1
    let ui3 := { ui2 with windowTitle := "qpdfview" }
    let ui4 := { ui3 with currentPageLineEdit := "" }
    let ui5 := { ui4 with numberOfPagesLabel := "" }
    let ui6 := ui5.setScaleFactorIndex 4
    let ui7 := { ui6 with continuousModeAction := false }
    let ui8 := { ui7 with twoPagesModeAction := false }
    let ui9 := { ui8 with fitToPageSizeAction := false }
    some (w, { ui9 with fitToPageWidthAction := false })

/-- Embedding of `MainWindow::on_previousTab_triggered()`. -/
def on_previousTab_triggered (w : MainWindow) : MainWindow :=
  if w.currentIndex > 0 then w.setCurrentIndex (w.currentIndex - 1)
  else w.setCurrentIndex (w.count - 1)

/-- Embedding of `MainWindow::on_nextTab_triggered()`. -/
def on_nextTab_triggered (w : MainWindow) : MainWindow :=
  if w.currentIndex < w.count - 1 then w.setCurrentIndex (w.currentIndex + 1)
  else w.setCurrentIndex 0

/-- The `for` loop of `refreshOrOpenInNewTab` from `index` on, over the pages
of the tab widget from that index on; the flag says whether the loop ended in
`return true`. `refresh` stands for `DocumentView::refresh()`, as in
`on_refresh_triggered`. `none` would be a null `currentTab()` being
dereferenced. -/
def refreshOrOpenLoop (env : Env) (refresh : DocumentView → Bool) (filePath : String)
    (page : Int) : Nat → List TabPage → MainWindow → Option (MainWindow × Bool)
  | _, [], w => some (w, false)
  | index, tabPage :: rest, w =>
    if env.absoluteFilePath tabPage.widget.filePath = env.absoluteFilePath filePath then
      let w1 := w.setCurrentIndex (index : Int)
      match w1.currentTab with
      | some currentTab =>
        if refresh currentTab then
          (w1.onCurrentTab (fun v => v.jumpToPage page)).map (fun w2 => (w2, true))
        else refreshOrOpenLoop env refresh filePath page (index + 1) rest w1
      | none => none
    else refreshOrOpenLoop env refresh filePath page (index + 1) rest w

/-- Embedding of `MainWindow::refreshOrOpenInNewTab(filePath, page)`: the
window afterwards and the returned flag. -/
def refreshOrOpenInNewTab (env : Env) (refresh : DocumentView → Bool) (w : MainWindow)
    (filePath : String) (page : Int) : Option (MainWindow × Bool) :=
  match refreshOrOpenLoop env refresh filePath page 0 w.tabs w with
  | some (w1, true) => some (w1, true)
  | some (w1, false) => some (openInNewTab env w1 filePath page)
  | none => none

/-- Model of `delete m_tabWidget->widget(index)`: the view is destroyed, which
takes its tab out of the tab widget and destroys the action of the tabs menu
that is its child. When the current tab goes, the tab that takes its place
becomes current, or the last one when there is none to the right; without tabs
the current index is -1. Deleting a null pointer does nothing. -/
def MainWindow.deleteWidget (w : MainWindow) (index : Nat) : MainWindow :=
  match w.tabs.get? index with
  | some tabPage =>
    let tabs := w.tabs.eraseIdx index
    let currentIndex : Int :=
      if (index : Int) < w.currentIndex then w.currentIndex - 1
      else if (index : Int) = w.currentIndex then
        if index < tabs.length then (index : Int) else (tabs.length : Int) - 1
      else w.currentIndex
    { w with
      tabs := tabs
      currentIndex := currentIndex
      tabsMenu := w.tabsMenu.filter (fun a => a.parent != some tabPage.widget.object) }
  | none => w

/-- The loop `while(m_tabWidget->count() > 0) { delete m_tabWidget->widget(0); }`
of `on_closeAllTabs_triggered`, run for at most `fuel` iterations; `none` when
the loop has not ended by then. The signal `currentChanged` is disconnected
while it runs. -/
def closeAllTabsLoop : Nat → MainWindow → Option MainWindow
  | 0, w => if w.count > 0 then none else some w
  | fuel + 1, w => if w.count > 0 then closeAllTabsLoop fuel (w.deleteWidget 0) else some w

/-- Embedding of `MainWindow::on_closeAllTabs_triggered()`, its loop run for at
most `fuel` iterations. -/
def on_closeAllTabs_triggered (fuel : Nat) (env : Env) (numberOfPages : DocumentView → Int)
    (highlightAll : DocumentView → Bool) (w : MainWindow) (ui : Widgets) (sender : Sender) :
    Option (MainWindow × Widgets) :=
  match closeAllTabsLoop fuel w with
  | some w1 => on_tabWidget_currentChanged env numberOfPages highlightAll w1 ui sender (-1)
  | none => none

/-! ## Geometry of the window and the fullscreen action -/

/-- The bytes of a `QByteArray`. -/
abbrev QByteArray := List Nat

/-- What the toolkit and the window system decide about the geometry of the
window, which is kept as the array `saveGeometry()` returns: the geometry after
`showFullScreen()` and after `showNormal()`, and the geometry after
`restoreGeometry(array)`. -/
structure WindowSystem where
  showFullScreen : QByteArray → QByteArray
  showNormal : QByteArray → QByteArray
  restoreGeometry : QByteArray → QByteArray → QByteArray

/-- State of the window frame: what `saveGeometry()` returns now, whether
`m_fullscreenAction` is checked and its data (`none` is the invalid
`QVariant`), and the value of the key `mainWindow/geometry` of the settings. -/
structure WindowFrame where
  geometry : QByteArray
  fullscreenChecked : Bool
  fullscreenData : Option QByteArray
  settingsGeometry : Option QByteArray
  deriving DecidableEq, Repr

/-- The frame of a window just constructed with the given geometry: the
fullscreen action is not checked and has no data, and `stored` is the value the
settings hold. -/
def WindowFrame.create (geometry : QByteArray) (stored : Option QByteArray) : WindowFrame :=
  { geometry := geometry, fullscreenChecked := false, fullscreenData := none,
    settingsGeometry := stored }

/-- Embedding of `MainWindow::on_fullscreen_triggered(checked)`; the byte array
of an invalid `QVariant` is empty. -/
def on_fullscreen_triggered (ws : WindowSystem) (checked : Bool) (s : WindowFrame) :
    WindowFrame :=
  if checked then
    let s1 := { s with fullscreenData := some s.geometry }
    { s1 with geometry := ws.showFullScreen s1.geometry }
  else
    let s1 := { s with geometry := ws.restoreGeometry s.geometry (s.fullscreenData.getD []) }
    let s2 := { s1 with geometry := ws.showNormal s1.geometry }
    { s2 with geometry := ws.restoreGeometry s2.geometry (s2.fullscreenData.getD []) }

/-- Embedding of `MainWindow::closeEvent(event)`: the files and the frame
afterwards. The search tool bar and the key `mainWindow/state` are not part of
the state. -/
def closeEvent (env : Env) (w : MainWindow) (fs : FileSystem) (s : WindowFrame) :
    FileSystem × WindowFrame :=
  let fs1 := saveTabs env w fs
  let fs2 := saveBookmarks env w fs1
  (fs2,
    { s with
      settingsGeometry := if s.fullscreenChecked then s.fullscreenData else some s.geometry })

/-- What happens to the window frame between construction and close: the user
triggers the checkable fullscreen action, or the geometry of the window changes
(the user or the window system moves or resizes it). -/
inductive FrameEvent where
  | fullscreenTriggered
  | geometryChanged (geometry : QByteArray)
  deriving DecidableEq, Repr

/-- One event on the frame. Triggering the checkable action toggles it and
emits `triggered(checked)` with the new state, which runs
`on_fullscreen_triggered`. -/
def WindowFrame.step (ws : WindowSystem) (s : WindowFrame) : FrameEvent → WindowFrame
  | FrameEvent.fullscreenTriggered =>
    let checked := !s.fullscreenChecked
    on_fullscreen_triggered ws checked { s with fullscreenChecked := checked }
  | FrameEvent.geometryChanged geometry => { s with geometry := geometry }

/-- The events of a list, one after the other. -/
def WindowFrame.run (ws : WindowSystem) (s : WindowFrame) (events : List FrameEvent) :
    WindowFrame :=
  events.foldl (WindowFrame.step ws) s

/-! ## Vocabulary of the statements -/

/-- A view as C++ can hold it: the current page is an `int`, the scale mode and
the rotation have values of a `uint`. -/
def DocumentView.WellFormed (v : DocumentView) : Prop :=
  isInt v.currentPage ∧ isUInt v.scaleMode.value ∧ isUInt v.rotation.value

instance (v : DocumentView) : Decidable v.WellFormed :=
  inferInstanceAs
    (Decidable (isInt v.currentPage ∧ isUInt v.scaleMode.value ∧ isUInt v.rotation.value))

/-- A bookmark as C++ can hold it: every recorded page is an `int`. -/
def Bookmark.WellFormed (b : Bookmark) : Prop := ∀ p ∈ b.pages, isInt p

instance (b : Bookmark) : Decidable b.WellFormed :=
  inferInstanceAs (Decidable (∀ p ∈ b.pages, isInt p))

/-- The view without the identity of its object. -/
def DocumentView.anonymous (v : DocumentView) : DocumentView := { v with object := 0 }

/-- The child elements `restoreTabs` and `restoreBookmarks` visit in a file: the
child elements of the root when the file opens for reading and holds a
well-formed document, none otherwise. -/
def recordsOf (f : DiskFile) : List QDomNode :=
  match f.openRead with
  | some (FileContent.xml rootElement) => rootElement.childElements
  | _ => []

/-- Whether the path recorded in a tab element can be opened. -/
def openable (env : Env) (tabElement : QDomNode) : Bool :=
  env.canOpen (tabElement.getAttribute "filePath")

/-- The view a tab element describes: the attributes as `restoreTabs` reads
them, on a view just constructed. -/
def restoredView (env : Env) (tabElement : QDomNode) : DocumentView :=
  { object := 0
    filePath := tabElement.getAttribute "filePath"
    currentPage := toInt (tabElement.getAttribute "currentPage")
    continousMode := toUInt (tabElement.getAttribute "continuousMode") != 0
    twoPagesMode := toUInt (tabElement.getAttribute "twoPagesMode") != 0
    scaleMode := { value := toUInt (tabElement.getAttribute "scaleMode") }
    scaleFactor := env.toFloat (tabElement.getAttribute "scaleFactor")
    rotation := { value := toUInt (tabElement.getAttribute "rotation") } }

/-- The window after a tab element whose path opens was restored. -/
def restoredWindow (env : Env) (w : MainWindow) (tabElement : QDomNode) : MainWindow :=
  { settings := { w.settings with
      path := some (env.absolutePath (tabElement.getAttribute "filePath")) }
    tabs := w.tabs ++
      [{ widget := { restoredView env tabElement with object := w.nextObject }
         text := env.completeBaseName (tabElement.getAttribute "filePath")
         toolTip := env.absoluteFilePath (tabElement.getAttribute "filePath") }]
    currentIndex := (w.tabs.length : Int)
    tabsMenu := w.tabsMenu ++
      [QAction.tabAction (env.completeBaseName (tabElement.getAttribute "filePath"))
        w.nextObject]
    bookmarksMenu := w.bookmarksMenu
    warnings := w.warnings
    openCalls := w.openCalls ++ [tabElement.getAttribute "filePath"]
    nextObject := w.nextObject + 1 }

/-- The attributes of a tab the tab file is meant to keep: absolute file path,
current page, continuous mode, two-pages mode, scale mode, rotation. -/
def tabKey (env : Env) (v : DocumentView) :
    String × Int × Bool × Bool × ScaleMode × Rotation :=
  (env.absoluteFilePath v.filePath, v.currentPage, v.continousMode, v.twoPagesMode,
    v.scaleMode, v.rotation)

/-- Whether two paths name the same file for the bookmarks: the comparison
`QFileInfo(p).absoluteFilePath() == QFileInfo(q).absoluteFilePath()`. -/
def samePath (env : Env) (p q : String) : Prop :=
  env.absoluteFilePath p = env.absoluteFilePath q

instance (env : Env) (p q : String) : Decidable (samePath env p q) :=
  inferInstanceAs (Decidable (env.absoluteFilePath p = env.absoluteFilePath q))

/-- The bookmark with `page` recorded unless it is page 1. -/
def recordPage (b : Bookmark) (page : Int) : Bookmark :=
  if page ≠ 1 then b.addJumpToPage page else b

/-- Add bookmark(path, page) in the words of the spec, on the list of bookmarks:
the first bookmark of the same absolute path gets the page when it is not 1;
when there is none, a new bookmark for the path comes last, with the page when
it is not 1. -/
def addBookmarkTo (env : Env) (filePath : String) (page : Int) :
    List Bookmark → List Bookmark
  | [] => [recordPage (Bookmark.new filePath) page]
  | b :: bs =>
    if samePath env b.filePath filePath then recordPage b page :: bs
    else b :: addBookmarkTo env filePath page bs

/-- The absolute file paths of the bookmarks of the window, in menu order. -/
def bookmarkPaths (env : Env) (w : MainWindow) : List String :=
  w.bookmarks.map (fun b => env.absoluteFilePath b.filePath)

/-- At most one bookmark per absolute file path. -/
def UniqueBookmarks (env : Env) (w : MainWindow) : Prop := (bookmarkPaths env w).Nodup

instance (env : Env) (w : MainWindow) : Decidable (UniqueBookmarks env w) :=
  inferInstanceAs (Decidable (bookmarkPaths env w).Nodup)

/-- The absolute file path recorded in a bookmark element. -/
def recordPath (env : Env) (bookmarkElement : QDomNode) : String :=
  env.absoluteFilePath (bookmarkElement.getAttribute "filePath")

/-- The states of the bookmark list the claim speaks of: from a window without
bookmarks, through add-bookmark, remove-all-bookmarks (the slot, then the return
to the event loop), restore-bookmarks on any bookmarks file, and any other
operation, which leaves the bookmarks menu as it is. -/
inductive Reachable (env : Env) : MainWindow → Prop where
  | start (w : MainWindow) : w.bookmarks = [] → Reachable env w
  | other (w w1 : MainWindow) :
      Reachable env w → w1.bookmarksMenu = w.bookmarksMenu → Reachable env w1
  | add (w w1 : MainWindow) :
      Reachable env w → on_addBookmark_triggered env w = some w1 → Reachable env w1
  | removeAll (w : MainWindow) :
      Reachable env w →
      Reachable env (processDeferredDeletes (on_removeAllBookmarks_triggered w))
  | restore (w : MainWindow) (fs : FileSystem) :
      Reachable env w → Reachable env (restoreBookmarks w fs)

/-- The same states, with restore-bookmarks limited to files in which no record
repeats the absolute file path of another record or of a bookmark already in
the menu. -/
inductive ReachableDistinct (env : Env) : MainWindow → Prop where
  | start (w : MainWindow) : w.bookmarks = [] → ReachableDistinct env w
  | other (w w1 : MainWindow) :
      ReachableDistinct env w → w1.bookmarksMenu = w.bookmarksMenu →
      ReachableDistinct env w1
  | add (w w1 : MainWindow) :
      ReachableDistinct env w → on_addBookmark_triggered env w = some w1 →
      ReachableDistinct env w1
  | removeAll (w : MainWindow) :
      ReachableDistinct env w →
      ReachableDistinct env (processDeferredDeletes (on_removeAllBookmarks_triggered w))
  | restore (w : MainWindow) (fs : FileSystem) :
      ReachableDistinct env w →
      (w.settings.restoreBookmarks = true →
        (bookmarkPaths env w ++ (recordsOf fs.bookmarksXml).map (recordPath env)).Nodup) →
      ReachableDistinct env (restoreBookmarks w fs)

/-- What the bookmarks file is meant to keep of a bookmark: absolute file path
and pages. -/
def bookmarkKey (env : Env) (b : Bookmark) : String × List Int :=
  (env.absoluteFilePath b.filePath, b.pages)

/-- The text of the warning `openInNewTab` shows for a path that does not open,
`tr("Could not open '%1'.").arg(filePath)`. -/
def couldNotOpen (filePath : String) : String :=
  "Could not open \x27" ++ filePath ++ "\x27."

/-- The warnings `restoreTabs` gives rise to on a list of tab elements: one per
element whose path does not open, in the order of the elements. -/
def openWarnings (env : Env) (tabElements : List QDomNode) : List String :=
  (tabElements.filter (fun e => !openable env e)).map
    (fun e => couldNotOpen (e.getAttribute "filePath"))

/-- The setter calls `restoreTabs` is to make for one tab element on the view
with identity `object`: when the path opens, continuous mode, two-pages mode,
scale mode, scale factor, rotation and the jump to the recorded page, in this
order; none when the path does not open. -/
def recordCalls (env : Env) (object : Nat) (tabElement : QDomNode) : List (Nat × ViewCall) :=
  if openable env tabElement then
    [(object, ViewCall.setContinousMode (toUInt (tabElement.getAttribute "continuousMode") != 0)),
     (object, ViewCall.setTwoPagesMode (toUInt (tabElement.getAttribute "twoPagesMode") != 0)),
     (object, ViewCall.setScaleMode { value := toUInt (tabElement.getAttribute "scaleMode") }),
     (object, ViewCall.setScaleFactor (env.toFloat (tabElement.getAttribute "scaleFactor"))),
     (object, ViewCall.setRotation { value := toUInt (tabElement.getAttribute "rotation") }),
     (object, ViewCall.jumpToPage (toInt (tabElement.getAttribute "currentPage")))]
  else []

/-- The setter calls for a list of tab elements, the view made for the first
element having identity `object`: every element takes one identity, whether or
not its path opens. -/
def allRecordCalls (env : Env) : Nat → List QDomNode → List (Nat × ViewCall)
  | _, [] => []
  | object, tabElement :: rest =>
    recordCalls env object tabElement ++ allRecordCalls env (object + 1) rest

/-- The scale factor between the bounds: the lower bound when it is below, then
the upper bound when it is above. -/
def clampScaleFactor (minimumScaleFactor maximumScaleFactor scaleFactor : qreal) : qreal :=
  min (max scaleFactor minimumScaleFactor) maximumScaleFactor

/-- The odd part of `n`: `n` halved as long as it is even, and 0 for 0; `fuel`
bounds the number of halvings and `n` always suffices. -/
def oddPart : Nat → Nat → Nat
  | 0, n => n
  | fuel + 1, n => if n ≠ 0 ∧ n % 2 = 0 then oddPart fuel (n / 2) else n

/-- Whether a rational is a value of a binary floating-point type with a
significand of `bits` bits: a whole number below `2 ^ bits` in magnitude times
a power of two, which is to say that in lowest terms the denominator is a power
of two and the odd part of the numerator is below `2 ^ bits`. The range of the
exponent is left out, so no value of the type is excluded. -/
def hasSignificand (bits : Nat) (q : Rat) : Prop :=
  oddPart q.den q.den = 1 ∧ oddPart q.num.natAbs q.num.natAbs < 2 ^ bits

instance (bits : Nat) (q : Rat) : Decidable (hasSignificand bits q) :=
  inferInstanceAs
    (Decidable (oddPart q.den q.den = 1 ∧ oddPart q.num.natAbs q.num.natAbs < 2 ^ bits))

/-- A value of the C++ type `float`, the result type of `QString::toFloat()`:
24 bits of significand. -/
def isSingle (q : Rat) : Prop := hasSignificand 24 q

instance (q : Rat) : Decidable (isSingle q) := inferInstanceAs (Decidable (hasSignificand 24 q))

/-- A value of the C++ type `double`, which `qreal` is on desktop builds of Qt:
53 bits of significand. -/
def isDouble (q : Rat) : Prop := hasSignificand 53 q

instance (q : Rat) : Decidable (isDouble q) := inferInstanceAs (Decidable (hasSignificand 53 q))

/-- The actions and input widgets that the claim on the enabled state lists, in
its words: refresh, save copy, print, page navigation, jump to page, search and
find, view modes, zoom, fit, rotate, fonts, presentation, tab navigation and
closing, add bookmark, the page line edit, the scale box, the search box and
its check boxes. -/
def Control.usesCurrentTab : Control → Bool
  | Control.refreshAction => true
  | Control.saveCopyAction => true
  | Control.printAction => true
  | Control.previousPageAction => true
  | Control.nextPageAction => true
  | Control.firstPageAction => true
  | Control.lastPageAction => true
  | Control.jumpToPageAction => true
  | Control.searchAction => true
  | Control.findPreviousAction => true
  | Control.findNextAction => true
  | Control.cancelSearchAction => true
  | Control.continuousModeAction => true
  | Control.twoPagesModeAction => true
  | Control.zoomInAction => true
  | Control.zoomOutAction => true
  | Control.originalSizeAction => true
  | Control.fitToPageWidthAction => true
  | Control.fitToPageSizeAction => true
  | Control.rotateLeftAction => true
  | Control.rotateRightAction => true
  | Control.fontsAction => true
  | Control.presentationAction => true
  | Control.previousTabAction => true
  | Control.nextTabAction => true
  | Control.closeTabAction => true
  | Control.closeAllTabsAction => true
  | Control.addBookmarkAction => true
  | Control.currentPageLineEdit => true
  | Control.scaleFactorComboBox => true
  | Control.searchLineEdit => true
  | Control.matchCaseCheckBox => true
  | Control.highlightAllCheckBox => true
  | Control.openAction => false
  | Control.openInNewTabAction => false
  | Control.exitAction => false
  | Control.settingsAction => false
  | Control.fullscreenAction => false
  | Control.removeAllBookmarksAction => false
  | Control.aboutAction => false

/-- The current index of the tab widget is the index of a tab, or -1 when there
is no tab. -/
def validCurrentIndex (w : MainWindow) : Prop :=
  (w.tabs = [] ∧ w.currentIndex = -1) ∨ (0 ≤ w.currentIndex ∧ w.currentIndex < w.count)

instance (w : MainWindow) : Decidable (validCurrentIndex w) :=
  inferInstanceAs (Decidable (_ ∨ _))

/-- A tab shows the same file as `filePath` and its refresh succeeds. -/
def refreshes (env : Env) (refresh : DocumentView → Bool) (filePath : String)
    (tabPage : TabPage) : Prop :=
  samePath env tabPage.widget.filePath filePath ∧ refresh tabPage.widget = true

instance (env : Env) (refresh : DocumentView → Bool) (filePath : String) (tabPage : TabPage) :
    Decidable (refreshes env refresh filePath tabPage) :=
  inferInstanceAs (Decidable (_ ∧ _))

/-- The window with the tab at index `i` made current and its view sent to
`page`, everything else as it is. -/
def refreshedWindow (w : MainWindow) (i : Nat) (page : Int) : MainWindow :=
  { w with
    currentIndex := (i : Int)
    tabs := w.tabs.modify (fun t => { t with widget := t.widget.jumpToPage page }) i }

/-- The geometry the window had at the moment fullscreen was entered last,
while the events of the list happen to the frame `s`; `entered` is that
geometry before the events, `none` when fullscreen was not entered yet.
Fullscreen is entered when the fullscreen action is triggered while it is not
checked. -/
def geometryOnEntering (ws : WindowSystem) :
    WindowFrame → Option QByteArray → List FrameEvent → Option QByteArray
  | _, entered, [] => entered
  | s, entered, FrameEvent.fullscreenTriggered :: rest =>
    geometryOnEntering ws (s.step ws FrameEvent.fullscreenTriggered)
      (if s.fullscreenChecked then entered else some s.geometry) rest
  | s, entered, FrameEvent.geometryChanged geometry :: rest =>
    geometryOnEntering ws (s.step ws (FrameEvent.geometryChanged geometry)) entered rest

/-! ## Concrete instances -/

/-- A concrete environment: relative paths are resolved against `/home/user`,
every path but `/missing.pdf` and the empty path opens, and a `qreal` is
written as the whole number of its hundredths and read back from it. -/
def sampleEnv : Env :=
  { absoluteFilePath := fun p =>
      match p.data with
      | '/' :: _ => p
      | [] => p
      | _ => "/home/user/" ++ p
    absolutePath := fun _ => "/home/user"
    completeBaseName := fun p => p
    canOpen := fun p => p != "/missing.pdf" && p != ""
    numberReal := fun q => numberInt (Rat.floor (q * 100))
    toFloat := fun s => (toInt s : Rat) / 100
    newView :=
      { object := 0, filePath := "", currentPage := 1, continousMode := false,
        twoPagesMode := false, scaleMode := ScaleMode.ScaleFactor, scaleFactor := 1,
        rotation := { value := 0 } } }

/-- Settings with both restore options enabled. -/
def settingsOn : QSettings := { restoreTabs := true, restoreBookmarks := true, path := none }

/-- Settings with both restore options disabled. -/
def settingsOff : QSettings := { restoreTabs := false, restoreBookmarks := false, path := none }

/-- A directory in which neither file exists yet and both may be written and read. -/
def emptyFiles : FileSystem :=
  { tabsXml := { content := none, readable := true, writable := true }
    bookmarksXml := { content := none, readable := true, writable := true } }

/-- A window with two tabs: `a.pdf`, given by a relative path, on page 5 in
continuous mode fitted to the page width and turned by 270 degrees, and
`/b.pdf` on page 7 in two-pages mode. -/
def twoTabs : MainWindow :=
  { MainWindow.create settingsOn with
    tabs :=
      [{ widget :=
           { object := 0, filePath := "a.pdf", currentPage := 5, continousMode := true,
             twoPagesMode := false, scaleMode := ScaleMode.FitToPageWidth, scaleFactor := 1,
             rotation := { value := 3 } }
         text := "a", toolTip := "/home/user/a.pdf" },
       { widget :=
           { object := 1, filePath := "/b.pdf", currentPage := 7, continousMode := false,
             twoPagesMode := true, scaleMode := ScaleMode.ScaleFactor, scaleFactor := 2,
             rotation := { value := 0 } }
         text := "b", toolTip := "/b.pdf" }]
    currentIndex := 1
    nextObject := 2 }

/-- A tab element with the given file path and default attributes otherwise. -/
def tabRecord (filePath : String) : QDomNode :=
  QDomNode.element "tab" [("filePath", filePath), ("currentPage", "3")] []

/-- A tabs file with three records, the first of which cannot be opened. -/
def filesMissingFirst : FileSystem :=
  { emptyFiles with
    tabsXml :=
      { content := some (FileContent.xml (QDomNode.element "tabs" []
          [tabRecord "/missing.pdf", tabRecord "/a.pdf", tabRecord "/b.pdf"]))
        readable := true, writable := true } }

/-- A tabs file with three records, the second of which cannot be opened. -/
def filesMissingMiddle : FileSystem :=
  { emptyFiles with
    tabsXml :=
      { content := some (FileContent.xml (QDomNode.element "tabs" []
          [tabRecord "/a.pdf", tabRecord "/missing.pdf", tabRecord "/b.pdf"]))
        readable := true, writable := true } }

/-- A tabs file with three records, the last of which cannot be opened. -/
def filesMissingLast : FileSystem :=
  { emptyFiles with
    tabsXml :=
      { content := some (FileContent.xml (QDomNode.element "tabs" []
          [tabRecord "/a.pdf", tabRecord "/b.pdf", tabRecord "/missing.pdf"]))
        readable := true, writable := true } }

/-- A window whose only tab shows `/a.pdf` on the given page, with the given
bookmarks menu. -/
def onePdf (page : Int) (bookmarksMenu : List QAction) : MainWindow :=
  { MainWindow.create settingsOn with
    tabs :=
      [{ widget := { sampleEnv.newView with filePath := "/a.pdf", currentPage := page }
         text := "a", toolTip := "/a.pdf" }]
    currentIndex := 0
    bookmarksMenu := bookmarksMenu
    nextObject := 1 }

/-- The fixed entries of the bookmarks menu. -/
def fixedBookmarksMenu : List QAction :=
  [QAction.action "&Add bookmark", QAction.action "&Remove all bookmarks", QAction.separator]

/-- A bookmark element for the given path with the given page texts. -/
def bookmarkRecord (filePath : String) (pages : List String) : QDomNode :=
  QDomNode.element "bookmark" [("filePath", filePath)]
    (pages.map (fun p => QDomNode.element "jumpToPage" [("page", p)] []))

/-- A bookmarks file with two records for `/a.pdf`. -/
def filesDuplicateBookmark : FileSystem :=
  { emptyFiles with
    bookmarksXml :=
      { content := some (FileContent.xml (QDomNode.element "bookmarks" []
          [bookmarkRecord "/a.pdf" ["5"], bookmarkRecord "/a.pdf" ["9"]]))
        readable := true, writable := true } }

/-- A bookmarks file with one record for `/a.pdf` and one for `/b.pdf`. -/
def filesTwoBookmarks : FileSystem :=
  { emptyFiles with
    bookmarksXml :=
      { content := some (FileContent.xml (QDomNode.element "bookmarks" []
          [bookmarkRecord "/a.pdf" ["5"], bookmarkRecord "/b.pdf" ["2", "3"]]))
        readable := true, writable := true } }

/-- A bookmarks file with one record for `/c.pdf` and one for `/b.pdf`. -/
def filesOtherBookmarks : FileSystem :=
  { emptyFiles with
    bookmarksXml :=
      { content := some (FileContent.xml (QDomNode.element "bookmarks" []
          [bookmarkRecord "/c.pdf" [], bookmarkRecord "/b.pdf" ["2", "3"]]))
        readable := true, writable := true } }

/-- A directory in which both files exist and hold records but can be opened
neither for reading nor for writing. -/
def lockedFiles : FileSystem :=
  { tabsXml :=
      { content := some (FileContent.xml (QDomNode.element "tabs" []
          [tabRecord "/a.pdf", tabRecord "/b.pdf"]))
        readable := false, writable := false }
    bookmarksXml :=
      { content := some (FileContent.xml (QDomNode.element "bookmarks" []
          [bookmarkRecord "/a.pdf" ["5"]]))
        readable := false, writable := false } }

/-- The `double` nearest to 110/100, the scale factor of 110 %. -/
def scaleFactor110 : qreal := 2476979795053773 / 2251799813685248

/-- The decimal with `digits` significant digits nearest to a rational, as the
whole number `m` of its digits and the exponent `k` of `m * 10 ^ k`. -/
def decimalDigits (digits : Nat) (q : Rat) : Int × Int :=
  if q = 0 then (0, 0)
  else
    (roundHalfEven (q / (10 : Rat) ^ (Int.log 10 |q| - ((digits : Int) - 1))),
      Int.log 10 |q| - ((digits : Int) - 1))

/-- Text of the decimal `m * 10 ^ k`: the digits, the letter e and the exponent,
as in `11e-1`. -/
def decimalText (m k : Int) : String := numberInt m ++ "e" ++ numberInt k

/-- The number that a text of digits, the letter e and an exponent denotes, and
0 for any other text. -/
def decimalValue (s : String) : Rat :=
  match toLongLong (String.mk (s.data.takeWhile (fun c => c != 'e'))),
      toLongLong (String.mk ((s.data.dropWhile (fun c => c != 'e')).drop 1)) with
  | some m, some k => (m : Rat) * (10 : Rat) ^ k
  | _, _ => 0

/-- The environment `sampleEnv` with the number conversions of the toolkit: a
`qreal` is written with 16 significant decimal digits, as `setAttribute` does
for a `double`, and `toFloat` reads a decimal as the `double` nearest to it,
converted to `float`. The text is kept in the form digits, e, exponent. -/
def decimalEnv : Env :=
  { sampleEnv with
    numberReal := fun q => decimalText (decimalDigits 16 q).1 (decimalDigits 16 q).2
    toFloat := fun s => toSingle (toDouble (decimalValue s)) }

/-- A directory in which both files exist and hold records and neither can be
removed. -/
def stuckFiles : FileSystem :=
  { tabsXml :=
      { content := some (FileContent.xml (QDomNode.element "tabs" []
          [tabRecord "/a.pdf", tabRecord "/b.pdf"]))
        readable := true, writable := true, removable := false }
    bookmarksXml :=
      { content := some (FileContent.xml (QDomNode.element "bookmarks" []
          [bookmarkRecord "/a.pdf" ["5"]]))
        readable := true, writable := true, removable := false } }

/-- A window whose only tab shows `/a.pdf` at the scale factor of 110 %. -/
def zoomedTab : MainWindow :=
  { MainWindow.create settingsOn with
    tabs :=
      [{ widget :=
           { sampleEnv.newView with filePath := "/a.pdf", scaleFactor := scaleFactor110 }
         text := "a", toolTip := "/a.pdf" }]
    currentIndex := 0
    nextObject := 1 }

/-- The widgets as they show the current tab of `twoTabs`, a document of nine
pages, with every control enabled. -/
def sampleWidgets : Widgets :=
  { windowTitle := "b - qpdfview", currentPageLineEdit := "7", currentPageValidator := (1, 9),
    numberOfPagesLabel := "of 9", continuousModeAction := false, twoPagesModeAction := true,
    fitToPageWidthAction := false, fitToPageSizeAction := false, scaleFactorComboBox := -1,
    scaleFactorLineEdit := "200 %", highlightAllCheckBox := false, searchToolBar := false,
    searchTimer := false, searchLineEdit := "", searchProgress := 0, enabled := fun _ => true }

/-- The window `twoTabs` with the two actions of its tabs in the tabs menu. -/
def tabsWithActions : MainWindow :=
  { twoTabs with
    tabsMenu := twoTabs.tabsMenu ++ [QAction.tabAction "a" 0, QAction.tabAction "b" 1] }

/-- The file name of a path without its directories and without its last
suffix, as `QFileInfo::completeBaseName` gives it for the paths used here. -/
def baseNameOf (p : String) : String :=
  let file := (p.data.reverse.takeWhile (fun c => c != '/')).reverse
  let stem := ((file.reverse.dropWhile (fun c => c != '.')).drop 1).reverse
  String.mk (if stem = [] then file else stem)

/-- The environment `sampleEnv` with `baseNameOf` for the complete base name. -/
def namedEnv : Env := { sampleEnv with completeBaseName := baseNameOf }

/-- A window system in which a fullscreen window has the geometry `[9]`,
`showNormal()` keeps the geometry and `restoreGeometry` restores the array it
is given unless that is empty. -/
def sampleWindowSystem : WindowSystem :=
  { showFullScreen := fun _ => [9]
    showNormal := fun geometry => geometry
    restoreGeometry := fun geometry array => if array = [] then geometry else array }

/-! ### Reading back what was written -/

theorem digitChar_isDigit (d : Nat) (h : d < 10) : (digitChar d).isDigit = true := by
  interval_cases d <;> decide

theorem digitChar_toNat (d : Nat) (h : d < 10) : (digitChar d).toNat - 48 = d := by
  interval_cases d <;> decide

theorem digitChar_ne_minus (d : Nat) (h : d < 10) : digitChar d ≠ '-' := by
  interval_cases d <;> decide

theorem digitChar_ne_plus (d : Nat) (h : d < 10) : digitChar d ≠ '+' := by
  interval_cases d <;> decide

theorem digitStep_digitChar (v d : Nat) (h : d < 10) :
    digitStep (some v) (digitChar d) = some (v * 10 + d) := by
  simp [digitStep, digitChar_isDigit d h, digitChar_toNat d h]

theorem foldl_decimal (fuel n : Nat) (h : n < fuel) :
    (decimal fuel n).foldl digitStep (some 0) = some n := by
  induction fuel generalizing n with
  | zero => omega
  | succ fuel ih =>
    unfold decimal
    split
    · rename_i hn
      simp [digitStep_digitChar 0 n hn]
    · rename_i hn
      have hlt : n / 10 < fuel := by omega
      rw [List.foldl_append, ih (n / 10) hlt]
      simp only [List.foldl_cons, List.foldl_nil]
      rw [digitStep_digitChar (n / 10) (n % 10) (by omega)]
      congr 1
      omega

theorem decimal_head (fuel n : Nat) (h : n < fuel) :
    ∃ d cs, d < 10 ∧ decimal fuel n = digitChar d :: cs := by
  induction fuel generalizing n with
  | zero => omega
  | succ fuel ih =>
    unfold decimal
    split
    · rename_i hn
      exact ⟨n, [], hn, rfl⟩
    · rename_i hn
      obtain ⟨d, cs, hd, hcs⟩ := ih (n / 10) (by omega)
      exact ⟨d, cs ++ [digitChar (n % 10)], hd, by rw [hcs]; rfl⟩

theorem parseDigits_decimal (n : Nat) : parseDigits (decimal (n + 1) n) = some n := by
  obtain ⟨d, cs, _, hcs⟩ := decimal_head (n + 1) n (by omega)
  have h := foldl_decimal (n + 1) n (by omega)
  rw [hcs] at h ⊢
  exact h

theorem toLongLong_decimal (n : Nat) :
    toLongLong (String.mk (decimal (n + 1) n)) = some (n : Int) := by
  obtain ⟨d, cs, hd, hcs⟩ := decimal_head (n + 1) n (by omega)
  have h := parseDigits_decimal n
  have h1 := digitChar_ne_minus d hd
  have h2 := digitChar_ne_plus d hd
  unfold toLongLong
  simp only
  rw [hcs] at h ⊢
  split
  · rename_i heq
    simp only [List.cons.injEq] at heq
    exact absurd heq.1 h1
  · rename_i heq
    simp only [List.cons.injEq] at heq
    exact absurd heq.1 h2
  · rw [h]; rfl

theorem toLongLong_numberInt (i : Int) : toLongLong (numberInt i) = some i := by
  unfold numberInt
  split
  · rename_i hneg
    unfold toLongLong
    simp only [parseDigits_decimal, Option.map_some', Option.some.injEq]
    omega
  · rename_i hpos
    rw [toLongLong_decimal, Option.some.injEq]
    omega

/-- Reading back a written `int` gives the same `int`. -/
theorem toInt_numberInt (i : Int) (h : isInt i) : toInt (numberInt i) = i := by
  unfold toInt
  rw [toLongLong_numberInt]
  simp [h]

/-- Reading back a written `uint` gives the same `uint`. -/
theorem toUInt_numberUInt (n : Nat) (h : isUInt n) : toUInt (numberUInt n) = n := by
  unfold toUInt numberUInt
  rw [toLongLong_decimal]
  unfold isUInt at h
  have h2 : (n : Int) ≤ 4294967295 := by omega
  simp [h2]

/-! ### Rounding -/

theorem roundHalfEven_cases (x : Rat) :
    roundHalfEven x = ⌊x⌋ ∧ x - ⌊x⌋ ≤ 1 / 2 ∨ roundHalfEven x = ⌊x⌋ + 1 ∧ 1 / 2 ≤ x - ⌊x⌋ := by
  unfold roundHalfEven
  by_cases h1 : x - ⌊x⌋ < 1 / 2
  · rw [if_pos h1]
    exact Or.inl ⟨rfl, le_of_lt h1⟩
  · rw [if_neg h1]
    by_cases h2 : 1 / 2 < x - ⌊x⌋
    · rw [if_pos h2]
      exact Or.inr ⟨rfl, le_of_lt h2⟩
    · rw [if_neg h2]
      have he : x - ⌊x⌋ = 1 / 2 := le_antisymm (not_lt.mp h2) (not_lt.mp h1)
      by_cases h3 : ⌊x⌋ % 2 = 0
      · rw [if_pos h3]
        exact Or.inl ⟨rfl, le_of_eq he⟩
      · rw [if_neg h3]
        exact Or.inr ⟨rfl, le_of_eq he.symm⟩

/-- Rounding to the nearest whole number moves a rational by at most a half. -/
theorem roundHalfEven_sub_le (x : Rat) : |(roundHalfEven x : Rat) - x| ≤ 1 / 2 := by
  have hf1 : (⌊x⌋ : Rat) ≤ x := Int.floor_le x
  have hf2 : x < (⌊x⌋ : Rat) + 1 := Int.lt_floor_add_one x
  rcases roundHalfEven_cases x with ⟨h, hb⟩ | ⟨h, hb⟩
  · rw [h, abs_le]
    constructor <;> linarith
  · rw [h, abs_le]
    push_cast
    constructor <;> linarith

/-- A rational less than a half away from a whole number is rounded to it. -/
theorem roundHalfEven_near (x : Rat) (m : Int) (h : |x - (m : Rat)| < 1 / 2) :
    roundHalfEven x = m := by
  have h1 := (abs_lt.mp h).1
  have h2 := (abs_lt.mp h).2
  have hr := abs_le.mp (roundHalfEven_sub_le x)
  have hlt : |((roundHalfEven x - m : Int) : Rat)| < 1 := by
    rw [abs_lt]
    push_cast
    constructor <;> linarith [hr.1, hr.2]
  have hz : roundHalfEven x - m = 0 := by
    have h3 : |roundHalfEven x - m| < 1 := by exact_mod_cast hlt
    exact Int.abs_lt_one_iff.mp h3
  omega

/-- Rounding keeps a rational on its side of a whole number. -/
theorem roundHalfEven_le (x : Rat) (n : Int) (h : x ≤ (n : Rat)) : roundHalfEven x ≤ n := by
  have hf1 : (⌊x⌋ : Rat) ≤ x := Int.floor_le x
  rcases roundHalfEven_cases x with ⟨hr, _⟩ | ⟨hr, hb⟩
  · rw [hr]
    exact_mod_cast le_trans hf1 h
  · rw [hr]
    have hlt : (⌊x⌋ : Rat) < (n : Rat) := by linarith
    have : ⌊x⌋ < n := by exact_mod_cast hlt
    omega

theorem le_roundHalfEven (x : Rat) (n : Int) (h : (n : Rat) ≤ x) : n ≤ roundHalfEven x := by
  have hf : n ≤ ⌊x⌋ := Int.le_floor.mpr h
  rcases roundHalfEven_cases x with ⟨hr, _⟩ | ⟨hr, _⟩
  · rw [hr]
    exact hf
  · rw [hr]
    omega

/-- The logarithm of a positive rational between two neighbouring powers. -/
theorem log_eq_of_zpow_le (b : Nat) (hb : 1 < b) (x : Rat) (k : Int) (hx : 0 < x)
    (h1 : (b : Rat) ^ k ≤ x) (h2 : x < (b : Rat) ^ (k + 1)) : Int.log b x = k := by
  have ha : k ≤ Int.log b x := (Int.zpow_le_iff_le_log hb hx).mp h1
  have hc : Int.log b x < k + 1 := (Int.lt_zpow_iff_log_lt hb hx).mp h2
  omega


/-- The rounding of a positive rational, its unit written out. -/
theorem roundTo_pos (b d : Nat) (q : Rat) (hq : 0 < q) :
    roundTo b d q
      = (roundHalfEven (q / (b : Rat) ^ (Int.log b q - ((d : Int) - 1))) : Rat)
          * (b : Rat) ^ (Int.log b q - ((d : Int) - 1)) := by
  unfold roundTo
  rw [if_neg (ne_of_gt hq), abs_of_pos hq]

/-- Rounding to `d` significant digits in base `b` moves a positive rational by
at most half a unit of its last digit, which is at most the rational divided by
twice `b ^ (d - 1)`. -/
theorem roundTo_sub_le (b d : Nat) (hb : 1 < b) (q : Rat) (hq : 0 < q) :
    |roundTo b d q - q| ≤ q / (2 * (b : Rat) ^ ((d : Int) - 1)) := by
  have hb0 : (0 : Rat) < (b : Rat) := by exact_mod_cast (by omega : 0 < b)
  have hu : (0 : Rat) < (b : Rat) ^ (Int.log b q - ((d : Int) - 1)) := zpow_pos hb0 _
  have hp : (0 : Rat) < (b : Rat) ^ ((d : Int) - 1) := zpow_pos hb0 _
  have hlog : (b : Rat) ^ Int.log b q ≤ q := Int.zpow_log_le_self hb hq
  have hsplit : (b : Rat) ^ (Int.log b q - ((d : Int) - 1))
      = (b : Rat) ^ Int.log b q / (b : Rat) ^ ((d : Int) - 1) := zpow_sub₀ (ne_of_gt hb0) _ _
  rw [roundTo_pos b d q hq]
  set u := (b : Rat) ^ (Int.log b q - ((d : Int) - 1)) with hudef
  have hr := roundHalfEven_sub_le (q / u)
  have he : (roundHalfEven (q / u) : Rat) * u - q = ((roundHalfEven (q / u) : Rat) - q / u) * u := by
    field_simp
  rw [he, abs_mul, abs_of_pos hu]
  have h1 : |(roundHalfEven (q / u) : Rat) - q / u| * u ≤ 1 / 2 * u :=
    mul_le_mul_of_nonneg_right hr (le_of_lt hu)
  have h2 : u ≤ q / (b : Rat) ^ ((d : Int) - 1) := by
    rw [hsplit]
    exact div_le_div_of_nonneg_right hlog (le_of_lt hp)
  have h3 : 1 / 2 * u ≤ q / (2 * (b : Rat) ^ ((d : Int) - 1)) := by
    have : q / (2 * (b : Rat) ^ ((d : Int) - 1)) = 1 / 2 * (q / (b : Rat) ^ ((d : Int) - 1)) := by
      field_simp
    rw [this]
    linarith
  linarith

/-- A positive rational on the grid of its own binade, that is a whole multiple
of `2 ^ (e - (bits - 1))` for its binary exponent `e`, is what every rational
near it is rounded to: within the `2 ^ (bits + 3)`-th part of it. -/
theorem roundTo_two_near (bits : Nat) (hbits : 1 ≤ bits) (y : Rat) (hy : 0 < y) (n : Int)
    (hgrid : y = (n : Rat) * (2 : Rat) ^ (Int.log 2 y - ((bits : Int) - 1)))
    (x : Rat) (hx : |x - y| ≤ y / (2 : Rat) ^ (bits + 3)) :
    roundTo 2 bits x = y := by
  obtain ⟨p, hp⟩ : ∃ p : Nat, bits = p + 1 := ⟨bits - 1, by omega⟩
  subst hp
  have hcast : (((p + 1 : Nat) : Int) - 1) = (p : Int) := by push_cast; ring
  rw [hcast] at hgrid
  have h2 : (1 : Nat) < 2 := by decide
  have hb0 : (0 : Rat) < ((2 : Nat) : Rat) := by norm_num
  set e := Int.log 2 y with hedef
  set g : Rat := (2 : Rat) ^ (e - (p : Int)) with hgdef
  have hg : 0 < g := zpow_pos (by norm_num) _
  -- the binade of y in units of g
  have hpow : (2 : Rat) ^ e = (2 : Rat) ^ p * g := by
    rw [hgdef, ← zpow_natCast, ← zpow_add₀ (by norm_num : (2 : Rat) ≠ 0)]
    congr 1
    ring
  have hpow1 : (2 : Rat) ^ (e + 1) = (2 : Rat) ^ (p + 1) * g := by
    rw [zpow_add_one₀ (by norm_num : (2 : Rat) ≠ 0), hpow, pow_succ]
    ring
  have hlo : (2 : Rat) ^ e ≤ y := by
    have := Int.zpow_log_le_self h2 hy
    simpa using this
  have hhi : y < (2 : Rat) ^ (e + 1) := by
    have := Int.lt_zpow_succ_log_self h2 y
    simpa using this
  have hnlo : (2 : Rat) ^ p ≤ (n : Rat) := by
    rw [hpow, hgrid] at hlo
    exact le_of_mul_le_mul_right hlo hg
  have hnhi : (n : Rat) < (2 : Rat) ^ (p + 1) := by
    rw [hpow1, hgrid] at hhi
    exact lt_of_mul_lt_mul_right hhi (le_of_lt hg)
  have hnlo' : (2 : Int) ^ p ≤ n := by exact_mod_cast hnlo
  have hnhi' : n < (2 : Int) ^ (p + 1) := by exact_mod_cast hnhi
  -- the distance of x in units of g
  have hdist : |x - y| < g / 8 := by
    have h8 : y / (2 : Rat) ^ (p + 1 + 3) < g / 8 := by
      rw [hgrid, pow_add]
      have : (n : Rat) * g / ((2 : Rat) ^ (p + 1) * 2 ^ 3) = (n : Rat) / (2 : Rat) ^ (p + 1) * (g / 8) := by
        field_simp
        norm_num
      rw [this]
      have hq : (n : Rat) / (2 : Rat) ^ (p + 1) < 1 := by
        rw [div_lt_one (by positivity)]
        exact hnhi
      have hg8 : 0 < g / 8 := by positivity
      calc (n : Rat) / (2 : Rat) ^ (p + 1) * (g / 8) < 1 * (g / 8) :=
            mul_lt_mul_of_pos_right hq hg8
        _ = g / 8 := one_mul _
    exact lt_of_le_of_lt hx h8
  have hx1 := (abs_lt.mp hdist).1
  have hx2 := (abs_lt.mp hdist).2
  have hgy : g ≤ y := by
    have : (1 : Rat) ≤ (2 : Rat) ^ p := one_le_pow₀ (by norm_num)
    calc g = 1 * g := (one_mul g).symm
      _ ≤ (2 : Rat) ^ p * g := mul_le_mul_of_nonneg_right this (le_of_lt hg)
      _ = (2 : Rat) ^ e := hpow.symm
      _ ≤ y := hlo
  have hxpos : 0 < x := by linarith
  -- x is below the next binade
  have hxhi : x < (2 : Rat) ^ (e + 1) := by
    have hn1 : n + 1 ≤ (2 : Int) ^ (p + 1) := by omega
    have hn1' : (n : Rat) + 1 ≤ (2 : Rat) ^ (p + 1) := by exact_mod_cast hn1
    have : y + g ≤ (2 : Rat) ^ (e + 1) := by
      rw [hpow1, hgrid]
      have : (n : Rat) * g + g = ((n : Rat) + 1) * g := by ring
      rw [this]
      exact mul_le_mul_of_nonneg_right hn1' (le_of_lt hg)
    linarith
  by_cases hxlo : (2 : Rat) ^ e ≤ x
  · -- same binade
    have hlogx : Int.log 2 x = e := by
      apply log_eq_of_zpow_le 2 h2 x e hxpos
      · simpa using hxlo
      · simpa using hxhi
    rw [roundTo_pos 2 (p + 1) x hxpos, hlogx, hcast]
    have hcast2 : ((2 : Nat) : Rat) = 2 := by norm_num
    rw [hcast2, ← hgdef]
    have hnear : roundHalfEven (x / g) = n := by
      apply roundHalfEven_near
      have : x / g - (n : Rat) = (x - y) / g := by
        rw [hgrid]
        field_simp
        ring
      rw [this, abs_div, abs_of_pos hg, div_lt_iff₀ hg]
      calc |x - y| < g / 8 := hdist
        _ ≤ 1 / 2 * g := by linarith
    rw [hnear, hgrid]
  · -- x is in the binade below, so y is a power of two
    have hxlo' : x < (2 : Rat) ^ e := not_le.mp hxlo
    have hn : n = (2 : Int) ^ p := by
      by_contra hne
      have hn1 : (2 : Int) ^ p + 1 ≤ n := by omega
      have hn1' : (2 : Rat) ^ p + 1 ≤ (n : Rat) := by exact_mod_cast hn1
      have : (2 : Rat) ^ e + g ≤ y := by
        rw [hpow, hgrid]
        have : (2 : Rat) ^ p * g + g = ((2 : Rat) ^ p + 1) * g := by ring
        rw [this]
        exact mul_le_mul_of_nonneg_right hn1' (le_of_lt hg)
      linarith
    have hyp : y = (2 : Rat) ^ e := by
      rw [hgrid, hn, hpow]
      push_cast
      ring
    have hhalf : (2 : Rat) ^ (e - 1) = (2 : Rat) ^ e / 2 := by
      rw [zpow_sub_one₀ (by norm_num : (2 : Rat) ≠ 0)]
      ring
    have hg2 : g ≤ (2 : Rat) ^ e := by rw [← hyp]; exact hgy
    have hlogx : Int.log 2 x = e - 1 := by
      apply log_eq_of_zpow_le 2 h2 x (e - 1) hxpos
      · have : (2 : Rat) ^ (e - 1) ≤ x := by
          rw [hhalf]
          rw [hyp] at hx1
          linarith
        simpa using this
      · have : x < (2 : Rat) ^ (e - 1 + 1) := by
          rw [sub_add_cancel]
          exact hxlo'
        simpa using this
    rw [roundTo_pos 2 (p + 1) x hxpos, hlogx, hcast]
    have hcast2 : ((2 : Nat) : Rat) = 2 := by norm_num
    rw [hcast2]
    have hunit : (2 : Rat) ^ (e - 1 - (p : Int)) = g / 2 := by
      have : e - 1 - (p : Int) = e - (p : Int) - 1 := by ring
      rw [this, zpow_sub_one₀ (by norm_num : (2 : Rat) ≠ 0), ← hgdef]
      ring
    rw [hunit]
    have hnear : roundHalfEven (x / (g / 2)) = (2 : Int) ^ (p + 1) := by
      apply roundHalfEven_near
      have : x / (g / 2) - (((2 : Int) ^ (p + 1) : Int) : Rat) = (x - y) / (g / 2) := by
        rw [hgrid, hn]
        push_cast
        field_simp
        ring
      rw [this, abs_div, abs_of_pos (by positivity : (0 : Rat) < g / 2),
        div_lt_iff₀ (by positivity : (0 : Rat) < g / 2)]
      calc |x - y| < g / 8 := hdist
        _ ≤ 1 / 2 * (g / 2) := by linarith
    rw [hnear, hgrid, hn]
    push_cast
    ring


/-! ### Values of the floating-point types -/

/-- A number is its odd part times a power of two. -/
theorem oddPart_mul_pow (fuel : Nat) : ∀ n : Nat, ∃ j : Nat, n = oddPart fuel n * 2 ^ j := by
  induction fuel with
  | zero => intro n; exact ⟨0, by simp [oddPart]⟩
  | succ fuel ih =>
    intro n
    unfold oddPart
    by_cases h : n ≠ 0 ∧ n % 2 = 0
    · rw [if_pos h]
      obtain ⟨j, hj⟩ := ih (n / 2)
      refine ⟨j + 1, ?_⟩
      have h2 : n = 2 * (n / 2) := by omega
      calc n = 2 * (n / 2) := h2
        _ = 2 * (oddPart fuel (n / 2) * 2 ^ j) := by rw [← hj]
        _ = oddPart fuel (n / 2) * 2 ^ (j + 1) := by ring
    · rw [if_neg h]
      exact ⟨0, by simp⟩

/-- With enough halvings the odd part of a number other than 0 is odd. -/
theorem oddPart_odd (fuel : Nat) : ∀ n : Nat, n ≠ 0 → n < 2 ^ fuel → oddPart fuel n % 2 = 1 := by
  induction fuel with
  | zero =>
    intro n h0 h
    simp at h
    exact absurd h h0
  | succ fuel ih =>
    intro n h0 h
    unfold oddPart
    by_cases hc : n ≠ 0 ∧ n % 2 = 0
    · rw [if_pos hc]
      apply ih
      · omega
      · rw [pow_succ] at h
        omega
    · rw [if_neg hc]
      have : ¬ n % 2 = 0 := fun he => hc ⟨h0, he⟩
      omega

/-- The odd part of a number other than 0, all halvings made, is odd. -/
theorem oddPart_self_odd (n : Nat) (h : n ≠ 0) : oddPart n n % 2 = 1 :=
  oddPart_odd n n h (Nat.lt_two_pow n)

/-- There is one way only of writing a number as an odd number times a power of
two. -/
theorem odd_mul_pow_unique (a b s t : Nat) (ha : a % 2 = 1) (hb : b % 2 = 1)
    (h : a * 2 ^ s = b * 2 ^ t) : a = b := by
  have key : ∀ (a b s t : Nat), a % 2 = 1 → b % 2 = 1 → s ≤ t → a * 2 ^ s = b * 2 ^ t → a = b := by
    intro a b s t ha _ hst h
    obtain ⟨d, rfl⟩ := Nat.exists_eq_add_of_le hst
    rw [pow_add, ← mul_assoc] at h
    have h1 : a * 2 ^ s = b * 2 ^ d * 2 ^ s := by rw [h]; ring
    have h2 : a = b * 2 ^ d := Nat.eq_of_mul_eq_mul_right (by positivity) h1
    cases d with
    | zero => simpa using h2
    | succ d =>
      have he : a = 2 * (b * 2 ^ d) := by rw [h2, pow_succ]; ring
      generalize b * 2 ^ d = c at he
      omega
  rcases le_total s t with hst | hst
  · exact key a b s t ha hb hst h
  · exact (key b a t s hb ha hst h.symm).symm

/-- The odd part of a power of two is 1. -/
theorem oddPart_two_pow (i : Nat) : oddPart (2 ^ i) (2 ^ i) = 1 := by
  have hne : 2 ^ i ≠ 0 := by positivity
  obtain ⟨j, hj⟩ := oddPart_mul_pow (2 ^ i) (2 ^ i)
  have hodd := oddPart_self_odd (2 ^ i) hne
  exact (odd_mul_pow_unique 1 _ i j (by decide) hodd (by rw [one_mul]; exact hj)).symm

/-- A whole number of at most `bits` bits, or `2 ^ bits` itself, times a power of
two is a value with a significand of `bits` bits. -/
theorem hasSignificand_mul_zpow (bits : Nat) (hbits : 1 ≤ bits) (m e : Int)
    (hm : m.natAbs ≤ 2 ^ bits) : hasSignificand bits ((m : Rat) * (2 : Rat) ^ e) := by
  set q : Rat := (m : Rat) * (2 : Rat) ^ e with hq
  -- q as a quotient of whole numbers
  obtain ⟨a, b, hab⟩ : ∃ a b : Nat, q = ((m * 2 ^ a : Int) : Rat) / ((2 ^ b : Int) : Rat) := by
    rcases le_total 0 e with he | he
    · refine ⟨e.toNat, 0, ?_⟩
      have h1 : (2 : Rat) ^ e = (2 : Rat) ^ e.toNat := by
        rw [← zpow_natCast, Int.toNat_of_nonneg he]
      rw [hq, h1]
      push_cast
      simp
    · refine ⟨0, (-e).toNat, ?_⟩
      have h1 : (2 : Rat) ^ e = ((2 : Rat) ^ (-e).toNat)⁻¹ := by
        rw [← zpow_natCast, ← zpow_neg, Int.toNat_of_nonneg (by omega), neg_neg]
      rw [hq, h1]
      push_cast
      simp [div_eq_mul_inv]
  have hden : ∃ i : Nat, q.den = 2 ^ i := by
    have hd : ((q.den : Int)) ∣ ((2 ^ b : Int)) := by
      rw [hab, ← Rat.divInt_eq_div]
      exact Rat.den_dvd _ _
    have hd' : q.den ∣ 2 ^ b := by exact_mod_cast hd
    obtain ⟨i, -, hi⟩ := (Nat.dvd_prime_pow Nat.prime_two).mp hd'
    exact ⟨i, hi⟩
  obtain ⟨i, hi⟩ := hden
  have hcross : q.num * 2 ^ b = m * 2 ^ a * (q.den : Int) := by
    have h1 : (q.num : Rat) / (q.den : Rat) = ((m * 2 ^ a : Int) : Rat) / ((2 ^ b : Int) : Rat) := by
      rw [Rat.num_div_den, hab]
    have hdpos : (0 : Rat) < (q.den : Rat) := by exact_mod_cast q.den_pos
    have hbpos : (0 : Rat) < ((2 ^ b : Int) : Rat) := by positivity
    rw [div_eq_div_iff (ne_of_gt hdpos) (ne_of_gt hbpos)] at h1
    exact_mod_cast h1
  have hnat : q.num.natAbs * 2 ^ b = m.natAbs * 2 ^ (a + i) := by
    have := congrArg Int.natAbs hcross
    rw [Int.natAbs_mul, Int.natAbs_mul, Int.natAbs_mul, Int.natAbs_pow, Int.natAbs_pow,
      Int.natAbs_ofNat, hi] at this
    simp only [Int.reduceAbs] at this
    rw [this, pow_add]
    ring
  refine ⟨?_, ?_⟩
  · rw [hi]
    exact oddPart_two_pow i
  · by_cases hm0 : m = 0
    · have hq0 : q = 0 := by rw [hq, hm0]; simp
      rw [hq0]
      show oddPart 0 0 < 2 ^ bits
      have : oddPart 0 0 = 0 := rfl
      rw [this]
      positivity
    · have hmn : m.natAbs ≠ 0 := Int.natAbs_ne_zero.mpr hm0
      have hnum : q.num.natAbs ≠ 0 := by
        intro h0
        rw [h0, zero_mul] at hnat
        have : m.natAbs * 2 ^ (a + i) ≠ 0 := by positivity
        exact this hnat.symm
      obtain ⟨j, hj⟩ := oddPart_mul_pow q.num.natAbs q.num.natAbs
      obtain ⟨k, hk⟩ := oddPart_mul_pow m.natAbs m.natAbs
      have ho1 := oddPart_self_odd _ hnum
      have ho2 := oddPart_self_odd _ hmn
      have heq : oddPart q.num.natAbs q.num.natAbs * 2 ^ (j + b)
          = oddPart m.natAbs m.natAbs * 2 ^ (k + (a + i)) := by
        calc oddPart q.num.natAbs q.num.natAbs * 2 ^ (j + b)
            = (oddPart q.num.natAbs q.num.natAbs * 2 ^ j) * 2 ^ b := by rw [pow_add]; ring
          _ = q.num.natAbs * 2 ^ b := by rw [← hj]
          _ = m.natAbs * 2 ^ (a + i) := hnat
          _ = (oddPart m.natAbs m.natAbs * 2 ^ k) * 2 ^ (a + i) := by rw [← hk]
          _ = oddPart m.natAbs m.natAbs * 2 ^ (k + (a + i)) := by ring
      have hsame := odd_mul_pow_unique _ _ _ _ ho1 ho2 heq
      rw [hsame]
      have hle : oddPart m.natAbs m.natAbs ≤ m.natAbs := by
        have h1 : 1 ≤ 2 ^ k := Nat.one_le_two_pow
        calc oddPart m.natAbs m.natAbs = oddPart m.natAbs m.natAbs * 1 := (mul_one _).symm
          _ ≤ oddPart m.natAbs m.natAbs * 2 ^ k := Nat.mul_le_mul_left _ h1
          _ = m.natAbs := hk.symm
      have hne : oddPart m.natAbs m.natAbs ≠ 2 ^ bits := by
        intro he
        obtain ⟨p, rfl⟩ : ∃ p, bits = p + 1 := ⟨bits - 1, by omega⟩
        rw [he, pow_succ] at ho2
        omega
      omega

/-- A positive value with a significand of `bits` bits is a whole multiple of
the unit of its binade. -/
theorem grid_of_hasSignificand (bits : Nat) (y : Rat) (hy : 0 < y)
    (h : hasSignificand bits y) :
    ∃ n : Int, y = (n : Rat) * (2 : Rat) ^ (Int.log 2 y - ((bits : Int) - 1)) := by
  obtain ⟨hd, hn⟩ := h
  obtain ⟨j, hj⟩ := oddPart_mul_pow y.den y.den
  obtain ⟨k, hk⟩ := oddPart_mul_pow y.num.natAbs y.num.natAbs
  rw [hd, one_mul] at hj
  set o := oddPart y.num.natAbs y.num.natAbs with ho
  have hnum : 0 < y.num := Rat.num_pos.mpr hy
  have hnumcast : (y.num : Rat) = ((o * 2 ^ k : Nat) : Rat) := by
    have h1 : ((y.num.natAbs : Nat) : Rat) = ((o * 2 ^ k : Nat) : Rat) := congrArg _ hk
    have h2 : ((y.num.natAbs : Nat) : Int) = y.num := Int.natAbs_of_nonneg (le_of_lt hnum)
    have h3 : (((y.num.natAbs : Nat) : Int) : Rat) = (y.num : Rat) := congrArg _ h2
    rw [← h3, Int.cast_natCast]
    exact h1
  have hyeq : y = (o : Rat) * (2 : Rat) ^ ((k : Int) - (j : Int)) := by
    have h1 : y = (y.num : Rat) / (y.den : Rat) := (Rat.num_div_den y).symm
    rw [h1, hnumcast, hj, zpow_sub₀ (by norm_num : (2 : Rat) ≠ 0), zpow_natCast, zpow_natCast]
    push_cast
    ring
  have hopos : 0 < o := by
    rcases Nat.eq_zero_or_pos o with h0 | h0
    · rw [h0] at hyeq
      simp at hyeq
      exact absurd hyeq (ne_of_gt hy)
    · exact h0
  set e := Int.log 2 y with he
  have hlo : (2 : Rat) ^ e ≤ y := by
    have := Int.zpow_log_le_self (by decide : 1 < 2) hy
    simpa using this
  have hlt : (2 : Rat) ^ e < (2 : Rat) ^ ((bits : Int) + ((k : Int) - (j : Int))) := by
    have ho2 : (o : Rat) < (2 : Rat) ^ bits := by exact_mod_cast hn
    calc (2 : Rat) ^ e ≤ y := hlo
      _ = (o : Rat) * (2 : Rat) ^ ((k : Int) - (j : Int)) := hyeq
      _ < (2 : Rat) ^ bits * (2 : Rat) ^ ((k : Int) - (j : Int)) :=
          mul_lt_mul_of_pos_right ho2 (zpow_pos (by norm_num) _)
      _ = (2 : Rat) ^ ((bits : Int) + ((k : Int) - (j : Int))) := by
          rw [zpow_add₀ (by norm_num : (2 : Rat) ≠ 0), zpow_natCast]
  have hexp : e < (bits : Int) + ((k : Int) - (j : Int)) :=
    (zpow_lt_zpow_iff_right₀ (by norm_num : (1 : Rat) < 2)).mp hlt
  refine ⟨(o : Int) * 2 ^ ((k : Int) - (j : Int) - e + ((bits : Int) - 1)).toNat, ?_⟩
  have hs : (0 : Int) ≤ (k : Int) - (j : Int) - e + ((bits : Int) - 1) := by omega
  rw [hyeq]
  push_cast
  rw [mul_assoc, ← zpow_natCast, Int.toNat_of_nonneg hs, ← zpow_add₀ (by norm_num : (2 : Rat) ≠ 0)]
  congr 2
  ring

/-- Rounding to `bits` bits gives a value with a significand of `bits` bits. -/
theorem hasSignificand_roundTo (bits : Nat) (hbits : 1 ≤ bits) (q : Rat) :
    hasSignificand bits (roundTo 2 bits q) := by
  unfold roundTo
  by_cases h0 : q = 0
  · rw [if_pos h0]
    have := hasSignificand_mul_zpow bits hbits 0 0 (by simp)
    simpa using this
  · rw [if_neg h0]
    have hcast2 : ((2 : Nat) : Rat) = 2 := by norm_num
    rw [hcast2]
    apply hasSignificand_mul_zpow bits hbits
    have habs : 0 < |q| := abs_pos.mpr h0
    set e := Int.log 2 |q| with he
    set u : Rat := (2 : Rat) ^ (e - ((bits : Int) - 1)) with hu
    have hupos : 0 < u := zpow_pos (by norm_num) _
    have hhi : |q| < (2 : Rat) ^ (e + 1) := by
      have := Int.lt_zpow_succ_log_self (by decide : 1 < 2) |q|
      simpa using this
    have hpow : (2 : Rat) ^ (e + 1) = (2 : Rat) ^ bits * u := by
      rw [hu, ← zpow_natCast, ← zpow_add₀ (by norm_num : (2 : Rat) ≠ 0)]
      congr 1
      ring
    have hq : |q / u| < (2 : Rat) ^ bits := by
      rw [abs_div, abs_of_pos hupos, div_lt_iff₀ hupos, ← hpow]
      exact hhi
    have h1 := (abs_lt.mp hq).1
    have h2 := (abs_lt.mp hq).2
    have hle : roundHalfEven (q / u) ≤ (2 : Int) ^ bits :=
      roundHalfEven_le _ _ (by push_cast; exact le_of_lt h2)
    have hge : -((2 : Int) ^ bits) ≤ roundHalfEven (q / u) :=
      le_roundHalfEven _ _ (by push_cast; exact le_of_lt h1)
    have habs : ((roundHalfEven (q / u)).natAbs : Int) ≤ (2 : Int) ^ bits := by
      rw [Int.natCast_natAbs]
      exact abs_le.mpr ⟨hge, hle⟩
    exact_mod_cast habs

/-- The rounding of a positive rational, computed from its exponent and from the
whole number nearest to its significand. -/
theorem roundTo_eq (b d : Nat) (hb : 1 < b) (q : Rat) (k m : Int) (hq : 0 < q)
    (h1 : (b : Rat) ^ k ≤ q) (h2 : q < (b : Rat) ^ (k + 1))
    (hm : |q / (b : Rat) ^ (k - ((d : Int) - 1)) - (m : Rat)| < 1 / 2) :
    roundTo b d q = (m : Rat) * (b : Rat) ^ (k - ((d : Int) - 1)) := by
  rw [roundTo_pos b d q hq, log_eq_of_zpow_le b hb q k hq h1 h2, roundHalfEven_near _ m hm]

/-- A `float` value is read back from its decimal text: rounded to at least
nine significant decimal digits, then to the nearest `double` and from there to
the nearest `float`, a `float` that is not negative comes back as itself. -/
theorem toSingle_toDouble_decimal (digits : Nat) (hdigits : 9 ≤ digits) (q : Rat) (h0 : 0 ≤ q)
    (hq : isSingle q) : toSingle (toDouble (roundTo 10 digits q)) = q := by
  rcases eq_or_lt_of_le h0 with hz | hpos
  · rw [← hz]
    simp [toSingle, toDouble, roundTo]
  · set r1 := roundTo 10 digits q with hr1
    have e1 : |r1 - q| ≤ q / (2 * 10 ^ 8) := by
      have h := roundTo_sub_le 10 digits (by decide) q hpos
      have hcast : ((10 : Nat) : Rat) = 10 := by norm_num
      rw [hcast] at h
      have hmono : (10 : Rat) ^ (8 : Int) ≤ (10 : Rat) ^ ((digits : Int) - 1) :=
        zpow_le_zpow_right₀ (by norm_num) (by omega)
      have h8 : (10 : Rat) ^ (8 : Int) = 10 ^ 8 := by norm_num
      rw [h8] at hmono
      have hle : q / (2 * (10 : Rat) ^ ((digits : Int) - 1)) ≤ q / (2 * 10 ^ 8) := by
        apply div_le_div_of_nonneg_left (le_of_lt hpos) (by positivity)
        linarith
      exact le_trans h hle
    have hr1pos : 0 < r1 := by
      have := (abs_le.mp e1).1
      have hq8 : q / (2 * 10 ^ 8) < q := by
        rw [div_lt_iff₀ (by positivity)]
        nlinarith
      linarith
    set r2 := toDouble r1 with hr2
    have e2 : |r2 - r1| ≤ r1 / 2 ^ 53 := by
      have h := roundTo_sub_le 2 53 (by decide) r1 hr1pos
      have hcast : ((2 : Nat) : Rat) = 2 := by norm_num
      have hexp : (((53 : Nat) : Int) - 1) = (52 : Int) := by norm_num
      rw [hcast, hexp] at h
      have h52 : (2 : Rat) * (2 : Rat) ^ (52 : Int) = 2 ^ 53 := by norm_num
      rw [h52] at h
      exact h
    have e3 : |r2 - q| ≤ q / (2 : Rat) ^ (24 + 3) := by
      have ha1 := abs_le.mp e1
      have ha2 := abs_le.mp e2
      have hc : q / (2 * 10 ^ 8) + (q + q / (2 * 10 ^ 8)) / 2 ^ 53 ≤ q / (2 : Rat) ^ (24 + 3) := by
        have : q / (2 * 10 ^ 8) + (q + q / (2 * 10 ^ 8)) / 2 ^ 53
            = q * (1 / (2 * 10 ^ 8) + (1 + 1 / (2 * 10 ^ 8)) / 2 ^ 53) := by ring
        rw [this, div_eq_mul_one_div q]
        apply mul_le_mul_of_nonneg_left _ (le_of_lt hpos)
        norm_num
      have hb : r1 / 2 ^ 53 ≤ (q + q / (2 * 10 ^ 8)) / 2 ^ 53 := by
        apply div_le_div_of_nonneg_right _ (by positivity)
        linarith [ha1.2]
      rw [abs_le]
      constructor <;> linarith [ha1.1, ha1.2, ha2.1, ha2.2]
    obtain ⟨n, hn⟩ := grid_of_hasSignificand 24 q hpos hq
    exact roundTo_two_near 24 (by decide) q hpos n hn r2 e3

/-- The results of `toSingle` are `float` values. -/
theorem isSingle_toSingle (q : Rat) : isSingle (toSingle q) :=
  hasSignificand_roundTo 24 (by decide) q

/-- The results of `toDouble` are `double` values. -/
theorem isDouble_toDouble (q : Rat) : isDouble (toDouble q) :=
  hasSignificand_roundTo 53 (by decide) q

/-- The `double` nearest to 110/100. -/
theorem toDouble_110 : toDouble (((110 : Int) : Rat) / 100) = 2476979795053773 / 2251799813685248 := by
  unfold toDouble
  rw [roundTo_eq 2 53 (by decide) _ 0 4953959590107546 (by norm_num) (by norm_num) (by norm_num)
    (by rw [abs_lt]; constructor <;> norm_num)]
  norm_num

/-- The `float` nearest to 110/100. -/
theorem toSingle_110 : toSingle (((110 : Int) : Rat) / 100) = 9227469 / 8388608 := by
  unfold toSingle
  rw [roundTo_eq 2 24 (by decide) _ 0 9227469 (by norm_num) (by norm_num) (by norm_num)
    (by rw [abs_lt]; constructor <;> norm_num)]
  norm_num


/-! ### Elements -/

theorem foldl_appendChild {α : Type} (f : α → QDomNode) (l : List α) (t : String)
    (attrs : List (String × String)) (cs : List QDomNode) :
    l.foldl (fun root x => root.appendChild (f x)) (QDomNode.element t attrs cs)
      = QDomNode.element t attrs (cs ++ l.map f) := by
  induction l generalizing cs with
  | nil => simp
  | cons x xs ih =>
    rw [List.foldl_cons]
    have h : (QDomNode.element t attrs cs).appendChild (f x)
        = QDomNode.element t attrs (cs ++ [f x]) := rfl
    rw [h, ih]
    simp

theorem tabElementOf_eq (env : Env) (v : DocumentView) :
    tabElementOf env v = QDomNode.element "tab"
      [("filePath", env.absoluteFilePath v.filePath),
       ("currentPage", numberInt v.currentPage),
       ("continuousMode", numberUInt (if v.continousMode then 1 else 0)),
       ("twoPagesMode", numberUInt (if v.twoPagesMode then 1 else 0)),
       ("scaleMode", numberUInt v.scaleMode.value),
       ("scaleFactor", env.numberReal v.scaleFactor),
       ("rotation", numberUInt v.rotation.value)] [] := by
  simp [tabElementOf, QDomNode.createElement, QDomNode.setAttribute, QDomNode.setAttr]

theorem restoredView_tabElementOf (env : Env) (v : DocumentView) (h : v.WellFormed) :
    restoredView env (tabElementOf env v) =
      { v.anonymous with
        filePath := env.absoluteFilePath v.filePath
        scaleFactor := env.toFloat (env.numberReal v.scaleFactor) } := by
  obtain ⟨h1, h2, h3⟩ := h
  rw [tabElementOf_eq]
  simp only [restoredView, QDomNode.getAttribute, List.lookup, DocumentView.anonymous]
  simp [toInt_numberInt _ h1, toUInt_numberUInt _ h2, toUInt_numberUInt _ h3]
  cases v.continousMode <;> cases v.twoPagesMode <;> simp [toUInt_numberUInt, isUInt]

/-! ### Opening and restoring one tab -/

theorem modify_append_last {α : Type} (f : α → α) (l : List α) (p : α) :
    (l ++ [p]).modify f l.length = l ++ [f p] := by
  induction l with
  | nil => rfl
  | cons x xs ih =>
    have h : (x :: (xs ++ [p])).modify f (xs.length + 1) = x :: (xs ++ [p]).modify f xs.length :=
      rfl
    rw [List.cons_append, List.length_cons, h, ih]
    rfl

theorem onCurrentTab_last (s : QSettings) (l : List TabPage) (p : TabPage)
    (tm bm : List QAction) (ws oc : List String) (n : Nat) (f : DocumentView → DocumentView) :
    MainWindow.onCurrentTab
        { settings := s, tabs := l ++ [p], currentIndex := (l.length : Int), tabsMenu := tm,
          bookmarksMenu := bm, warnings := ws, openCalls := oc, nextObject := n } f
      = some { settings := s, tabs := l ++ [{ p with widget := f p.widget }],
               currentIndex := (l.length : Int), tabsMenu := tm, bookmarksMenu := bm,
               warnings := ws, openCalls := oc, nextObject := n } := by
  simp [MainWindow.onCurrentTab, MainWindow.currentTab, MainWindow.tab, modify_append_last]

theorem restoreTab_openable (env : Env) (w : MainWindow) (e : QDomNode)
    (h : openable env e = true) : restoreTab env w e = some (restoredWindow env w e) := by
  unfold openable at h
  simp [restoreTab, openInNewTab, DocumentView.openDocument, h, onCurrentTab_last,
    restoredWindow, restoredView, DocumentView.setContinousMode, DocumentView.setTwoPagesMode,
    DocumentView.setScaleMode, DocumentView.setScaleFactor, DocumentView.setRotation,
    DocumentView.jumpToPage]

theorem restoreTab_not_openable (env : Env) (w : MainWindow) (e : QDomNode)
    (h : openable env e = false) :
    restoreTab env w e = some
      { w with
        nextObject := w.nextObject + 1
        openCalls := w.openCalls ++ [e.getAttribute "filePath"]
        warnings := w.warnings ++ ["Could not open \x27" ++ e.getAttribute "filePath" ++ "\x27."] } := by
  unfold openable at h
  simp [restoreTab, openInNewTab, DocumentView.openDocument, h]

theorem anonymous_restoredView (env : Env) (e : QDomNode) (n : Nat) :
    DocumentView.anonymous { restoredView env e with object := n } = restoredView env e := rfl

theorem views_restoredWindow (env : Env) (w : MainWindow) (e : QDomNode) :
    (restoredWindow env w e).views
      = w.views ++ [{ restoredView env e with object := w.nextObject }] := by
  simp [restoredWindow, MainWindow.views]

/-- The loop of `restoreTabs` always runs to its end; it adds, after the tabs
already open, one view per element whose path opens, in the order of the
elements, and leaves the settings flags and the bookmarks menu alone. -/
theorem restoreTabsLoop_views (env : Env) (es : List QDomNode) (w : MainWindow) :
    ∃ w1, restoreTabsLoop env es w = some w1 ∧
      w1.views.map DocumentView.anonymous
        = w.views.map DocumentView.anonymous
          ++ (es.filter (openable env)).map (restoredView env) ∧
      w1.bookmarksMenu = w.bookmarksMenu ∧
      w1.settings.restoreTabs = w.settings.restoreTabs ∧
      w1.settings.restoreBookmarks = w.settings.restoreBookmarks := by
  induction es generalizing w with
  | nil => exact ⟨w, rfl, by simp, rfl, rfl, rfl⟩
  | cons e es ih =>
    cases h : openable env e with
    | true =>
      obtain ⟨w1, h1, h2, h3, h4, h5⟩ := ih (restoredWindow env w e)
      refine ⟨w1, ?_, ?_, ?_, ?_, ?_⟩
      · simp [restoreTabsLoop, restoreTab_openable env w e h, h1]
      · rw [h2, views_restoredWindow]
        simp [h, anonymous_restoredView]
      · rw [h3]; rfl
      · rw [h4]; rfl
      · rw [h5]; rfl
    | false =>
      obtain ⟨w1, h1, h2, h3, h4, h5⟩ := ih
        { w with
          nextObject := w.nextObject + 1
          openCalls := w.openCalls ++ [e.getAttribute "filePath"]
          warnings := w.warnings ++
            ["Could not open \x27" ++ e.getAttribute "filePath" ++ "\x27."] }
      refine ⟨w1, ?_, ?_, ?_, ?_, ?_⟩
      · simp [restoreTabsLoop, restoreTab_not_openable env w e h, h1]
      · rw [h2]
        simp [h, MainWindow.views]
      · rw [h3]
      · rw [h4]
      · rw [h5]

theorem restoreTabs_eq_loop (env : Env) (w : MainWindow) (fs : FileSystem)
    (h : w.settings.restoreTabs = true) :
    restoreTabs env w fs = restoreTabsLoop env (recordsOf fs.tabsXml) w := by
  unfold restoreTabs recordsOf
  rw [if_pos h]
  cases hr : fs.tabsXml.openRead with
  | none => rfl
  | some c =>
    cases c with
    | malformed => rfl
    | xml root => rfl

/-! ### What saveTabs leaves in the file -/

theorem isElement_tabElementOf (env : Env) (v : DocumentView) :
    (tabElementOf env v).isElement = true := by
  rw [tabElementOf_eq]; rfl

theorem filter_isElement_map {α : Type} (f : α → QDomNode) (l : List α)
    (h : ∀ x, (f x).isElement = true) :
    (l.map f).filter QDomNode.isElement = l.map f := by
  induction l with
  | nil => rfl
  | cons x xs ih => simp [h x, ih]

theorem recordsOf_saveTabs (env : Env) (w : MainWindow) (fs : FileSystem)
    (hsave : w.settings.restoreTabs = true) (hwritable : fs.tabsXml.writable = true)
    (hreadable : fs.tabsXml.readable = true) :
    recordsOf (saveTabs env w fs).tabsXml = w.views.map (tabElementOf env) := by
  unfold saveTabs
  rw [if_pos hsave]
  simp only [DiskFile.openWrite, hwritable, if_true, QDomNode.createElement,
    DiskFile.write, recordsOf, DiskFile.openRead, hreadable]
  rw [foldl_appendChild (fun t => tabElementOf env t.widget) w.tabs]
  simp only [QDomNode.childElements, List.nil_append]
  rw [filter_isElement_map (fun t : TabPage => tabElementOf env t.widget) w.tabs
    (fun t => isElement_tabElementOf env t.widget)]
  simp [MainWindow.views]

theorem openable_tabElementOf (env : Env) (v : DocumentView) :
    openable env (tabElementOf env v) = env.canOpen (env.absoluteFilePath v.filePath) := by
  rw [tabElementOf_eq]
  simp [openable, QDomNode.getAttribute, List.lookup]

theorem tabKey_anonymous (env : Env) (v : DocumentView) :
    tabKey env v.anonymous = tabKey env v := rfl

/-! ### Adding a bookmark -/

theorem addBookmarkLoop_some (env : Env) (fp : String) (pg : Int) (m m1 : List QAction)
    (h : addBookmarkLoop env fp pg m = some m1) :
    (∃ b ∈ m.filterMap QAction.menu, samePath env b.filePath fp) ∧
      m1.filterMap QAction.menu = addBookmarkTo env fp pg (m.filterMap QAction.menu) := by
  induction m generalizing m1 with
  | nil => simp [addBookmarkLoop] at h
  | cons a rest ih =>
    cases a with
    | menuAction b =>
      by_cases hb : env.absoluteFilePath b.filePath = env.absoluteFilePath fp
      · refine ⟨⟨b, by simp [QAction.menu], hb⟩, ?_⟩
        by_cases hp : pg = 1
        · simp [addBookmarkLoop, QAction.menu, hb, hp] at h
          subst h
          simp [QAction.menu, addBookmarkTo, samePath, hb, recordPage, hp]
        · simp [addBookmarkLoop, QAction.menu, hb, hp] at h
          subst h
          simp [QAction.menu, addBookmarkTo, samePath, hb, recordPage, hp]
      · simp only [addBookmarkLoop, QAction.menu, hb, if_false, Option.map_eq_some'] at h
        obtain ⟨m2, h2, rfl⟩ := h
        obtain ⟨⟨b1, hb1, hs1⟩, heq⟩ := ih m2 h2
        refine ⟨⟨b1, by simp [QAction.menu, hb1], hs1⟩, ?_⟩
        simp [QAction.menu, addBookmarkTo, samePath, hb, heq]
    | action t =>
      simp only [addBookmarkLoop, QAction.menu, Option.map_eq_some'] at h
      obtain ⟨m2, h2, rfl⟩ := h
      obtain ⟨hex, heq⟩ := ih m2 h2
      exact ⟨by simpa [QAction.menu] using hex, by simpa [QAction.menu] using heq⟩
    | separator =>
      simp only [addBookmarkLoop, QAction.menu, Option.map_eq_some'] at h
      obtain ⟨m2, h2, rfl⟩ := h
      obtain ⟨hex, heq⟩ := ih m2 h2
      exact ⟨by simpa [QAction.menu] using hex, by simpa [QAction.menu] using heq⟩
    | tabAction t n =>
      simp only [addBookmarkLoop, QAction.menu, Option.map_eq_some'] at h
      obtain ⟨m2, h2, rfl⟩ := h
      obtain ⟨hex, heq⟩ := ih m2 h2
      exact ⟨by simpa [QAction.menu] using hex, by simpa [QAction.menu] using heq⟩

theorem addBookmarkLoop_none (env : Env) (fp : String) (pg : Int) (m : List QAction)
    (h : addBookmarkLoop env fp pg m = none) :
    ∀ b ∈ m.filterMap QAction.menu, ¬ samePath env b.filePath fp := by
  induction m with
  | nil => simp
  | cons a rest ih =>
    cases a with
    | menuAction b =>
      by_cases hb : env.absoluteFilePath b.filePath = env.absoluteFilePath fp
      · by_cases hp : pg = 1 <;> simp [addBookmarkLoop, QAction.menu, hb, hp] at h
      · simp only [addBookmarkLoop, QAction.menu, hb, if_false, Option.map_eq_none'] at h
        intro b1 hb1
        simp only [QAction.menu, List.filterMap_cons, List.mem_cons] at hb1
        rcases hb1 with rfl | hb1
        · exact hb
        · exact ih h b1 hb1
    | action t =>
      simp only [addBookmarkLoop, QAction.menu, Option.map_eq_none'] at h
      simpa [QAction.menu] using ih h
    | separator =>
      simp only [addBookmarkLoop, QAction.menu, Option.map_eq_none'] at h
      simpa [QAction.menu] using ih h
    | tabAction t n =>
      simp only [addBookmarkLoop, QAction.menu, Option.map_eq_none'] at h
      simpa [QAction.menu] using ih h

theorem addBookmarkTo_of_not_mem (env : Env) (fp : String) (pg : Int) (bs : List Bookmark)
    (h : ∀ b ∈ bs, ¬ samePath env b.filePath fp) :
    addBookmarkTo env fp pg bs = bs ++ [recordPage (Bookmark.new fp) pg] := by
  induction bs with
  | nil => rfl
  | cons b bs ih =>
    have hb := h b (List.mem_cons_self b bs)
    simp only [addBookmarkTo, hb, if_false, List.cons_append]
    rw [ih (fun x hx => h x (List.mem_cons_of_mem b hx))]

theorem addBookmarkTo_of_mem (env : Env) (fp : String) (pg : Int) (bs : List Bookmark)
    (h : ∃ b ∈ bs, samePath env b.filePath fp) :
    ∃ pre b post, bs = pre ++ b :: post ∧ (∀ x ∈ pre, ¬ samePath env x.filePath fp) ∧
      samePath env b.filePath fp ∧
      addBookmarkTo env fp pg bs = pre ++ recordPage b pg :: post := by
  induction bs with
  | nil => simp at h
  | cons b bs ih =>
    by_cases hb : samePath env b.filePath fp
    · exact ⟨[], b, bs, rfl, by simp, hb, by simp [addBookmarkTo, hb]⟩
    · obtain ⟨b1, hb1, hs1⟩ := h
      have hb1r : b1 ∈ bs := by
        rcases List.mem_cons.mp hb1 with rfl | hmem
        · exact absurd hs1 hb
        · exact hmem
      obtain ⟨pre, b2, post, hsplit, hpre, hb2, heq⟩ := ih ⟨b1, hb1r, hs1⟩
      refine ⟨b :: pre, b2, post, by rw [hsplit]; rfl, ?_, hb2, ?_⟩
      · intro x hx
        rcases List.mem_cons.mp hx with rfl | hmem
        · exact hb
        · exact hpre x hmem
      · simp only [addBookmarkTo, hb, if_false, List.cons_append]
        rw [heq]

/-- The code refines the spec: with a current tab, `on_addBookmark_triggered`
returns, turns the list of bookmarks into what Add bookmark(path, page) of the
spec gives for the path and page of the current tab, and changes nothing but
the bookmarks menu. -/
theorem on_addBookmark_triggered_eq (env : Env) (w : MainWindow) (tab : DocumentView)
    (htab : w.currentTab = some tab) :
    ∃ m, on_addBookmark_triggered env w = some { w with bookmarksMenu := m } ∧
      m.filterMap QAction.menu
        = addBookmarkTo env tab.filePath tab.currentPage w.bookmarks := by
  unfold on_addBookmark_triggered
  rw [htab]
  simp only
  cases hl : addBookmarkLoop env tab.filePath tab.currentPage w.bookmarksMenu with
  | some m =>
    exact ⟨m, rfl, (addBookmarkLoop_some env _ _ _ _ hl).2⟩
  | none =>
    refine ⟨_, rfl, ?_⟩
    have hn := addBookmarkLoop_none env _ _ _ hl
    rw [MainWindow.bookmarks, addBookmarkTo_of_not_mem env _ _ _ hn]
    simp [QAction.menu, recordPage]

/-! ### Removing, restoring and saving bookmarks -/

theorem recordPage_filePath (b : Bookmark) (pg : Int) : (recordPage b pg).filePath = b.filePath := by
  unfold recordPage
  split <;> rfl

theorem nodup_addBookmarkTo (env : Env) (fp : String) (pg : Int) (bs : List Bookmark)
    (h : (bs.map (fun b => env.absoluteFilePath b.filePath)).Nodup) :
    ((addBookmarkTo env fp pg bs).map (fun b => env.absoluteFilePath b.filePath)).Nodup := by
  by_cases hex : ∃ b ∈ bs, samePath env b.filePath fp
  · obtain ⟨pre, b, post, hsplit, -, -, heq⟩ := addBookmarkTo_of_mem env fp pg bs hex
    rw [heq]
    rw [hsplit] at h
    simpa [recordPage_filePath] using h
  · have hnone : ∀ b ∈ bs, ¬ samePath env b.filePath fp := fun x hx hs => hex ⟨x, hx, hs⟩
    rw [addBookmarkTo_of_not_mem env fp pg bs hnone]
    rw [List.map_append, List.nodup_append]
    refine ⟨h, by simp, ?_⟩
    intro a ha hb
    simp only [List.map_cons, List.map_nil, List.mem_singleton, recordPage_filePath,
      Bookmark.new] at hb
    obtain ⟨x, hx, rfl⟩ := List.mem_map.mp ha
    exact hnone x hx hb

theorem removeAll_filterMap (m : List QAction) :
    ((m.map (fun action =>
        match action.menu with
        | some bookmark => QAction.menuAction bookmark.deleteLater
        | none => action)).filter (fun action =>
        match action.menu with
        | some bookmark => !bookmark.deferredDelete
        | none => true)).filterMap QAction.menu = [] := by
  induction m with
  | nil => rfl
  | cons a rest ih =>
    cases a with
    | menuAction b => simpa [QAction.menu, Bookmark.deleteLater] using ih
    | action t => simpa [QAction.menu] using ih
    | separator => simpa [QAction.menu] using ih
    | tabAction t n => simpa [QAction.menu] using ih

/-- After remove-all-bookmarks and the return to the event loop no bookmark is
left in the menu. -/
theorem bookmarks_removeAll (w : MainWindow) :
    (processDeferredDeletes (on_removeAllBookmarks_triggered w)).bookmarks = [] :=
  removeAll_filterMap w.bookmarksMenu

theorem foldl_addJumpToPage {α : Type} (g : α → Int) (l : List α) (b : Bookmark) :
    l.foldl (fun bk x => bk.addJumpToPage (g x)) b = { b with pages := b.pages ++ l.map g } := by
  induction l generalizing b with
  | nil => simp
  | cons x xs ih =>
    rw [List.foldl_cons, ih]
    simp [Bookmark.addJumpToPage]

theorem bookmarkOfElement_eq (e : QDomNode) :
    bookmarkOfElement e
      = { filePath := e.getAttribute "filePath"
          pages := e.childElements.map (fun c => toInt (c.getAttribute "page"))
          deferredDelete := false } := by
  unfold bookmarkOfElement
  have h := foldl_addJumpToPage (fun c : QDomNode => toInt (c.getAttribute "page"))
    e.childElements (Bookmark.new (e.getAttribute "filePath"))
  rw [h]
  simp [Bookmark.new]

theorem foldl_addMenu (f : QDomNode → Bookmark) (es : List QDomNode) (w : MainWindow) :
    es.foldl (fun w1 e =>
        { w1 with bookmarksMenu := w1.bookmarksMenu ++ [QAction.menuAction (f e)] }) w
      = { w with bookmarksMenu := w.bookmarksMenu ++ es.map (fun e => QAction.menuAction (f e)) } := by
  induction es generalizing w with
  | nil => simp
  | cons e es ih =>
    rw [List.foldl_cons, ih]
    simp

theorem filterMap_menu_append (m : List QAction) (bs : List Bookmark) :
    (m ++ bs.map QAction.menuAction).filterMap QAction.menu
      = m.filterMap QAction.menu ++ bs := by
  rw [List.filterMap_append]
  congr 1
  induction bs with
  | nil => rfl
  | cons b bs ih => simp [QAction.menu, ih]

/-- The bookmarks after `restoreBookmarks`: the ones already there followed,
when the setting is enabled, by one bookmark per record of the file. -/
theorem bookmarks_restoreBookmarks (w : MainWindow) (fs : FileSystem) :
    (restoreBookmarks w fs).bookmarks
      = w.bookmarks ++ (if w.settings.restoreBookmarks = true then
          (recordsOf fs.bookmarksXml).map bookmarkOfElement else []) := by
  unfold restoreBookmarks recordsOf
  by_cases hs : w.settings.restoreBookmarks = true
  · rw [if_pos hs, if_pos hs]
    cases hr : fs.bookmarksXml.openRead with
    | none => simp
    | some c =>
      cases c with
      | malformed => simp
      | xml root =>
        simp only
        rw [foldl_addMenu bookmarkOfElement]
        have h := filterMap_menu_append w.bookmarksMenu (root.childElements.map bookmarkOfElement)
        rw [List.map_map] at h
        exact h
  · rw [if_neg hs, if_neg hs]
    simp

theorem bookmarkPaths_restoreBookmarks (env : Env) (w : MainWindow) (fs : FileSystem)
    (hs : w.settings.restoreBookmarks = true) :
    bookmarkPaths env (restoreBookmarks w fs)
      = bookmarkPaths env w ++ (recordsOf fs.bookmarksXml).map (recordPath env) := by
  unfold bookmarkPaths
  rw [bookmarks_restoreBookmarks, if_pos hs, List.map_append, List.map_map]
  congr 1
  apply List.map_congr_left
  intro e _
  simp [bookmarkOfElement_eq, recordPath]

theorem foldl_bookmarkElements (f : Bookmark → QDomNode) (m : List QAction) (t : String)
    (attrs : List (String × String)) (cs : List QDomNode) :
    m.foldl (fun root action =>
        match action.menu with
        | some bookmark => root.appendChild (f bookmark)
        | none => root) (QDomNode.element t attrs cs)
      = QDomNode.element t attrs (cs ++ (m.filterMap QAction.menu).map f) := by
  induction m generalizing cs with
  | nil => simp
  | cons a rest ih =>
    rw [List.foldl_cons]
    cases a with
    | menuAction b =>
      show List.foldl _ (QDomNode.element t attrs (cs ++ [f b])) rest = _
      rw [ih]
      simp [QAction.menu]
    | action x =>
      show List.foldl _ (QDomNode.element t attrs cs) rest = _
      rw [ih]
      simp [QAction.menu]
    | separator =>
      show List.foldl _ (QDomNode.element t attrs cs) rest = _
      rw [ih]
      simp [QAction.menu]
    | tabAction x n =>
      show List.foldl _ (QDomNode.element t attrs cs) rest = _
      rw [ih]
      simp [QAction.menu]

theorem bookmarkElementOf_eq (env : Env) (b : Bookmark) :
    bookmarkElementOf env b
      = QDomNode.element "bookmark" [("filePath", env.absoluteFilePath b.filePath)]
          (b.pages.map (fun page =>
            QDomNode.element "jumpToPage" [("page", numberInt page)] [])) := by
  unfold bookmarkElementOf
  have h := foldl_appendChild
    (fun page : Int => (QDomNode.createElement "jumpToPage").setAttribute "page" (numberInt page))
    b.pages "bookmark" [("filePath", env.absoluteFilePath b.filePath)] []
  simp only [QDomNode.createElement, QDomNode.setAttribute, QDomNode.setAttr,
    List.nil_append] at h ⊢
  exact h

theorem isElement_bookmarkElementOf (env : Env) (b : Bookmark) :
    (bookmarkElementOf env b).isElement = true := by
  rw [bookmarkElementOf_eq]; rfl

theorem bookmarkOfElement_bookmarkElementOf (env : Env) (b : Bookmark) (h : b.WellFormed) :
    bookmarkOfElement (bookmarkElementOf env b)
      = { filePath := env.absoluteFilePath b.filePath, pages := b.pages,
          deferredDelete := false } := by
  rw [bookmarkOfElement_eq, bookmarkElementOf_eq]
  have h1 : (QDomNode.element "bookmark" [("filePath", env.absoluteFilePath b.filePath)]
      (b.pages.map (fun page =>
        QDomNode.element "jumpToPage" [("page", numberInt page)] []))).getAttribute "filePath"
      = env.absoluteFilePath b.filePath := by
    simp [QDomNode.getAttribute, List.lookup]
  have h2 : (QDomNode.element "bookmark" [("filePath", env.absoluteFilePath b.filePath)]
      (b.pages.map (fun page =>
        QDomNode.element "jumpToPage" [("page", numberInt page)] []))).childElements
      = b.pages.map (fun page =>
        QDomNode.element "jumpToPage" [("page", numberInt page)] []) :=
    filter_isElement_map _ _ (fun _ => rfl)
  have hp : b.pages.map ((fun c : QDomNode => toInt (c.getAttribute "page")) ∘
      (fun page => QDomNode.element "jumpToPage" [("page", numberInt page)] [])) = b.pages := by
    conv_rhs => rw [← List.map_id b.pages]
    apply List.map_congr_left
    intro p hp
    have h3 : (QDomNode.element "jumpToPage" [("page", numberInt p)] []).getAttribute "page"
        = numberInt p := by
      simp [QDomNode.getAttribute, List.lookup]
    simp only [Function.comp_apply, id, h3]
    exact toInt_numberInt p (h p hp)
  rw [h1, h2, List.map_map, hp]

theorem recordsOf_saveBookmarks (env : Env) (w : MainWindow) (fs : FileSystem)
    (hsave : w.settings.restoreBookmarks = true) (hwritable : fs.bookmarksXml.writable = true)
    (hreadable : fs.bookmarksXml.readable = true) :
    recordsOf (saveBookmarks env w fs).bookmarksXml = w.bookmarks.map (bookmarkElementOf env) := by
  unfold saveBookmarks
  rw [if_pos hsave]
  simp only [DiskFile.openWrite, hwritable, if_true, QDomNode.createElement,
    DiskFile.write, recordsOf, DiskFile.openRead, hreadable]
  rw [foldl_bookmarkElements (bookmarkElementOf env) w.bookmarksMenu]
  simp only [QDomNode.childElements, List.nil_append]
  rw [filter_isElement_map (bookmarkElementOf env) _ (isElement_bookmarkElementOf env)]
  rfl

/-! ## Properties of the persistence code -/

/-- C1: with the restore-tabs setting enabled when saving and when restoring,
the tabs file writable and readable, and every saved path openable, `saveTabs`
on any list of open tabs followed by `restoreTabs` on a window without tabs
returns and yields as many tabs as were saved, in the same order, the i-th
restored tab having the absolute file path, current page, continuous-mode flag,
two-pages-mode flag, scale mode and rotation of the i-th saved tab. -/
theorem saveTabs_restoreTabs_round_trip (env : Env) (w w0 : MainWindow) (fs : FileSystem)
    (hsave : w.settings.restoreTabs = true) (hrestore : w0.settings.restoreTabs = true)
    (hwritable : fs.tabsXml.writable = true) (hreadable : fs.tabsXml.readable = true)
    (hempty : w0.tabs = [])
    (habs : ∀ p, env.absoluteFilePath (env.absoluteFilePath p) = env.absoluteFilePath p)
    (hopen : ∀ v ∈ w.views, env.canOpen (env.absoluteFilePath v.filePath) = true)
    (hwf : ∀ v ∈ w.views, v.WellFormed) :
    ∃ w1, restoreTabs env w0 (saveTabs env w fs) = some w1 ∧
      w1.views.length = w.views.length ∧
      w1.views.map (tabKey env) = w.views.map (tabKey env) := by
  obtain ⟨w1, h1, h2, -⟩ :=
    restoreTabsLoop_views env (recordsOf (saveTabs env w fs).tabsXml) w0
  rw [recordsOf_saveTabs env w fs hsave hwritable hreadable] at h1 h2
  have hfilter : (w.views.map (tabElementOf env)).filter (openable env)
      = w.views.map (tabElementOf env) := by
    rw [List.filter_eq_self]
    intro e he
    obtain ⟨v, hv, rfl⟩ := List.mem_map.mp he
    rw [openable_tabElementOf]
    exact hopen v hv
  have hviews0 : w0.views = [] := by simp [MainWindow.views, hempty]
  rw [hfilter, hviews0, List.map_nil, List.nil_append, List.map_map] at h2
  have hkeys : w1.views.map (tabKey env) = w.views.map (tabKey env) := by
    have h3 := congrArg (List.map (tabKey env)) h2
    rw [List.map_map, List.map_map] at h3
    have hl : (tabKey env ∘ DocumentView.anonymous) = tabKey env := by
      funext v; exact tabKey_anonymous env v
    rw [hl] at h3
    rw [h3]
    apply List.map_congr_left
    intro v hv
    simp only [Function.comp_apply]
    rw [restoredView_tabElementOf env v (hwf v hv)]
    simp [tabKey, DocumentView.anonymous, habs]
  refine ⟨w1, ?_, ?_, hkeys⟩
  · rw [restoreTabs_eq_loop env w0 _ hrestore, recordsOf_saveTabs env w fs hsave hwritable hreadable]
    exact h1
  · have hl := congrArg List.length hkeys
    simpa using hl



/-- C2: with the restore-tabs setting enabled, `restoreTabs` returns for every
tabs file (missing, unreadable, malformed or a document) and appends to the open
tabs exactly one tab per record whose path can be opened, none for a record
whose path cannot be opened, in the order of the records in the file; each new
tab carries the attributes read from its record. -/
theorem restoreTabs_one_tab_per_openable_record (env : Env) (w : MainWindow)
    (fs : FileSystem) (h : w.settings.restoreTabs = true) :
    ∃ w1, restoreTabs env w fs = some w1 ∧
      w1.views.length
        = w.views.length + ((recordsOf fs.tabsXml).filter (openable env)).length ∧
      w1.views.map DocumentView.anonymous
        = w.views.map DocumentView.anonymous
          ++ ((recordsOf fs.tabsXml).filter (openable env)).map (restoredView env) := by
  obtain ⟨w1, h1, h2, -⟩ := restoreTabsLoop_views env (recordsOf fs.tabsXml) w
  refine ⟨w1, by rw [restoreTabs_eq_loop env w fs h, h1], ?_, h2⟩
  have hl := congrArg List.length h2
  simpa using hl

theorem sampleEnv_absoluteFilePath_idem (p : String) :
    sampleEnv.absoluteFilePath (sampleEnv.absoluteFilePath p) = sampleEnv.absoluteFilePath p := by
  obtain ⟨cs⟩ := p
  cases cs with
  | nil => rfl
  | cons c cs =>
    by_cases hc : c = '/'
    · subst hc; rfl
    · have h1 : sampleEnv.absoluteFilePath (String.mk (c :: cs))
          = "/home/user/" ++ String.mk (c :: cs) := by
        simp only [sampleEnv]
        split
        · rename_i heq
          simp only [List.cons.injEq] at heq
          exact absurd heq.1 hc
        · rename_i heq
          simp at heq
        · rfl
      rw [h1]
      rfl

/-- Witness of C1 on the two tabs of `twoTabs`. -/
theorem saveTabs_restoreTabs_round_trip_witness :
    ∃ w1, restoreTabs sampleEnv (MainWindow.create settingsOn)
        (saveTabs sampleEnv twoTabs emptyFiles) = some w1 ∧
      w1.views.length = 2 ∧
      w1.views.map (tabKey sampleEnv)
        = [("/home/user/a.pdf", 5, true, false, ScaleMode.FitToPageWidth, { value := 3 }),
           ("/b.pdf", 7, false, true, ScaleMode.ScaleFactor, { value := 0 })] :=
  saveTabs_restoreTabs_round_trip sampleEnv twoTabs (MainWindow.create settingsOn) emptyFiles
    rfl rfl rfl rfl rfl sampleEnv_absoluteFilePath_idem (by decide) (by decide)

/-- Witness of C2: a tabs file with one unopenable and two openable paths gives
the two tabs of the openable paths in their order, whether the unopenable
record comes first, second or last. -/
theorem restoreTabs_one_tab_per_openable_record_witness :
    (∃ w1, restoreTabs sampleEnv (MainWindow.create settingsOn) filesMissingFirst = some w1 ∧
      w1.views.length = 2 ∧
      w1.views.map DocumentView.anonymous
        = [restoredView sampleEnv (tabRecord "/a.pdf"),
           restoredView sampleEnv (tabRecord "/b.pdf")]) ∧
    (∃ w1, restoreTabs sampleEnv (MainWindow.create settingsOn) filesMissingMiddle = some w1 ∧
      w1.views.length = 2 ∧
      w1.views.map DocumentView.anonymous
        = [restoredView sampleEnv (tabRecord "/a.pdf"),
           restoredView sampleEnv (tabRecord "/b.pdf")]) ∧
    (∃ w1, restoreTabs sampleEnv (MainWindow.create settingsOn) filesMissingLast = some w1 ∧
      w1.views.length = 2 ∧
      w1.views.map DocumentView.anonymous
        = [restoredView sampleEnv (tabRecord "/a.pdf"),
           restoredView sampleEnv (tabRecord "/b.pdf")]) :=
  ⟨restoreTabs_one_tab_per_openable_record sampleEnv (MainWindow.create settingsOn)
      filesMissingFirst rfl,
    restoreTabs_one_tab_per_openable_record sampleEnv (MainWindow.create settingsOn)
      filesMissingMiddle rfl,
    restoreTabs_one_tab_per_openable_record sampleEnv (MainWindow.create settingsOn)
      filesMissingLast rfl⟩

/-- C3: adding a bookmark when a bookmark of the same absolute file path exists
returns and creates no second entry: the number of bookmarks is unchanged, and
the first bookmark of that path (the one before which no bookmark has the path)
gets the current page at the end of its page list when the page is not 1; every
other bookmark is as before. -/
theorem on_addBookmark_triggered_existing_path (env : Env) (w : MainWindow)
    (tab : DocumentView) (htab : w.currentTab = some tab)
    (hex : ∃ b ∈ w.bookmarks, samePath env b.filePath tab.filePath) :
    ∃ w1 pre b post, on_addBookmark_triggered env w = some w1 ∧
      w1.bookmarks.length = w.bookmarks.length ∧
      w.bookmarks = pre ++ b :: post ∧
      (∀ x ∈ pre, ¬ samePath env x.filePath tab.filePath) ∧
      samePath env b.filePath tab.filePath ∧
      w1.bookmarks
        = pre ++ (if tab.currentPage ≠ 1 then
            { b with pages := b.pages ++ [tab.currentPage] } else b) :: post := by
  obtain ⟨m, hm, hbs⟩ := on_addBookmark_triggered_eq env w tab htab
  obtain ⟨pre, b, post, hsplit, hpre, hb, heq⟩ :=
    addBookmarkTo_of_mem env tab.filePath tab.currentPage w.bookmarks hex
  have hnew : MainWindow.bookmarks { w with bookmarksMenu := m }
      = pre ++ recordPage b tab.currentPage :: post := by
    rw [← heq, ← hbs]; rfl
  refine ⟨_, pre, b, post, hm, ?_, hsplit, hpre, hb, hnew⟩
  rw [hnew, hsplit]
  simp

/-- Witness of C3: with no bookmark for `/a.pdf`, adding on page 5 makes the
bookmark, and adding again on page 9 leaves exactly one bookmark for `/a.pdf`,
with pages 5 and 9. -/
theorem on_addBookmark_triggered_existing_path_witness :
    on_addBookmark_triggered sampleEnv (onePdf 5 fixedBookmarksMenu)
      = some (onePdf 5 (fixedBookmarksMenu ++
          [QAction.menuAction { filePath := "/a.pdf", pages := [5], deferredDelete := false }])) ∧
    (∃ w1 pre b post,
      on_addBookmark_triggered sampleEnv (onePdf 9 (fixedBookmarksMenu ++
          [QAction.menuAction { filePath := "/a.pdf", pages := [5], deferredDelete := false }]))
        = some w1 ∧
      w1.bookmarks.length = 1 ∧
      [({ filePath := "/a.pdf", pages := [5], deferredDelete := false } : Bookmark)]
        = pre ++ b :: post ∧
      (∀ x ∈ pre, ¬ samePath sampleEnv x.filePath "/a.pdf") ∧
      samePath sampleEnv b.filePath "/a.pdf" ∧
      w1.bookmarks = pre ++ { b with pages := b.pages ++ [9] } :: post) ∧
    (on_addBookmark_triggered sampleEnv (onePdf 9 (fixedBookmarksMenu ++
        [QAction.menuAction { filePath := "/a.pdf", pages := [5], deferredDelete := false }]))).map
      MainWindow.bookmarks
      = some [{ filePath := "/a.pdf", pages := [5, 9], deferredDelete := false }] :=
  ⟨by decide,
    on_addBookmark_triggered_existing_path sampleEnv (onePdf 9 (fixedBookmarksMenu ++
      [QAction.menuAction { filePath := "/a.pdf", pages := [5], deferredDelete := false }]))
      { sampleEnv.newView with filePath := "/a.pdf", currentPage := 9 } rfl
      ⟨{ filePath := "/a.pdf", pages := [5], deferredDelete := false }, by decide, by decide⟩,
    by decide⟩

/-- C4: adding a bookmark while the current page is 1 records no page: a path
already bookmarked keeps its bookmarks as they are, a new path gets a bookmark
with an empty page list placed last; and, whatever the current page, adding a
bookmark puts page 1 into no page list that did not hold it. -/
theorem on_addBookmark_triggered_page_one (env : Env) (w : MainWindow)
    (tab : DocumentView) (htab : w.currentTab = some tab) :
    ∃ w1, on_addBookmark_triggered env w = some w1 ∧
      (tab.currentPage = 1 →
        (∃ b ∈ w.bookmarks, samePath env b.filePath tab.filePath) →
        w1.bookmarks = w.bookmarks) ∧
      (tab.currentPage = 1 →
        (∀ b ∈ w.bookmarks, ¬ samePath env b.filePath tab.filePath) →
        w1.bookmarks = w.bookmarks
          ++ [{ filePath := tab.filePath, pages := [], deferredDelete := false }]) ∧
      ((∀ b ∈ w.bookmarks, (1 : Int) ∉ b.pages) → ∀ b ∈ w1.bookmarks, (1 : Int) ∉ b.pages) := by
  obtain ⟨m, hm, hbs⟩ := on_addBookmark_triggered_eq env w tab htab
  have hnew : MainWindow.bookmarks { w with bookmarksMenu := m }
      = addBookmarkTo env tab.filePath tab.currentPage w.bookmarks := hbs
  have hrec : ∀ b : Bookmark, (1 : Int) ∉ b.pages →
      (1 : Int) ∉ (recordPage b tab.currentPage).pages := by
    intro b hb
    unfold recordPage
    split
    · rename_i hp
      simp only [Bookmark.addJumpToPage, List.mem_append, List.mem_singleton, not_or]
      exact ⟨hb, fun h => hp h.symm⟩
    · exact hb
  refine ⟨_, hm, ?_, ?_, ?_⟩
  · intro hp hex
    obtain ⟨pre, b, post, hsplit, -, -, heq⟩ :=
      addBookmarkTo_of_mem env tab.filePath tab.currentPage w.bookmarks hex
    rw [hnew, heq, hsplit]
    simp [recordPage, hp]
  · intro hp hnone
    rw [hnew, addBookmarkTo_of_not_mem env _ _ _ hnone]
    simp [recordPage, hp, Bookmark.new]
  · intro hall b hb
    rw [hnew] at hb
    by_cases hex : ∃ b ∈ w.bookmarks, samePath env b.filePath tab.filePath
    · obtain ⟨pre, b0, post, hsplit, -, -, heq⟩ :=
        addBookmarkTo_of_mem env tab.filePath tab.currentPage w.bookmarks hex
      rw [heq] at hb
      have hall2 : ∀ x ∈ pre ++ b0 :: post, (1 : Int) ∉ x.pages := by
        rw [← hsplit]; exact hall
      rcases List.mem_append.mp hb with h1 | h1
      · exact hall2 b (List.mem_append_left _ h1)
      · rcases List.mem_cons.mp h1 with rfl | h2
        · exact hrec b0 (hall2 b0 (by simp))
        · exact hall2 b (by simp [h2])
    · have hnone : ∀ b ∈ w.bookmarks, ¬ samePath env b.filePath tab.filePath := by
        intro x hx hs
        exact hex ⟨x, hx, hs⟩
      rw [addBookmarkTo_of_not_mem env _ _ _ hnone] at hb
      rcases List.mem_append.mp hb with h1 | h1
      · exact hall b h1
      · rw [List.mem_singleton] at h1
        subst h1
        exact hrec _ (by simp [Bookmark.new])

/-- Witness of C4: on page 1 of `/a.pdf`, adding a bookmark makes one bookmark
for `/a.pdf` without pages when there is none yet, and leaves the pages 5 and 9
of an existing bookmark for `/a.pdf` as they are. -/
theorem on_addBookmark_triggered_page_one_witness :
    (on_addBookmark_triggered sampleEnv (onePdf 1 fixedBookmarksMenu)).map MainWindow.bookmarks
      = some [{ filePath := "/a.pdf", pages := [], deferredDelete := false }] ∧
    (on_addBookmark_triggered sampleEnv (onePdf 1 (fixedBookmarksMenu ++
        [QAction.menuAction { filePath := "/a.pdf", pages := [5, 9], deferredDelete := false }]))).map
      MainWindow.bookmarks
      = some [{ filePath := "/a.pdf", pages := [5, 9], deferredDelete := false }] := by
  constructor
  · obtain ⟨w1, h1, -, h3, -⟩ :=
      on_addBookmark_triggered_page_one sampleEnv (onePdf 1 fixedBookmarksMenu)
        { sampleEnv.newView with filePath := "/a.pdf", currentPage := 1 } rfl
    rw [h1, Option.map_some', h3 rfl (by decide)]
    rfl
  · obtain ⟨w1, h1, h2, -, -⟩ :=
      on_addBookmark_triggered_page_one sampleEnv (onePdf 1 (fixedBookmarksMenu ++
        [QAction.menuAction { filePath := "/a.pdf", pages := [5, 9], deferredDelete := false }]))
        { sampleEnv.newView with filePath := "/a.pdf", currentPage := 1 } rfl
    rw [h1, Option.map_some', h2 rfl (by decide)]
    rfl

/-- C5, as stated, fails: restoring a bookmarks file that holds two records for
`/a.pdf` into a window without bookmarks gives two bookmarks for `/a.pdf`; and
restoring a file without repeated paths after a bookmark for `/a.pdf` was added
gives two bookmarks for `/a.pdf` as well. -/
theorem reachable_not_unique :
    (Reachable sampleEnv (restoreBookmarks (onePdf 5 fixedBookmarksMenu) filesDuplicateBookmark) ∧
      bookmarkPaths sampleEnv
          (restoreBookmarks (onePdf 5 fixedBookmarksMenu) filesDuplicateBookmark)
        = ["/a.pdf", "/a.pdf"] ∧
      ¬ UniqueBookmarks sampleEnv
          (restoreBookmarks (onePdf 5 fixedBookmarksMenu) filesDuplicateBookmark)) ∧
    (∃ w1, on_addBookmark_triggered sampleEnv (onePdf 5 fixedBookmarksMenu) = some w1 ∧
      Reachable sampleEnv (restoreBookmarks w1 filesTwoBookmarks) ∧
      bookmarkPaths sampleEnv (restoreBookmarks w1 filesTwoBookmarks)
        = ["/a.pdf", "/a.pdf", "/b.pdf"] ∧
      ¬ UniqueBookmarks sampleEnv (restoreBookmarks w1 filesTwoBookmarks)) := by
  refine ⟨⟨?_, by decide, by decide⟩, ⟨_, rfl, ?_, by decide, by decide⟩⟩
  · exact Reachable.restore _ _ (Reachable.start _ (by decide))
  · exact Reachable.restore _ _
      (Reachable.add _ _ (Reachable.start (onePdf 5 fixedBookmarksMenu) (by decide)) rfl)

/-- C5, amended: in every state reached from a window without bookmarks through
add-bookmark, remove-all-bookmarks, any operation that leaves the bookmarks menu
alone, and restore-bookmarks on a file in which no record repeats the absolute
file path of another record or of a bookmark already in the menu, at most one
bookmark exists per absolute file path. -/
theorem reachableDistinct_unique (env : Env) (w : MainWindow)
    (h : ReachableDistinct env w) : UniqueBookmarks env w := by
  induction h with
  | start w h0 => simp [UniqueBookmarks, bookmarkPaths, h0]
  | other w w1 _ hm ih =>
    have hb : w1.bookmarks = w.bookmarks := by simp [MainWindow.bookmarks, hm]
    simpa [UniqueBookmarks, bookmarkPaths, hb] using ih
  | add w w1 _ hadd ih =>
    cases htab : w.currentTab with
    | none => simp [on_addBookmark_triggered, htab] at hadd
    | some tab =>
      obtain ⟨m, hm, hbs⟩ := on_addBookmark_triggered_eq env w tab htab
      rw [hm, Option.some.injEq] at hadd
      subst hadd
      have hb : MainWindow.bookmarks { w with bookmarksMenu := m }
          = addBookmarkTo env tab.filePath tab.currentPage w.bookmarks := hbs
      unfold UniqueBookmarks bookmarkPaths
      rw [hb]
      exact nodup_addBookmarkTo env _ _ _ ih
  | removeAll w _ _ => simp [UniqueBookmarks, bookmarkPaths, bookmarks_removeAll]
  | restore w fs _ hfile ih =>
    by_cases hs : w.settings.restoreBookmarks = true
    · unfold UniqueBookmarks
      rw [bookmarkPaths_restoreBookmarks env w fs hs]
      exact hfile hs
    · have hw : restoreBookmarks w fs = w := by simp [restoreBookmarks, hs]
      rw [hw]
      exact ih

/-- Witness of the amended C5: add a bookmark for `/a.pdf`, remove all
bookmarks, add it again, then restore a file with records for `/c.pdf` and
`/b.pdf`. -/
theorem reachableDistinct_unique_witness :
    ∃ w1 w2, on_addBookmark_triggered sampleEnv (onePdf 5 fixedBookmarksMenu) = some w1 ∧
      on_addBookmark_triggered sampleEnv
        (processDeferredDeletes (on_removeAllBookmarks_triggered w1)) = some w2 ∧
      bookmarkPaths sampleEnv (restoreBookmarks w2 filesOtherBookmarks)
        = ["/a.pdf", "/c.pdf", "/b.pdf"] ∧
      UniqueBookmarks sampleEnv (restoreBookmarks w2 filesOtherBookmarks) :=
  ⟨_, _, rfl, rfl, by decide,
    reachableDistinct_unique sampleEnv _
      (ReachableDistinct.restore _ filesOtherBookmarks
        (ReachableDistinct.add _ _
          (ReachableDistinct.removeAll _
            (ReachableDistinct.add _ _
              (ReachableDistinct.start (onePdf 5 fixedBookmarksMenu) (by decide)) rfl))
          rfl)
        (by decide))⟩

/-- C6: with the restore-bookmarks setting enabled and the bookmarks file
writable and readable, remove-all-bookmarks (the slot and the return to the
event loop), then `saveBookmarks`, then `restoreBookmarks` into a window
without bookmarks yields zero bookmarks, for every bookmark list. -/
theorem removeAll_save_restore_no_bookmarks (env : Env) (w w0 : MainWindow)
    (fs : FileSystem) (hsave : w.settings.restoreBookmarks = true)
    (hrestore : w0.settings.restoreBookmarks = true)
    (hwritable : fs.bookmarksXml.writable = true)
    (hreadable : fs.bookmarksXml.readable = true) (hfresh : w0.bookmarks = []) :
    (restoreBookmarks w0
      (saveBookmarks env (processDeferredDeletes (on_removeAllBookmarks_triggered w)) fs)).bookmarks
      = [] := by
  rw [bookmarks_restoreBookmarks, if_pos hrestore,
    recordsOf_saveBookmarks env (processDeferredDeletes (on_removeAllBookmarks_triggered w)) fs
      hsave hwritable hreadable,
    bookmarks_removeAll, hfresh]
  rfl

/-- Witness of C6: two bookmarks, removed, saved and restored into a new
window. -/
theorem removeAll_save_restore_no_bookmarks_witness :
    (onePdf 5 (fixedBookmarksMenu ++
        [QAction.menuAction { filePath := "/a.pdf", pages := [5], deferredDelete := false },
         QAction.menuAction { filePath := "/b.pdf", pages := [], deferredDelete := false }])).bookmarks.length
      = 2 ∧
    (restoreBookmarks (MainWindow.create settingsOn)
      (saveBookmarks sampleEnv (processDeferredDeletes (on_removeAllBookmarks_triggered
        (onePdf 5 (fixedBookmarksMenu ++
          [QAction.menuAction { filePath := "/a.pdf", pages := [5], deferredDelete := false },
           QAction.menuAction { filePath := "/b.pdf", pages := [], deferredDelete := false }]))))
        emptyFiles)).bookmarks = [] :=
  ⟨by decide,
    removeAll_save_restore_no_bookmarks sampleEnv _ (MainWindow.create settingsOn) emptyFiles
      rfl rfl rfl rfl rfl⟩

/-- C7: with the restore-bookmarks setting enabled and the bookmarks file
writable and readable, `saveBookmarks` followed by `restoreBookmarks` into a
window without bookmarks gives as many bookmarks, in the same order, each with
the absolute file path and the page list of the saved one. -/
theorem saveBookmarks_restoreBookmarks_round_trip (env : Env) (w w0 : MainWindow)
    (fs : FileSystem) (hsave : w.settings.restoreBookmarks = true)
    (hrestore : w0.settings.restoreBookmarks = true)
    (hwritable : fs.bookmarksXml.writable = true)
    (hreadable : fs.bookmarksXml.readable = true) (hfresh : w0.bookmarks = [])
    (habs : ∀ p, env.absoluteFilePath (env.absoluteFilePath p) = env.absoluteFilePath p)
    (hwf : ∀ b ∈ w.bookmarks, b.WellFormed) :
    (restoreBookmarks w0 (saveBookmarks env w fs)).bookmarks.length = w.bookmarks.length ∧
    (restoreBookmarks w0 (saveBookmarks env w fs)).bookmarks.map (bookmarkKey env)
      = w.bookmarks.map (bookmarkKey env) := by
  have hb : (restoreBookmarks w0 (saveBookmarks env w fs)).bookmarks
      = w.bookmarks.map (fun b => bookmarkOfElement (bookmarkElementOf env b)) := by
    rw [bookmarks_restoreBookmarks, if_pos hrestore,
      recordsOf_saveBookmarks env w fs hsave hwritable hreadable, hfresh, List.map_map]
    rfl
  rw [hb]
  refine ⟨by simp, ?_⟩
  rw [List.map_map]
  apply List.map_congr_left
  intro b hmem
  simp only [Function.comp_apply]
  rw [bookmarkOfElement_bookmarkElementOf env b (hwf b hmem)]
  simp [bookmarkKey, habs]

/-- Witness of C7: a bookmark given by a relative path with pages 5 and 9 and a
bookmark without pages come back in this order. -/
theorem saveBookmarks_restoreBookmarks_round_trip_witness :
    (restoreBookmarks (MainWindow.create settingsOn)
      (saveBookmarks sampleEnv (onePdf 5 (fixedBookmarksMenu ++
        [QAction.menuAction { filePath := "a.pdf", pages := [5, 9], deferredDelete := false },
         QAction.menuAction { filePath := "/b.pdf", pages := [], deferredDelete := false }]))
        emptyFiles)).bookmarks.map (bookmarkKey sampleEnv)
      = [("/home/user/a.pdf", [5, 9]), ("/b.pdf", [])] :=
  (saveBookmarks_restoreBookmarks_round_trip sampleEnv (onePdf 5 (fixedBookmarksMenu ++
      [QAction.menuAction { filePath := "a.pdf", pages := [5, 9], deferredDelete := false },
       QAction.menuAction { filePath := "/b.pdf", pages := [], deferredDelete := false }]))
    (MainWindow.create settingsOn) emptyFiles rfl rfl rfl rfl rfl
    sampleEnv_absoluteFilePath_idem (by decide)).2

/-- What `QFile::remove()` leaves: no file or the file as it was; no file when
there was none or the file can be removed; the file as it was when the removal
fails. -/
theorem remove_spec (f : DiskFile) :
    (f.remove.content = none ∨ f.remove = f) ∧
    (f.content = none ∨ f.removable = true → f.remove.content = none) ∧
    (f.removable = false → f.remove = f) := by
  unfold DiskFile.remove
  by_cases hr : f.removable = true
  · rw [if_pos hr]
    refine ⟨Or.inl rfl, fun _ => rfl, ?_⟩
    intro hf
    rw [hr] at hf
    exact Bool.noConfusion hf
  · rw [if_neg hr]
    refine ⟨Or.inr rfl, ?_, fun _ => rfl⟩
    intro hc
    rcases hc with hc | hc
    · exact hc
    · exact absurd hc hr

/-- C8, as stated, fails: with the restore-tabs setting false and a tabs file
that cannot be removed, `saveTabs` calls `remove`, drops its result, and the
tabs file exists afterwards with the content it had. -/
theorem saveTabs_disabled_file_remains :
    settingsOff.restoreTabs = false ∧
    stuckFiles.tabsXml.removable = false ∧
    stuckFiles.tabsXml.content.isSome = true ∧
    (saveTabs sampleEnv { twoTabs with settings := settingsOff } stuckFiles).tabsXml.content.isSome
      = true ∧
    (recordsOf (saveTabs sampleEnv { twoTabs with settings := settingsOff } stuckFiles).tabsXml)
      = recordsOf stuckFiles.tabsXml :=
  ⟨rfl, rfl, rfl, rfl, rfl⟩

/-- C8, amended: with the restore-tabs setting false, `saveTabs` writes no tabs
file for any list of open tabs. What it leaves is no tabs file or the tabs file
that was there, never a new one; afterwards the tabs file does not exist when
none existed before or the one that existed can be removed, and it is left as
it was when its removal fails. The bookmarks file is as before. -/
theorem saveTabs_disabled_removes (env : Env) (w : MainWindow) (fs : FileSystem)
    (h : w.settings.restoreTabs = false) :
    ((saveTabs env w fs).tabsXml.content = none ∨
        (saveTabs env w fs).tabsXml = fs.tabsXml) ∧
      (fs.tabsXml.content = none ∨ fs.tabsXml.removable = true →
        (saveTabs env w fs).tabsXml.content = none) ∧
      (fs.tabsXml.removable = false → (saveTabs env w fs).tabsXml = fs.tabsXml) ∧
      (saveTabs env w fs).bookmarksXml = fs.bookmarksXml := by
  have hs : saveTabs env w fs = { fs with tabsXml := fs.tabsXml.remove } := by
    simp [saveTabs, h]
  rw [hs]
  show (fs.tabsXml.remove.content = none ∨ fs.tabsXml.remove = fs.tabsXml) ∧
    (fs.tabsXml.content = none ∨ fs.tabsXml.removable = true →
      fs.tabsXml.remove.content = none) ∧
    (fs.tabsXml.removable = false → fs.tabsXml.remove = fs.tabsXml) ∧
    fs.bookmarksXml = fs.bookmarksXml
  obtain ⟨h1, h2, h3⟩ := remove_spec fs.tabsXml
  exact ⟨h1, h2, h3, rfl⟩

/-- Witness of the amended C8: two open tabs with the setting off, once with a
tabs file that can be removed and once without a tabs file. -/
theorem saveTabs_disabled_removes_witness :
    settingsOff.restoreTabs = false ∧
    filesMissingFirst.tabsXml.content.isSome = true ∧
    filesMissingFirst.tabsXml.removable = true ∧
    (saveTabs sampleEnv { twoTabs with settings := settingsOff } filesMissingFirst).tabsXml.content
      = none ∧
    emptyFiles.tabsXml.content.isSome = false ∧
    (saveTabs sampleEnv { twoTabs with settings := settingsOff } emptyFiles).tabsXml.content
      = none :=
  ⟨rfl, rfl, rfl,
    (saveTabs_disabled_removes sampleEnv { twoTabs with settings := settingsOff }
      filesMissingFirst rfl).2.1 (Or.inr rfl),
    rfl,
    (saveTabs_disabled_removes sampleEnv { twoTabs with settings := settingsOff }
      emptyFiles rfl).2.1 (Or.inl rfl)⟩

/-- C9: with the restore-tabs setting false, `restoreTabs` returns and leaves
the window exactly as it was, for every content of the tabs file: the tab list
and the current index are unchanged, no path was handed to
`DocumentView::open` and no warning was shown. -/
theorem restoreTabs_disabled_noop (env : Env) (w : MainWindow) (fs : FileSystem)
    (h : w.settings.restoreTabs = false) :
    restoreTabs env w fs = some w ∧
      ∀ w1, restoreTabs env w fs = some w1 →
        w1.tabs = w.tabs ∧ w1.currentIndex = w.currentIndex ∧
        w1.openCalls = w.openCalls ∧ w1.warnings = w.warnings := by
  have h0 : restoreTabs env w fs = some w := by simp [restoreTabs, h]
  refine ⟨h0, ?_⟩
  intro w1 h1
  rw [h0, Option.some.injEq] at h1
  subst h1
  exact ⟨rfl, rfl, rfl, rfl⟩

/-- Witness of C9: a tabs file with two openable records is not read when the
setting is off. -/
theorem restoreTabs_disabled_noop_witness :
    (recordsOf filesMissingFirst.tabsXml).length = 3 ∧
    restoreTabs sampleEnv (MainWindow.create settingsOff) filesMissingFirst
      = some (MainWindow.create settingsOff) :=
  ⟨rfl,
    (restoreTabs_disabled_noop sampleEnv (MainWindow.create settingsOff) filesMissingFirst
      rfl).1⟩

/-- C10, as stated, fails: with the restore-bookmarks setting false and a
bookmarks file that cannot be removed, `saveBookmarks` calls `remove`, drops its
result, and the bookmarks file is left behind with the record it held. -/
theorem saveBookmarks_disabled_file_remains :
    settingsOff.restoreBookmarks = false ∧
    stuckFiles.bookmarksXml.removable = false ∧
    stuckFiles.bookmarksXml.content.isSome = true ∧
    (saveBookmarks sampleEnv
      { onePdf 5 fixedBookmarksMenu with settings := settingsOff }
      stuckFiles).bookmarksXml.content.isSome = true ∧
    (recordsOf (saveBookmarks sampleEnv
      { onePdf 5 fixedBookmarksMenu with settings := settingsOff } stuckFiles).bookmarksXml)
      = recordsOf stuckFiles.bookmarksXml :=
  ⟨rfl, rfl, rfl, rfl, rfl⟩

/-- C10, amended: with the restore-bookmarks setting false, `saveBookmarks`
writes no bookmarks file for any bookmark list. What it leaves is no bookmarks
file or the bookmarks file that was there, never a new one; afterwards the
bookmarks file does not exist when none existed before or the one that existed
can be removed, and it is left as it was when its removal fails; the tabs file
is as before. And `restoreBookmarks` leaves the window as it was, creating no
bookmark, for every content of the bookmarks file. -/
theorem bookmarks_disabled_removes_no_restore (env : Env) (w : MainWindow)
    (fs : FileSystem) (h : w.settings.restoreBookmarks = false) :
    ((saveBookmarks env w fs).bookmarksXml.content = none ∨
        (saveBookmarks env w fs).bookmarksXml = fs.bookmarksXml) ∧
      (fs.bookmarksXml.content = none ∨ fs.bookmarksXml.removable = true →
        (saveBookmarks env w fs).bookmarksXml.content = none) ∧
      (fs.bookmarksXml.removable = false →
        (saveBookmarks env w fs).bookmarksXml = fs.bookmarksXml) ∧
      (saveBookmarks env w fs).tabsXml = fs.tabsXml ∧
      restoreBookmarks w fs = w := by
  have hs : saveBookmarks env w fs = { fs with bookmarksXml := fs.bookmarksXml.remove } := by
    simp [saveBookmarks, h]
  have hr : restoreBookmarks w fs = w := by simp [restoreBookmarks, h]
  rw [hs, hr]
  show (fs.bookmarksXml.remove.content = none ∨ fs.bookmarksXml.remove = fs.bookmarksXml) ∧
    (fs.bookmarksXml.content = none ∨ fs.bookmarksXml.removable = true →
      fs.bookmarksXml.remove.content = none) ∧
    (fs.bookmarksXml.removable = false → fs.bookmarksXml.remove = fs.bookmarksXml) ∧
    fs.tabsXml = fs.tabsXml ∧ w = w
  obtain ⟨h1, h2, h3⟩ := remove_spec fs.bookmarksXml
  exact ⟨h1, h2, h3, rfl, rfl⟩

/-- Witness of the amended C10: a window with a bookmark and a bookmarks file
with two records that can be removed, the setting off. -/
theorem bookmarks_disabled_removes_no_restore_witness :
    settingsOff.restoreBookmarks = false ∧
    filesTwoBookmarks.bookmarksXml.content.isSome = true ∧
    filesTwoBookmarks.bookmarksXml.removable = true ∧
    (recordsOf filesTwoBookmarks.bookmarksXml).length = 2 ∧
    (saveBookmarks sampleEnv
      { onePdf 5 (fixedBookmarksMenu ++
          [QAction.menuAction { filePath := "/a.pdf", pages := [5], deferredDelete := false }])
        with settings := settingsOff } filesTwoBookmarks).bookmarksXml.content = none ∧
    (restoreBookmarks (MainWindow.create settingsOff) filesTwoBookmarks).bookmarks = [] := by
  have h1 := bookmarks_disabled_removes_no_restore sampleEnv
    { onePdf 5 (fixedBookmarksMenu ++
        [QAction.menuAction { filePath := "/a.pdf", pages := [5], deferredDelete := false }])
      with settings := settingsOff } filesTwoBookmarks rfl
  have h2 := bookmarks_disabled_removes_no_restore sampleEnv (MainWindow.create settingsOff)
    filesTwoBookmarks rfl
  refine ⟨rfl, rfl, rfl, rfl, h1.2.1 (Or.inr rfl), ?_⟩
  rw [h2.2.2.2.2]
  rfl

/-! ### Warnings of restoreTabs -/

theorem restoreTabsLoop_warnings (env : Env) (es : List QDomNode) (w : MainWindow) :
    ∃ w1, restoreTabsLoop env es w = some w1 ∧
      w1.warnings = w.warnings ++ openWarnings env es := by
  induction es generalizing w with
  | nil => exact ⟨w, rfl, by simp [openWarnings]⟩
  | cons e es ih =>
    cases h : openable env e with
    | true =>
      obtain ⟨w1, h1, h2⟩ := ih (restoredWindow env w e)
      refine ⟨w1, ?_, ?_⟩
      · simp [restoreTabsLoop, restoreTab_openable env w e h, h1]
      · rw [h2]
        simp [openWarnings, h, restoredWindow]
    | false =>
      obtain ⟨w1, h1, h2⟩ := ih
        { w with
          nextObject := w.nextObject + 1
          openCalls := w.openCalls ++ [e.getAttribute "filePath"]
          warnings := w.warnings ++
            ["Could not open \x27" ++ e.getAttribute "filePath" ++ "\x27."] }
      refine ⟨w1, ?_, ?_⟩
      · simp [restoreTabsLoop, restoreTab_not_openable env w e h, h1]
      · rw [h2]
        simp [openWarnings, h, couldNotOpen]

/-! ## Properties of opening, warnings and the written file -/

/-- C12, as stated, fails: restoring a tabs file whose first record names
`/missing.pdf`, which does not open, shows the warning of `openInNewTab` for
that record; the two other records are restored. -/
theorem restoreTabs_failed_open_warns :
    ∃ w1, restoreTabs sampleEnv (MainWindow.create settingsOn) filesMissingFirst = some w1 ∧
      w1.warnings = ["Could not open \x27/missing.pdf\x27."] ∧
      w1.views.map DocumentView.filePath = ["/a.pdf", "/b.pdf"] :=
  ⟨_, rfl, by decide, by decide⟩

/-- C12, amended: `restoreTabs` returns for every tabs file, and a record whose
path fails to open is skipped, no tab being made for it, but not silently: with
the setting enabled the warnings shown are, after those shown before, one
warning `Could not open '<path>'.` per record whose path fails to open, in the
order of the records, and none for a record whose path opens. -/
theorem restoreTabs_warns_per_failed_open (env : Env) (w : MainWindow) (fs : FileSystem) :
    ∃ w1, restoreTabs env w fs = some w1 ∧
      w1.warnings = w.warnings ++
        (if w.settings.restoreTabs = true then openWarnings env (recordsOf fs.tabsXml)
          else []) ∧
      w1.views.length = w.views.length +
        (if w.settings.restoreTabs = true then
          ((recordsOf fs.tabsXml).filter (openable env)).length else 0) := by
  by_cases hs : w.settings.restoreTabs = true
  · obtain ⟨w1, h1, h2⟩ := restoreTabsLoop_warnings env (recordsOf fs.tabsXml) w
    obtain ⟨w2, h3, h4, -⟩ := restoreTabsLoop_views env (recordsOf fs.tabsXml) w
    rw [h1, Option.some.injEq] at h3
    subst h3
    refine ⟨w1, by rw [restoreTabs_eq_loop env w fs hs, h1], ?_, ?_⟩
    · rw [if_pos hs, h2]
    · rw [if_pos hs]
      have hl := congrArg List.length h4
      simpa using hl
  · refine ⟨w, by simp [restoreTabs, hs], ?_, ?_⟩
    · rw [if_neg hs]; simp
    · rw [if_neg hs]; simp

/-- C13: a persistence file that cannot be opened is passed over in silence.
When the tabs file or the bookmarks file does not open for reading,
`restoreTabs` returns and `restoreBookmarks` ends with the window exactly as it
was: tab list, bookmark list and warnings are unchanged. When the file does not
open for writing, `saveTabs` and `saveBookmarks` leave the files as they were
when the setting is enabled (with the setting disabled they only remove the
file); they never touch the window, so they show no warning. -/
theorem file_open_failure_swallowed (env : Env) (w : MainWindow) (fs : FileSystem) :
    (fs.tabsXml.openRead = none → restoreTabs env w fs = some w) ∧
    (fs.bookmarksXml.openRead = none → restoreBookmarks w fs = w) ∧
    (fs.tabsXml.openWrite = false →
      saveTabs env w fs
        = if w.settings.restoreTabs = true then fs
          else { fs with tabsXml := fs.tabsXml.remove }) ∧
    (fs.bookmarksXml.openWrite = false →
      saveBookmarks env w fs
        = if w.settings.restoreBookmarks = true then fs
          else { fs with bookmarksXml := fs.bookmarksXml.remove }) := by
  refine ⟨?_, ?_, ?_, ?_⟩
  · intro h
    simp [restoreTabs, h]
  · intro h
    simp [restoreBookmarks, h]
  · intro h
    by_cases hs : w.settings.restoreTabs = true <;> simp [saveTabs, h, hs]
  · intro h
    by_cases hs : w.settings.restoreBookmarks = true <;> simp [saveBookmarks, h, hs]

/-- Witness of C13: with both files present but not to be opened, restoring into
a new window leaves it as it was and saving two tabs and a bookmark leaves the
files as they were. -/
theorem file_open_failure_swallowed_witness :
    lockedFiles.tabsXml.openRead = none ∧ lockedFiles.bookmarksXml.openRead = none ∧
    lockedFiles.tabsXml.openWrite = false ∧ lockedFiles.bookmarksXml.openWrite = false ∧
    restoreTabs sampleEnv (MainWindow.create settingsOn) lockedFiles
      = some (MainWindow.create settingsOn) ∧
    restoreBookmarks (MainWindow.create settingsOn) lockedFiles = MainWindow.create settingsOn ∧
    saveTabs sampleEnv twoTabs lockedFiles = lockedFiles ∧
    saveBookmarks sampleEnv (onePdf 5 (fixedBookmarksMenu ++
        [QAction.menuAction { filePath := "/a.pdf", pages := [5], deferredDelete := false }]))
      lockedFiles = lockedFiles :=
  ⟨rfl, rfl, rfl, rfl,
    (file_open_failure_swallowed sampleEnv (MainWindow.create settingsOn) lockedFiles).1 rfl,
    (file_open_failure_swallowed sampleEnv (MainWindow.create settingsOn) lockedFiles).2.1 rfl,
    (file_open_failure_swallowed sampleEnv twoTabs lockedFiles).2.2.1 rfl,
    (file_open_failure_swallowed sampleEnv (onePdf 5 (fixedBookmarksMenu ++
        [QAction.menuAction { filePath := "/a.pdf", pages := [5], deferredDelete := false }]))
      lockedFiles).2.2.2 rfl⟩

/-- C14: for every path and page, when the document does not open
`openInNewTab` returns false, shows exactly one more warning, which names the
path, and leaves the tab list, the current index, the current tab and the tabs
menu unchanged; when it opens, `openInNewTab` returns true, shows no warning,
adds exactly one tab, placed last, for that path and page, and makes it the
current tab. -/
theorem openInNewTab_result (env : Env) (w : MainWindow) (filePath : String) (page : Int) :
    (env.canOpen filePath = false →
      (openInNewTab env w filePath page).2 = false ∧
      (openInNewTab env w filePath page).1.warnings
        = w.warnings ++ [couldNotOpen filePath] ∧
      (openInNewTab env w filePath page).1.tabs = w.tabs ∧
      (openInNewTab env w filePath page).1.currentIndex = w.currentIndex ∧
      (openInNewTab env w filePath page).1.currentTab = w.currentTab ∧
      (openInNewTab env w filePath page).1.tabsMenu = w.tabsMenu) ∧
    (env.canOpen filePath = true →
      (openInNewTab env w filePath page).2 = true ∧
      (openInNewTab env w filePath page).1.warnings = w.warnings ∧
      ∃ t : TabPage, (openInNewTab env w filePath page).1.tabs = w.tabs ++ [t] ∧
        t.widget.filePath = filePath ∧ t.widget.currentPage = page ∧
        (openInNewTab env w filePath page).1.currentIndex = (w.tabs.length : Int) ∧
        (openInNewTab env w filePath page).1.currentTab = some t.widget) := by
  constructor
  · intro h
    simp [openInNewTab, DocumentView.openDocument, h, couldNotOpen, MainWindow.currentTab,
      MainWindow.tab]
  · intro h
    simp [openInNewTab, DocumentView.openDocument, h, MainWindow.currentTab, MainWindow.tab,
      DocumentView.jumpToPage]

/-- Witness of C14: `/missing.pdf` does not open and `/c.pdf` opens, in a window
with two tabs. -/
theorem openInNewTab_result_witness :
    ((openInNewTab sampleEnv twoTabs "/missing.pdf" 3).2 = false ∧
      (openInNewTab sampleEnv twoTabs "/missing.pdf" 3).1.warnings
        = [] ++ [couldNotOpen "/missing.pdf"] ∧
      (openInNewTab sampleEnv twoTabs "/missing.pdf" 3).1.tabs = twoTabs.tabs ∧
      (openInNewTab sampleEnv twoTabs "/missing.pdf" 3).1.currentIndex = 1 ∧
      (openInNewTab sampleEnv twoTabs "/missing.pdf" 3).1.currentTab = twoTabs.currentTab ∧
      (openInNewTab sampleEnv twoTabs "/missing.pdf" 3).1.tabsMenu = twoTabs.tabsMenu) ∧
    ((openInNewTab sampleEnv twoTabs "/c.pdf" 3).2 = true ∧
      (openInNewTab sampleEnv twoTabs "/c.pdf" 3).1.warnings = [] ∧
      ∃ t : TabPage, (openInNewTab sampleEnv twoTabs "/c.pdf" 3).1.tabs = twoTabs.tabs ++ [t] ∧
        t.widget.filePath = "/c.pdf" ∧ t.widget.currentPage = 3 ∧
        (openInNewTab sampleEnv twoTabs "/c.pdf" 3).1.currentIndex = 2 ∧
        (openInNewTab sampleEnv twoTabs "/c.pdf" 3).1.currentTab = some t.widget) :=
  ⟨(openInNewTab_result sampleEnv twoTabs "/missing.pdf" 3).1 rfl,
    (openInNewTab_result sampleEnv twoTabs "/c.pdf" 3).2 rfl⟩

/-- C16: with the restore-tabs setting enabled and the file writable, the tabs
file holds after `saveTabs` one root element `tabs` without attributes, with
exactly one child element `tab` per open tab, in tab order and nothing else,
each child without children and with the seven attributes filePath (the
absolute file path of the tab), currentPage, continuousMode and twoPagesMode
(0 or 1), scaleMode and rotation (their unsigned values) and scaleFactor; the
bookmarks file is as before. -/
theorem saveTabs_written_document (env : Env) (w : MainWindow) (fs : FileSystem)
    (hsave : w.settings.restoreTabs = true) (hwritable : fs.tabsXml.writable = true) :
    (saveTabs env w fs).tabsXml.content
      = some (FileContent.xml (QDomNode.element "tabs" []
          (w.views.map (fun v => QDomNode.element "tab"
            [("filePath", env.absoluteFilePath v.filePath),
             ("currentPage", numberInt v.currentPage),
             ("continuousMode", if v.continousMode then "1" else "0"),
             ("twoPagesMode", if v.twoPagesMode then "1" else "0"),
             ("scaleMode", numberUInt v.scaleMode.value),
             ("scaleFactor", env.numberReal v.scaleFactor),
             ("rotation", numberUInt v.rotation.value)] [])))) ∧
      (saveTabs env w fs).bookmarksXml = fs.bookmarksXml := by
  constructor
  · unfold saveTabs
    rw [if_pos hsave]
    simp only [DiskFile.openWrite, hwritable, if_true, QDomNode.createElement, DiskFile.write]
    rw [foldl_appendChild (fun t : TabPage => tabElementOf env t.widget) w.tabs]
    simp only [List.nil_append, MainWindow.views, List.map_map]
    congr 3
    apply List.map_congr_left
    intro t _
    simp only [Function.comp_apply]
    rw [tabElementOf_eq]
    have h1 : numberUInt 1 = "1" := by decide
    have h0 : numberUInt 0 = "0" := by decide
    cases t.widget.continousMode <;> cases t.widget.twoPagesMode <;> simp [h1, h0]
  · simp [saveTabs, hsave, DiskFile.openWrite, hwritable]

theorem sampleEnv_numberReal_one : sampleEnv.numberReal 1 = "100" := by
  show numberInt ⌊(1 : ℚ) * 100⌋ = "100"
  rw [show ⌊(1 : ℚ) * 100⌋ = 100 by norm_num]
  decide

theorem sampleEnv_numberReal_two : sampleEnv.numberReal 2 = "200" := by
  show numberInt ⌊(2 : ℚ) * 100⌋ = "200"
  rw [show ⌊(2 : ℚ) * 100⌋ = 200 by norm_num]
  decide

/-- Witness of C16: the document written for the two tabs of `twoTabs`. -/
theorem saveTabs_written_document_witness :
    (saveTabs sampleEnv twoTabs emptyFiles).tabsXml.content
      = some (FileContent.xml (QDomNode.element "tabs" []
          [QDomNode.element "tab"
            [("filePath", "/home/user/a.pdf"), ("currentPage", "5"), ("continuousMode", "1"),
             ("twoPagesMode", "0"), ("scaleMode", "1"), ("scaleFactor", "100"),
             ("rotation", "3")] [],
           QDomNode.element "tab"
            [("filePath", "/b.pdf"), ("currentPage", "7"), ("continuousMode", "0"),
             ("twoPagesMode", "1"), ("scaleMode", "0"), ("scaleFactor", "200"),
             ("rotation", "0")] []])) := by
  rw [(saveTabs_written_document sampleEnv twoTabs emptyFiles rfl rfl).1]
  have h5 : numberInt 5 = "5" := by decide
  have h7 : numberInt 7 = "7" := by decide
  have u0 : numberUInt 0 = "0" := by decide
  have u1 : numberUInt 1 = "1" := by decide
  have u3 : numberUInt 3 = "3" := by decide
  have ha : sampleEnv.absoluteFilePath "a.pdf" = "/home/user/a.pdf" := by decide
  have hb : sampleEnv.absoluteFilePath "/b.pdf" = "/b.pdf" := by decide
  simp [twoTabs, MainWindow.views, MainWindow.create, ScaleMode.FitToPageWidth,
    ScaleMode.ScaleFactor, h5, h7, u0, u1, u3, ha, hb, sampleEnv_numberReal_one,
    sampleEnv_numberReal_two]

/-! ## Properties of add-bookmark on new and on repeated pages -/

theorem addBookmarkLoop_eq_none (env : Env) (fp : String) (pg : Int) (m : List QAction)
    (h : ∀ b ∈ m.filterMap QAction.menu, ¬ samePath env b.filePath fp) :
    addBookmarkLoop env fp pg m = none := by
  cases hl : addBookmarkLoop env fp pg m with
  | none => rfl
  | some m1 =>
    obtain ⟨⟨b, hb, hs⟩, -⟩ := addBookmarkLoop_some env fp pg m m1 hl
    exact absurd hs (h b hb)

theorem addBookmarkTo_split (env : Env) (fp : String) (pg : Int) (pre post : List Bookmark)
    (b : Bookmark) (hpre : ∀ x ∈ pre, ¬ samePath env x.filePath fp)
    (hb : samePath env b.filePath fp) :
    addBookmarkTo env fp pg (pre ++ b :: post) = pre ++ recordPage b pg :: post := by
  induction pre with
  | nil => simp [addBookmarkTo, hb]
  | cons x xs ih =>
    have hx := hpre x (List.mem_cons_self x xs)
    show (if samePath env x.filePath fp then recordPage x pg :: (xs ++ b :: post)
      else x :: addBookmarkTo env fp pg (xs ++ b :: post)) = _
    rw [if_neg hx, ih (fun y hy => hpre y (List.mem_cons_of_mem x hy))]
    rfl

/-- C18: adding a bookmark when no bookmark has the absolute file path of the
current tab returns and puts exactly one new entry into the bookmarks menu,
after all entries already there: a bookmark for the path of the current tab
that holds the current page when it is not 1 and no page otherwise. Every entry
already there, and with it every bookmark with its path and page list, is
unchanged, as is the rest of the window. -/
theorem on_addBookmark_triggered_new_path (env : Env) (w : MainWindow)
    (tab : DocumentView) (htab : w.currentTab = some tab)
    (hnew : ∀ b ∈ w.bookmarks, ¬ samePath env b.filePath tab.filePath) :
    on_addBookmark_triggered env w
      = some { w with bookmarksMenu := w.bookmarksMenu ++
          [QAction.menuAction
            { filePath := tab.filePath
              pages := if tab.currentPage ≠ 1 then [tab.currentPage] else []
              deferredDelete := false }] } ∧
    ∀ w1, on_addBookmark_triggered env w = some w1 →
      w1.bookmarks = w.bookmarks ++
        [{ filePath := tab.filePath
           pages := if tab.currentPage ≠ 1 then [tab.currentPage] else []
           deferredDelete := false }] ∧
      w1.bookmarks.length = w.bookmarks.length + 1 := by
  have hloop := addBookmarkLoop_eq_none env tab.filePath tab.currentPage w.bookmarksMenu hnew
  have hb : (if tab.currentPage ≠ 1 then (Bookmark.new tab.filePath).addJumpToPage tab.currentPage
        else Bookmark.new tab.filePath)
      = { filePath := tab.filePath
          pages := if tab.currentPage ≠ 1 then [tab.currentPage] else []
          deferredDelete := false } := by
    by_cases hp : tab.currentPage = 1 <;> simp [hp, Bookmark.new, Bookmark.addJumpToPage]
  have heq : on_addBookmark_triggered env w
      = some { w with bookmarksMenu := w.bookmarksMenu ++
          [QAction.menuAction
            { filePath := tab.filePath
              pages := if tab.currentPage ≠ 1 then [tab.currentPage] else []
              deferredDelete := false }] } := by
    unfold on_addBookmark_triggered
    rw [htab]
    simp only [hloop]
    rw [hb]
  refine ⟨heq, ?_⟩
  intro w1 h1
  rw [heq, Option.some.injEq] at h1
  subst h1
  have hbs : MainWindow.bookmarks { w with bookmarksMenu := w.bookmarksMenu ++
          [QAction.menuAction
            { filePath := tab.filePath
              pages := if tab.currentPage ≠ 1 then [tab.currentPage] else []
              deferredDelete := false }] }
      = w.bookmarks ++
        [({ filePath := tab.filePath,
            pages := if tab.currentPage ≠ 1 then [tab.currentPage] else [],
            deferredDelete := false } : Bookmark)] := by
    simp [MainWindow.bookmarks, QAction.menu]
  rw [hbs]
  exact ⟨rfl, by simp⟩

/-- Witness of C18: with a bookmark for `/b.pdf` in the menu, adding a bookmark on
page 5 of `/a.pdf` puts the bookmark for `/a.pdf` with page 5 after it. -/
theorem on_addBookmark_triggered_new_path_witness :
    (on_addBookmark_triggered sampleEnv (onePdf 5 (fixedBookmarksMenu ++
        [QAction.menuAction { filePath := "/b.pdf", pages := [2], deferredDelete := false }]))).map
      MainWindow.bookmarks
      = some [{ filePath := "/b.pdf", pages := [2], deferredDelete := false },
              { filePath := "/a.pdf", pages := [5], deferredDelete := false }] := by
  rw [(on_addBookmark_triggered_new_path sampleEnv (onePdf 5 (fixedBookmarksMenu ++
      [QAction.menuAction { filePath := "/b.pdf", pages := [2], deferredDelete := false }]))
    { sampleEnv.newView with filePath := "/a.pdf", currentPage := 5 } rfl (by decide)).1]
  decide

/-- C19: add-bookmark appends without looking at the pages already recorded. For
a path already bookmarked and a current page p other than 1, one add-bookmark
returns and extends the page list of the first bookmark of that path by exactly
one p, whether or not p is in the list, so that doing it twice extends the list
by p, p; the other bookmarks are unchanged. -/
theorem on_addBookmark_triggered_twice (env : Env) (w : MainWindow) (tab : DocumentView)
    (htab : w.currentTab = some tab) (hp : tab.currentPage ≠ 1)
    (hex : ∃ b ∈ w.bookmarks, samePath env b.filePath tab.filePath) :
    ∃ w1 w2 pre b post, on_addBookmark_triggered env w = some w1 ∧
      on_addBookmark_triggered env w1 = some w2 ∧
      w.bookmarks = pre ++ b :: post ∧
      (∀ x ∈ pre, ¬ samePath env x.filePath tab.filePath) ∧
      samePath env b.filePath tab.filePath ∧
      w1.bookmarks = pre ++ { b with pages := b.pages ++ [tab.currentPage] } :: post ∧
      w2.bookmarks
        = pre ++ { b with pages := b.pages ++ [tab.currentPage, tab.currentPage] } :: post := by
  obtain ⟨m, hm, hbs⟩ := on_addBookmark_triggered_eq env w tab htab
  obtain ⟨pre, b, post, hsplit, hpre, hb, heq⟩ :=
    addBookmarkTo_of_mem env tab.filePath tab.currentPage w.bookmarks hex
  have hrec : ∀ x : Bookmark, recordPage x tab.currentPage
      = { x with pages := x.pages ++ [tab.currentPage] } := by
    intro x
    simp [recordPage, hp, Bookmark.addJumpToPage]
  have h1 : MainWindow.bookmarks { w with bookmarksMenu := m }
      = pre ++ { b with pages := b.pages ++ [tab.currentPage] } :: post := by
    rw [← hrec, ← heq, ← hbs]; rfl
  obtain ⟨m2, hm2, hbs2⟩ :=
    on_addBookmark_triggered_eq env { w with bookmarksMenu := m } tab htab
  have h2 : MainWindow.bookmarks
        { ({ w with bookmarksMenu := m } : MainWindow) with bookmarksMenu := m2 }
      = pre ++ { b with pages := b.pages ++ [tab.currentPage, tab.currentPage] } :: post := by
    have h3 : MainWindow.bookmarks
        { ({ w with bookmarksMenu := m } : MainWindow) with bookmarksMenu := m2 }
        = addBookmarkTo env tab.filePath tab.currentPage
            (MainWindow.bookmarks { w with bookmarksMenu := m }) := hbs2
    rw [h3, h1, addBookmarkTo_split env tab.filePath tab.currentPage pre post
      { b with pages := b.pages ++ [tab.currentPage] } hpre hb, hrec]
    simp
  exact ⟨_, _, pre, b, post, hm, hm2, hsplit, hpre, hb, h1, h2⟩

/-- Witness of C19: on page 5 of `/a.pdf`, whose bookmark already holds pages 5
and 9, adding a bookmark twice gives pages 5, 9, 5, 5. -/
theorem on_addBookmark_triggered_twice_witness :
    ((on_addBookmark_triggered sampleEnv (onePdf 5 (fixedBookmarksMenu ++
        [QAction.menuAction { filePath := "/a.pdf", pages := [5, 9], deferredDelete := false }]))).bind
      (on_addBookmark_triggered sampleEnv)).map MainWindow.bookmarks
      = some [{ filePath := "/a.pdf", pages := [5, 9, 5, 5], deferredDelete := false }] := by
  obtain ⟨w1, w2, pre, b, post, h1, h2, hsplit, -, -, -, hw2⟩ :=
    on_addBookmark_triggered_twice sampleEnv (onePdf 5 (fixedBookmarksMenu ++
      [QAction.menuAction { filePath := "/a.pdf", pages := [5, 9], deferredDelete := false }]))
      { sampleEnv.newView with filePath := "/a.pdf", currentPage := 5 } rfl (by decide)
      ⟨{ filePath := "/a.pdf", pages := [5, 9], deferredDelete := false }, by decide, by decide⟩
  rw [h1]
  show Option.map MainWindow.bookmarks (on_addBookmark_triggered sampleEnv w1) = _
  rw [h2, Option.map_some', hw2]
  have hs : [({ filePath := "/a.pdf", pages := [5, 9], deferredDelete := false } : Bookmark)]
      = pre ++ b :: post := hsplit
  cases pre with
  | nil =>
    simp only [List.nil_append, List.cons.injEq] at hs
    obtain ⟨hb, hpost⟩ := hs
    subst hb
    subst hpost
    rfl
  | cons x xs =>
    simp at hs

/-! ## Properties of the calls on views -/

theorem callCurrentTab_last (s : QSettings) (l : List TabPage) (p : TabPage)
    (tm bm : List QAction) (ws oc : List String) (n : Nat) (call : ViewCall) :
    MainWindow.callCurrentTab
        { settings := s, tabs := l ++ [p], currentIndex := (l.length : Int), tabsMenu := tm,
          bookmarksMenu := bm, warnings := ws, openCalls := oc, nextObject := n } call
      = some ({ settings := s, tabs := l ++ [{ p with widget := call.apply p.widget }],
                currentIndex := (l.length : Int), tabsMenu := tm, bookmarksMenu := bm,
                warnings := ws, openCalls := oc, nextObject := n }, (p.widget.object, call)) := by
  unfold MainWindow.callCurrentTab
  rw [onCurrentTab_last]
  simp [MainWindow.currentTab, MainWindow.tab]

theorem restoreTabCalls_openable (env : Env) (w : MainWindow) (e : QDomNode)
    (h : openable env e = true) :
    restoreTabCalls env w e = some (restoredWindow env w e, recordCalls env w.nextObject e) := by
  have h0 := h
  unfold openable at h
  simp [restoreTabCalls, openInNewTab, DocumentView.openDocument, h, callCurrentTab_last,
    restoredWindow, restoredView, recordCalls, h0, ViewCall.apply,
    DocumentView.setContinousMode, DocumentView.setTwoPagesMode, DocumentView.setScaleMode,
    DocumentView.setScaleFactor, DocumentView.setRotation, DocumentView.jumpToPage]

theorem restoreTabCalls_not_openable (env : Env) (w : MainWindow) (e : QDomNode)
    (h : openable env e = false) :
    restoreTabCalls env w e = some
      ({ w with
        nextObject := w.nextObject + 1
        openCalls := w.openCalls ++ [e.getAttribute "filePath"]
        warnings := w.warnings ++ ["Could not open \x27" ++ e.getAttribute "filePath" ++ "\x27."] },
        recordCalls env w.nextObject e) := by
  have h0 := h
  unfold openable at h
  simp [restoreTabCalls, openInNewTab, DocumentView.openDocument, h, recordCalls, h0]

theorem restoreTabsLoopCalls_eq (env : Env) (es : List QDomNode) (w : MainWindow) :
    ∃ w1, restoreTabsLoop env es w = some w1 ∧
      restoreTabsLoopCalls env es w = some (w1, allRecordCalls env w.nextObject es) := by
  induction es generalizing w with
  | nil => exact ⟨w, rfl, rfl⟩
  | cons e es ih =>
    cases h : openable env e with
    | true =>
      obtain ⟨w1, h1, h2⟩ := ih (restoredWindow env w e)
      refine ⟨w1, ?_, ?_⟩
      · simp [restoreTabsLoop, restoreTab_openable env w e h, h1]
      · have hn : (restoredWindow env w e).nextObject = w.nextObject + 1 := rfl
        rw [hn] at h2
        simp [restoreTabsLoopCalls, restoreTabCalls_openable env w e h, h2, allRecordCalls]
    | false =>
      obtain ⟨w1, h1, h2⟩ := ih
        { w with
          nextObject := w.nextObject + 1
          openCalls := w.openCalls ++ [e.getAttribute "filePath"]
          warnings := w.warnings ++
            ["Could not open \x27" ++ e.getAttribute "filePath" ++ "\x27."] }
      refine ⟨w1, ?_, ?_⟩
      · simp [restoreTabsLoop, restoreTab_not_openable env w e h, h1]
      · simp [restoreTabsLoopCalls, restoreTabCalls_not_openable env w e h, h2, allRecordCalls]

/-- C11: for every tab element `restoreTabs` reads, in whatever state the window
is, the body of the loop returns and makes setter calls only when the path
opens: then exactly six, all on the view just opened, which is the last tab,
in the order continuous mode, two-pages mode, scale mode, scale factor,
rotation, jump to the recorded page; when the path does not open it makes no
setter call on any view and the tabs are as before. Over all elements of a
file the calls are those of the elements one after the other. -/
theorem restoreTabs_setter_calls (env : Env) (w : MainWindow) (e : QDomNode)
    (es : List QDomNode) :
    (∃ w1, restoreTab env w e = some w1 ∧
      restoreTabCalls env w e
        = some (w1,
            if openable env e = true then
              [(w.nextObject,
                  ViewCall.setContinousMode (toUInt (e.getAttribute "continuousMode") != 0)),
               (w.nextObject,
                  ViewCall.setTwoPagesMode (toUInt (e.getAttribute "twoPagesMode") != 0)),
               (w.nextObject,
                  ViewCall.setScaleMode { value := toUInt (e.getAttribute "scaleMode") }),
               (w.nextObject,
                  ViewCall.setScaleFactor (env.toFloat (e.getAttribute "scaleFactor"))),
               (w.nextObject,
                  ViewCall.setRotation { value := toUInt (e.getAttribute "rotation") }),
               (w.nextObject, ViewCall.jumpToPage (toInt (e.getAttribute "currentPage")))]
            else []) ∧
      w1.views
        = if openable env e = true then
            w.views ++ [{ restoredView env e with object := w.nextObject }]
          else w.views) ∧
    (∃ w2, restoreTabsLoop env es w = some w2 ∧
      restoreTabsLoopCalls env es w = some (w2, allRecordCalls env w.nextObject es)) := by
  refine ⟨?_, restoreTabsLoopCalls_eq env es w⟩
  cases h : openable env e with
  | true =>
    refine ⟨restoredWindow env w e, restoreTab_openable env w e h, ?_, ?_⟩
    · rw [restoreTabCalls_openable env w e h]
      simp [recordCalls, h]
    · simp [views_restoredWindow]
  | false =>
    refine ⟨_, restoreTab_not_openable env w e h, ?_, ?_⟩
    · rw [restoreTabCalls_not_openable env w e h]
      simp [recordCalls, h]
    · simp [MainWindow.views]

theorem get?_modify_same {α : Type} (f : α → α) (l : List α) (n : Nat) :
    (l.modify f n).get? n = (l.get? n).map f := by
  induction l generalizing n with
  | nil => cases n <;> rfl
  | cons x xs ih =>
    cases n with
    | zero => rfl
    | succ n =>
      have h : (x :: xs).modify f (n + 1) = x :: xs.modify f n := rfl
      rw [h]
      exact ih n

/-- A setter call on the current tab, when there is one: it is made on that
view, the view at the current index becomes the result of the call, and
nothing else in the window changes. -/
theorem callCurrentTab_of_currentTab (w : MainWindow) (tab : DocumentView) (call : ViewCall)
    (h : w.currentTab = some tab) :
    ∃ tabs, w.callCurrentTab call = some ({ w with tabs := tabs }, (tab.object, call)) ∧
      MainWindow.currentTab { w with tabs := tabs } = some (call.apply tab) ∧
      tabs.length = w.tabs.length := by
  refine ⟨w.tabs.modify (fun t => { t with widget := call.apply t.widget }) w.currentIndex.toNat,
    ?_, ?_, ?_⟩
  · simp [MainWindow.callCurrentTab, MainWindow.onCurrentTab, h]
  · unfold MainWindow.currentTab MainWindow.tab at h ⊢
    by_cases h0 : 0 ≤ w.currentIndex
    · rw [if_pos h0] at h ⊢
      rw [get?_modify_same]
      cases hg : w.tabs.get? w.currentIndex.toNat with
      | none =>
        rw [hg] at h
        exact absurd h (by simp)
      | some t =>
        rw [hg] at h
        simp only [Option.map_some', Option.some.injEq] at h ⊢
        rw [h]
    · rw [if_neg h0] at h
      exact absurd h (by simp)
  · simp [List.modify, List.length_modifyTailIdx]

theorem toIntOk_numberInt (n : Int) (h : isInt n) : toIntOk (numberInt n) = true := by
  unfold toIntOk
  rw [toLongLong_numberInt]
  simp [h]

theorem clamp_eq (lo hi x : qreal) :
    (if (if x ≥ lo then x else lo) ≤ hi then (if x ≥ lo then x else lo) else hi)
      = clampScaleFactor lo hi x := by
  unfold clampScaleFactor
  have h1 : (if x ≥ lo then x else lo) = max x lo := by
    by_cases h : lo ≤ x
    · rw [if_pos h, max_eq_left h]
    · rw [if_neg h, max_eq_right (le_of_lt (not_le.mp h))]
  rw [h1]
  by_cases h : max x lo ≤ hi
  · rw [if_pos h, min_eq_left h]
  · rw [if_neg h, min_eq_right (le_of_lt (not_le.mp h))]

/-- C20, as stated, fails: 3000000000 is an integer, but not an `int`; with its
text in the scale-factor box `toInt` fails, and `on_scaleFactor_editingFinished`
makes no setter call and leaves the window as it was, where the claim has the
scale factor set to the upper bound. -/
theorem on_scaleFactor_editingFinished_overflow :
    toLongLong "3000000000" = some 3000000000 ∧ toIntOk "3000000000" = false ∧
    on_scaleFactor_editingFinished (1 / 10) 5 "3000000000" (onePdf 3 fixedBookmarksMenu)
      = some (onePdf 3 fixedBookmarksMenu, []) := by
  refine ⟨by decide, by decide, ?_⟩
  have hidx : (onePdf 3 fixedBookmarksMenu).currentIndex ≠ -1 := by decide
  have hok : toIntOk "3000000000" = false := by decide
  unfold on_scaleFactor_editingFinished
  rw [if_pos hidx]
  simp only [hok]
  rfl

/-- The scale factor brought between two `double` bounds is a `double` when it
was one. -/
theorem isDouble_clampScaleFactor (lo hi x : qreal) (hlo : isDouble lo) (hhi : isDouble hi)
    (hx : isDouble x) : isDouble (clampScaleFactor lo hi x) := by
  unfold clampScaleFactor
  rcases min_choice (max x lo) hi with h | h
  · rw [h]
    rcases max_choice x lo with h1 | h1
    · rw [h1]
      exact hx
    · rw [h1]
      exact hlo
  · rw [h]
    exact hhi

/-- C20, amended: while a tab is open and the lower bound is not above the upper
bound, for every integer n that fits the type `int` and whose text is in the
scale-factor box,
`on_scaleFactor_editingFinished` returns and makes exactly two setter calls,
both on the current tab: `setScaleFactor` with the `double` nearest to n/100,
which is the quotient `n / 100.0`, brought between the bounds, then
`setScaleMode` with the fixed-factor mode. The value passed lies between the
bounds and is a `double` when the bounds are, and afterwards the current tab
has that scale factor and the fixed-factor mode, the window being otherwise
unchanged. -/
theorem on_scaleFactor_editingFinished_clamps (lo hi : qreal) (n : Int) (w : MainWindow)
    (tab : DocumentView) (hn : isInt n) (hle : lo ≤ hi) (htab : w.currentTab = some tab) :
    ∃ tabs, on_scaleFactor_editingFinished lo hi (numberInt n) w
        = some ({ w with tabs := tabs },
            [(tab.object,
                ViewCall.setScaleFactor (clampScaleFactor lo hi (toDouble ((n : qreal) / 100)))),
             (tab.object, ViewCall.setScaleMode ScaleMode.ScaleFactor)]) ∧
      lo ≤ clampScaleFactor lo hi (toDouble ((n : qreal) / 100)) ∧
      clampScaleFactor lo hi (toDouble ((n : qreal) / 100)) ≤ hi ∧
      (isDouble lo → isDouble hi →
        isDouble (clampScaleFactor lo hi (toDouble ((n : qreal) / 100)))) ∧
      MainWindow.currentTab { w with tabs := tabs }
        = some { tab with
            scaleFactor := clampScaleFactor lo hi (toDouble ((n : qreal) / 100))
            scaleMode := ScaleMode.ScaleFactor } ∧
      tabs.length = w.tabs.length := by
  have hidx : w.currentIndex ≠ -1 := by
    intro h
    simp [MainWindow.currentTab, MainWindow.tab, h] at htab
  obtain ⟨tabs1, hc1, ht1, hl1⟩ := callCurrentTab_of_currentTab w tab
    (ViewCall.setScaleFactor (clampScaleFactor lo hi (toDouble ((n : qreal) / 100)))) htab
  obtain ⟨tabs2, hc2, ht2, hl2⟩ := callCurrentTab_of_currentTab { w with tabs := tabs1 }
    ((ViewCall.setScaleFactor (clampScaleFactor lo hi (toDouble ((n : qreal) / 100)))).apply tab)
    (ViewCall.setScaleMode ScaleMode.ScaleFactor) ht1
  refine ⟨tabs2, ?_, ?_, ?_, ?_, ?_, ?_⟩
  · unfold on_scaleFactor_editingFinished
    rw [if_pos hidx]
    simp only [toIntOk_numberInt n hn, toInt_numberInt n hn, if_true, clamp_eq]
    rw [hc1]
    simp only [Option.bind_eq_bind, Option.some_bind]
    rw [hc2]
    simp only [Option.some_bind]
    have ht2s : MainWindow.currentTab { w with tabs := tabs2 }
        = some ((ViewCall.setScaleMode ScaleMode.ScaleFactor).apply
            ((ViewCall.setScaleFactor
              (clampScaleFactor lo hi (toDouble ((n : qreal) / 100)))).apply tab)) :=
      ht2
    rw [ht2s]
    rfl
  · unfold clampScaleFactor
    exact le_min (le_max_right _ _) hle
  · unfold clampScaleFactor
    exact min_le_right _ _
  · intro hlo hhi
    exact isDouble_clampScaleFactor lo hi _ hlo hhi (isDouble_toDouble _)
  · exact ht2
  · exact hl2.trans hl1

/-- Rounding keeps a rational that is not positive from becoming positive. -/
theorem roundTo_nonpos (b d : Nat) (q : Rat) (hq : q ≤ 0) : roundTo b d q ≤ 0 := by
  unfold roundTo
  by_cases h0 : q = 0
  · rw [if_pos h0]
  · rw [if_neg h0]
    by_cases hb : (b : Rat) = 0
    · rw [hb]
      by_cases he : Int.log b |q| - ((d : Int) - 1) = 0
      · rw [he, zpow_zero, div_one, mul_one]
        have := roundHalfEven_le q 0 (by simpa using hq)
        exact_mod_cast this
      · rw [zero_zpow _ he, mul_zero]
    · have hbpos : (0 : Rat) < (b : Rat) :=
        lt_of_le_of_ne (Nat.cast_nonneg b) (Ne.symm hb)
      have hu : (0 : Rat) < (b : Rat) ^ (Int.log b |q| - ((d : Int) - 1)) := zpow_pos hbpos _
      have hdiv : q / (b : Rat) ^ (Int.log b |q| - ((d : Int) - 1)) ≤ ((0 : Int) : Rat) := by
        rw [Int.cast_zero]
        exact div_nonpos_of_nonpos_of_nonneg hq (le_of_lt hu)
      have hr := roundHalfEven_le _ 0 hdiv
      have hr' : (roundHalfEven (q / (b : Rat) ^ (Int.log b |q| - ((d : Int) - 1))) : Rat) ≤ 0 := by
        exact_mod_cast hr
      exact mul_nonpos_of_nonpos_of_nonneg hr' (le_of_lt hu)

/-- The `double` nearest to 1000/100 is 10. -/
theorem toDouble_1000 : toDouble (((1000 : Int) : Rat) / 100) = 10 := by
  unfold toDouble
  rw [roundTo_eq 2 53 (by decide) _ 3 5629499534213120 (by norm_num) (by norm_num) (by norm_num)
    (by rw [abs_lt]; constructor <;> norm_num)]
  norm_num

/-- Witness of C20: 110 typed, 1000 typed and -5 typed with the bounds 1/8 and 5
on the tab of `/a.pdf`: the scale factors set are the `double` nearest to
110/100, which is 2476979795053773/2251799813685248, the upper bound 5 and the
lower bound 1/8. -/
theorem on_scaleFactor_editingFinished_clamps_witness :
    scaleFactor110 = 2476979795053773 / 2251799813685248 ∧
    (∃ tabs, on_scaleFactor_editingFinished (1 / 8) 5 "110" (onePdf 3 fixedBookmarksMenu)
        = some ({ onePdf 3 fixedBookmarksMenu with tabs := tabs },
            [(0, ViewCall.setScaleFactor scaleFactor110),
             (0, ViewCall.setScaleMode ScaleMode.ScaleFactor)])) ∧
    (∃ tabs, on_scaleFactor_editingFinished (1 / 8) 5 "1000" (onePdf 3 fixedBookmarksMenu)
        = some ({ onePdf 3 fixedBookmarksMenu with tabs := tabs },
            [(0, ViewCall.setScaleFactor 5),
             (0, ViewCall.setScaleMode ScaleMode.ScaleFactor)])) ∧
    (∃ tabs, on_scaleFactor_editingFinished (1 / 8) 5 "-5" (onePdf 3 fixedBookmarksMenu)
        = some ({ onePdf 3 fixedBookmarksMenu with tabs := tabs },
            [(0, ViewCall.setScaleFactor (1 / 8)),
             (0, ViewCall.setScaleMode ScaleMode.ScaleFactor)])) := by
  have hb : ((1 : qreal) / 8) ≤ 5 := by norm_num
  refine ⟨rfl, ?_, ?_, ?_⟩
  · obtain ⟨tabs, h, -⟩ := on_scaleFactor_editingFinished_clamps (1 / 8) 5 110
      (onePdf 3 fixedBookmarksMenu)
      { sampleEnv.newView with filePath := "/a.pdf", currentPage := 3 } (by decide) hb rfl
    have hv : clampScaleFactor (1 / 8) 5 (toDouble (((110 : Int) : qreal) / 100))
        = scaleFactor110 := by
      rw [toDouble_110]
      unfold clampScaleFactor scaleFactor110
      rw [max_eq_left (by norm_num), min_eq_left (by norm_num)]
    rw [hv] at h
    exact ⟨tabs, h⟩
  · obtain ⟨tabs, h, -⟩ := on_scaleFactor_editingFinished_clamps (1 / 8) 5 1000
      (onePdf 3 fixedBookmarksMenu)
      { sampleEnv.newView with filePath := "/a.pdf", currentPage := 3 } (by decide) hb rfl
    have hv : clampScaleFactor (1 / 8) 5 (toDouble (((1000 : Int) : qreal) / 100)) = 5 := by
      rw [toDouble_1000]
      unfold clampScaleFactor
      norm_num
    rw [hv] at h
    exact ⟨tabs, h⟩
  · obtain ⟨tabs, h, -⟩ := on_scaleFactor_editingFinished_clamps (1 / 8) 5 (-5)
      (onePdf 3 fixedBookmarksMenu)
      { sampleEnv.newView with filePath := "/a.pdf", currentPage := 3 } (by decide) hb rfl
    have hv : clampScaleFactor (1 / 8) 5 (toDouble (((-5 : Int) : qreal) / 100)) = 1 / 8 := by
      have hneg : toDouble (((-5 : Int) : qreal) / 100) ≤ 0 :=
        roundTo_nonpos 2 53 _ (by norm_num)
      unfold clampScaleFactor
      rw [max_eq_right (by linarith), min_eq_left (by norm_num)]
    rw [hv] at h
    exact ⟨tabs, h⟩

/-! ## Properties of the warnings after the settings dialog -/

/-- With a current tab, the loop of `on_settings_triggered` runs to its end and
shows one warning per view that does not refresh, each naming the file path of
the current tab. -/
theorem refreshLoop_warnings (refresh : DocumentView → Bool) (ts : List TabPage)
    (w : MainWindow) (current : DocumentView) (h : w.currentTab = some current) :
    refreshLoop refresh ts w
      = some { w with warnings := (w.warnings ++
          (ts.filter (fun t => !refresh t.widget)).map
            (fun _ => couldNotRefresh current.filePath)) } := by
  induction ts generalizing w with
  | nil => simp [refreshLoop]
  | cons t ts ih =>
    cases hr : refresh t.widget with
    | true =>
      simp only [refreshLoop, hr, Bool.not_true, Bool.false_eq_true, if_false]
      rw [ih w h]
      simp [hr]
    | false =>
      simp only [refreshLoop, hr, Bool.not_false, if_true, h]
      rw [ih { w with warnings := w.warnings ++ [couldNotRefresh current.filePath] } h]
      simp [hr]

/-- The sibling slot `on_refresh_triggered` refreshes the current tab and names
the current tab: its warning names the view that did not refresh. -/
theorem on_refresh_triggered_names_refreshed (refresh : DocumentView → Bool) (w : MainWindow)
    (current : DocumentView) (h : w.currentTab = some current) (hr : refresh current = false) :
    on_refresh_triggered refresh w
      = some { w with warnings := w.warnings ++ [couldNotRefresh current.filePath] } := by
  simp [on_refresh_triggered, h, hr]

/-- C15, the code at the failing input: with the tabs `a.pdf` and `/b.pdf` open,
`/b.pdf` current, the settings dialog accepted and `a.pdf` the only view that
does not refresh, the one warning shown names `/b.pdf`, the current tab, not
`a.pdf`, the tab whose refresh failed. -/
theorem on_settings_triggered_names_current_tab :
    twoTabs.views.map DocumentView.filePath = ["a.pdf", "/b.pdf"] ∧
    twoTabs.currentTab.map DocumentView.filePath = some "/b.pdf" ∧
    (on_settings_triggered (fun v => v.filePath != "a.pdf") true twoTabs).map MainWindow.warnings
      = some ["Could not refresh \x27/b.pdf\x27."] := by
  decide

/-! ## Properties of the scale factor read back -/

theorem restoredView_scaleFactor (env : Env) (v : DocumentView) :
    (restoredView env (tabElementOf env v)).scaleFactor
      = env.toFloat (env.numberReal v.scaleFactor) := by
  rw [tabElementOf_eq]
  simp [restoredView, QDomNode.getAttribute, List.lookup]

/-- The scale factors after `saveTabs` and `restoreTabs`: for every saved tab
what `toFloat` reads from the text written for its scale factor. -/
theorem scaleFactors_saveTabs_restoreTabs (env : Env) (w w0 : MainWindow) (fs : FileSystem)
    (hsave : w.settings.restoreTabs = true) (hrestore : w0.settings.restoreTabs = true)
    (hwritable : fs.tabsXml.writable = true) (hreadable : fs.tabsXml.readable = true)
    (hempty : w0.tabs = [])
    (hopen : ∀ v ∈ w.views, env.canOpen (env.absoluteFilePath v.filePath) = true) :
    ∃ w1, restoreTabs env w0 (saveTabs env w fs) = some w1 ∧
      w1.views.map DocumentView.scaleFactor
        = w.views.map (fun v => env.toFloat (env.numberReal v.scaleFactor)) := by
  obtain ⟨w1, h1, h2, -⟩ :=
    restoreTabsLoop_views env (recordsOf (saveTabs env w fs).tabsXml) w0
  rw [recordsOf_saveTabs env w fs hsave hwritable hreadable] at h1 h2
  have hfilter : (w.views.map (tabElementOf env)).filter (openable env)
      = w.views.map (tabElementOf env) := by
    rw [List.filter_eq_self]
    intro e he
    obtain ⟨v, hv, rfl⟩ := List.mem_map.mp he
    rw [openable_tabElementOf]
    exact hopen v hv
  have hviews0 : w0.views = [] := by simp [MainWindow.views, hempty]
  rw [hfilter, hviews0, List.map_nil, List.nil_append, List.map_map] at h2
  refine ⟨w1, ?_, ?_⟩
  · rw [restoreTabs_eq_loop env w0 _ hrestore,
      recordsOf_saveTabs env w fs hsave hwritable hreadable]
    exact h1
  · have h3 := congrArg (List.map DocumentView.scaleFactor) h2
    rw [List.map_map, List.map_map] at h3
    have hl : (DocumentView.scaleFactor ∘ DocumentView.anonymous) = DocumentView.scaleFactor := rfl
    rw [hl] at h3
    rw [h3]
    apply List.map_congr_left
    intro v _
    simp only [Function.comp_apply]
    exact restoredView_scaleFactor env v

theorem scaleFactor110_num : scaleFactor110.num = 2476979795053773 := by
  unfold scaleFactor110
  norm_num

theorem scaleFactor110_den : scaleFactor110.den = 2251799813685248 := by
  unfold scaleFactor110
  norm_num

theorem not_isSingle_scaleFactor110 : ¬ isSingle scaleFactor110 := by
  unfold isSingle hasSignificand
  rw [scaleFactor110_num, scaleFactor110_den]
  decide

theorem isDouble_scaleFactor110 : isDouble scaleFactor110 := by
  unfold isDouble hasSignificand
  rw [scaleFactor110_num, scaleFactor110_den]
  decide

/-- The characters of a run of decimal digits are digits. -/
theorem decimal_isDigit (fuel : Nat) : ∀ n : Nat, ∀ c ∈ decimal fuel n, c.isDigit = true := by
  induction fuel with
  | zero => intro n c hc; cases hc
  | succ fuel ih =>
    intro n c hc
    unfold decimal at hc
    by_cases h : n < 10
    · rw [if_pos h, List.mem_singleton] at hc
      rw [hc]
      exact digitChar_isDigit n h
    · rw [if_neg h, List.mem_append, List.mem_singleton] at hc
      rcases hc with hc | hc
      · exact ih (n / 10) c hc
      · rw [hc]
        exact digitChar_isDigit (n % 10) (Nat.mod_lt n (by decide))

/-- The text of a whole number holds no letter e. -/
theorem numberInt_no_e (i : Int) : ∀ c ∈ (numberInt i).data, (c != 'e') = true := by
  intro c hc
  have hd : ∀ c ∈ decimal (i.natAbs + 1) i.natAbs, (c != 'e') = true := by
    intro c hc
    have h := decimal_isDigit _ _ c hc
    by_contra hne
    have he : c = 'e' := by simpa using hne
    rw [he] at h
    exact absurd h (by decide)
  unfold numberInt at hc
  by_cases hneg : i < 0
  · rw [if_pos hneg] at hc
    rcases List.mem_cons.mp hc with e | hm
    · rw [e]
      decide
    · exact hd c hm
  · rw [if_neg hneg] at hc
    exact hd c hc

theorem takeWhile_append_stop {α : Type} (p : α → Bool) (l : List α) (a : α) (rest : List α)
    (hl : ∀ c ∈ l, p c = true) (ha : p a = false) :
    (l ++ a :: rest).takeWhile p = l ∧ (l ++ a :: rest).dropWhile p = a :: rest := by
  induction l with
  | nil => simp [List.takeWhile, List.dropWhile, ha]
  | cons x xs ih =>
    have hx : p x = true := hl x (List.mem_cons_self _ _)
    obtain ⟨h1, h2⟩ := ih (fun c hc => hl c (List.mem_cons_of_mem _ hc))
    constructor
    · show (x :: (xs ++ a :: rest)).takeWhile p = x :: xs
      rw [List.takeWhile_cons, hx, if_pos rfl, h1]
    · show (x :: (xs ++ a :: rest)).dropWhile p = a :: rest
      rw [List.dropWhile_cons, hx, if_pos rfl, h2]

/-- The text of a decimal denotes the decimal. -/
theorem decimalValue_decimalText (m k : Int) :
    decimalValue (decimalText m k) = (m : Rat) * (10 : Rat) ^ k := by
  have hdata : (decimalText m k).data = (numberInt m).data ++ 'e' :: (numberInt k).data := by
    unfold decimalText
    rw [String.data_append, String.data_append]
    simp
  obtain ⟨h1, h2⟩ := takeWhile_append_stop (fun c => c != 'e') (numberInt m).data 'e'
    (numberInt k).data (numberInt_no_e m) (by decide)
  unfold decimalValue
  rw [hdata, h1, h2]
  show (match toLongLong (numberInt m), toLongLong (numberInt k) with
    | some m, some k => (m : Rat) * (10 : Rat) ^ k
    | _, _ => 0) = _
  rw [toLongLong_numberInt, toLongLong_numberInt]

/-- The digits and the exponent of `decimalDigits` are those of the rounding to
significant decimal digits. -/
theorem decimalDigits_value (digits : Nat) (q : Rat) :
    ((decimalDigits digits q).1 : Rat) * (10 : Rat) ^ (decimalDigits digits q).2
      = roundTo 10 digits q := by
  unfold decimalDigits roundTo
  by_cases h : q = 0
  · rw [if_pos h, if_pos h]
    simp
  · rw [if_neg h, if_neg h]
    have hcast : ((10 : Nat) : Rat) = 10 := by norm_num
    rw [hcast]

/-- What `decimalEnv` reads from the text it writes for a `qreal`: the `float`
nearest to the `double` nearest to the decimal of 16 significant digits nearest
to the `qreal`. -/
theorem decimalEnv_read_back (q : qreal) :
    decimalEnv.toFloat (decimalEnv.numberReal q) = toSingle (toDouble (roundTo 10 16 q)) := by
  show toSingle (toDouble (decimalValue
    (decimalText (decimalDigits 16 q).1 (decimalDigits 16 q).2))) = _
  rw [decimalValue_decimalText, decimalDigits_value]

/-- The decimal of 16 significant digits nearest to the `double` nearest to
110/100 is 11/10. -/
theorem roundTo_decimal_110 : roundTo 10 16 scaleFactor110 = 11 / 10 := by
  unfold scaleFactor110
  rw [roundTo_eq 10 16 (by decide) _ 0 1100000000000000 (by norm_num) (by norm_num)
    (by norm_num) (by rw [abs_lt]; constructor <;> norm_num)]
  norm_num

/-- The `double` nearest to 11/10. -/
theorem toDouble_11_10 : toDouble (11 / 10) = scaleFactor110 := by
  have h := toDouble_110
  have e : (((110 : Int) : Rat) / 100) = 11 / 10 := by norm_num
  rw [e] at h
  rw [h]
  rfl

/-- The `float` nearest to the `double` nearest to 110/100. -/
theorem toSingle_scaleFactor110 : toSingle scaleFactor110 = 9227469 / 8388608 := by
  unfold toSingle scaleFactor110
  rw [roundTo_eq 2 24 (by decide) _ 0 9227469 (by norm_num) (by norm_num) (by norm_num)
    (by rw [abs_lt]; constructor <;> norm_num)]
  norm_num

theorem isSingle_nearest_110 : isSingle (9227469 / 8388608 : ℚ) := by
  have hn : (9227469 / 8388608 : ℚ).num = 9227469 := by norm_num
  have hd : (9227469 / 8388608 : ℚ).den = 8388608 := by norm_num
  unfold isSingle hasSignificand
  rw [hn, hd]
  decide

/-- C17, as stated, fails. The scale factor of 110 %, the `double` nearest to
110/100, lies between 1 and 2 and is no `float`. Written with 16 significant
digits it reads 11/10, and `toFloat` reads from that the `float` nearest to
11/10: saving and restoring the tab gives the scale factor 9227469/8388608,
which is not the saved one. With any `toFloat` whose results are `float` values
the restored scale factor differs from the saved one. -/
theorem scaleFactor_round_trip_fails :
    isDouble scaleFactor110 ∧ ¬ isSingle scaleFactor110 ∧
    1 < scaleFactor110 ∧ scaleFactor110 < 2 ∧
    (∀ s, isSingle (decimalEnv.toFloat s)) ∧
    zoomedTab.views.map DocumentView.scaleFactor = [scaleFactor110] ∧
    (∃ w1, restoreTabs decimalEnv (MainWindow.create settingsOn)
        (saveTabs decimalEnv zoomedTab emptyFiles) = some w1 ∧
      w1.views.map DocumentView.scaleFactor = [9227469 / 8388608]) ∧
    (9227469 / 8388608 : qreal) ≠ scaleFactor110 ∧
    (∀ env : Env, (∀ s, isSingle (env.toFloat s)) →
      env.canOpen (env.absoluteFilePath "/a.pdf") = true →
      ∃ w1, restoreTabs env (MainWindow.create settingsOn)
          (saveTabs env zoomedTab emptyFiles) = some w1 ∧
        w1.views.map DocumentView.scaleFactor
          ≠ zoomedTab.views.map DocumentView.scaleFactor) := by
  refine ⟨isDouble_scaleFactor110, not_isSingle_scaleFactor110, ?_, ?_, ?_, rfl, ?_, ?_, ?_⟩
  · unfold scaleFactor110; norm_num
  · unfold scaleFactor110; norm_num
  · intro s
    exact isSingle_toSingle _
  · obtain ⟨w1, h1, h2⟩ := scaleFactors_saveTabs_restoreTabs decimalEnv zoomedTab
      (MainWindow.create settingsOn) emptyFiles rfl rfl rfl rfl rfl (by decide)
    refine ⟨w1, h1, ?_⟩
    rw [h2]
    show [decimalEnv.toFloat (decimalEnv.numberReal scaleFactor110)] = _
    rw [decimalEnv_read_back, roundTo_decimal_110, toDouble_11_10, toSingle_scaleFactor110]
  · intro h
    exact not_isSingle_scaleFactor110 (h ▸ isSingle_nearest_110)
  · intro env hsingle hopen
    obtain ⟨w1, h1, h2⟩ := scaleFactors_saveTabs_restoreTabs env zoomedTab
      (MainWindow.create settingsOn) emptyFiles rfl rfl rfl rfl rfl
      (by
        intro v hv
        have hv1 : v ∈ [({ sampleEnv.newView with
            filePath := "/a.pdf", scaleFactor := scaleFactor110 } : DocumentView)] := hv
        rw [List.mem_singleton] at hv1
        subst hv1
        exact hopen)
    refine ⟨w1, h1, ?_⟩
    rw [h2]
    intro heq
    have h3 : [env.toFloat (env.numberReal scaleFactor110)] = [scaleFactor110] := heq
    rw [List.cons.injEq] at h3
    exact not_isSingle_scaleFactor110 (h3.1 ▸ hsingle _)

/-- C17, amended: with the restore-tabs setting enabled, the tabs file writable
and readable and every saved path openable, let the text written for the scale
factor of each saved tab be read back as the toolkit reads a decimal of at
least nine significant digits: as the `float` nearest to the `double` nearest
to the decimal of that many digits nearest to the scale factor. Then after
`saveTabs` followed by `restoreTabs` on a window without tabs every restored
scale factor is a `float` value, and for every tab whose scale factor is a
`float` value that is not negative, the scale factor applied to the restored
tab is identical to the scale factor of the saved tab. -/
theorem restored_scaleFactor_round_trip (env : Env) (digits : Nat) (w w0 : MainWindow)
    (fs : FileSystem)
    (hsave : w.settings.restoreTabs = true) (hrestore : w0.settings.restoreTabs = true)
    (hwritable : fs.tabsXml.writable = true) (hreadable : fs.tabsXml.readable = true)
    (hempty : w0.tabs = [])
    (hopen : ∀ v ∈ w.views, env.canOpen (env.absoluteFilePath v.filePath) = true)
    (hdigits : 9 ≤ digits)
    (hread : ∀ v ∈ w.views, env.toFloat (env.numberReal v.scaleFactor)
      = toSingle (toDouble (roundTo 10 digits v.scaleFactor))) :
    ∃ w1, restoreTabs env w0 (saveTabs env w fs) = some w1 ∧
      w1.views.length = w.views.length ∧
      (∀ q ∈ w1.views.map DocumentView.scaleFactor, isSingle q) ∧
      (∀ (i : Nat) (q : qreal), (w.views.map DocumentView.scaleFactor).get? i = some q →
        isSingle q → 0 ≤ q → (w1.views.map DocumentView.scaleFactor).get? i = some q) := by
  obtain ⟨w1, h1, h2⟩ :=
    scaleFactors_saveTabs_restoreTabs env w w0 fs hsave hrestore hwritable hreadable hempty hopen
  have h3 : w1.views.map DocumentView.scaleFactor
      = w.views.map (fun v => toSingle (toDouble (roundTo 10 digits v.scaleFactor))) := by
    rw [h2]
    apply List.map_congr_left
    intro v hv
    exact hread v hv
  refine ⟨w1, h1, ?_, ?_, ?_⟩
  · have := congrArg List.length h3
    simpa using this
  · intro q hq
    rw [h3] at hq
    obtain ⟨v, -, rfl⟩ := List.mem_map.mp hq
    exact isSingle_toSingle _
  · intro i q hi hsingle hnonneg
    rw [h3]
    rw [List.get?_map] at hi ⊢
    cases hv : w.views.get? i with
    | none =>
      rw [hv] at hi
      cases hi
    | some v =>
      rw [hv] at hi
      have hq : v.scaleFactor = q := Option.some.inj hi
      show some (toSingle (toDouble (roundTo 10 digits v.scaleFactor))) = some q
      rw [hq, toSingle_toDouble_decimal digits hdigits q hnonneg hsingle]

/-- The decimal text environment reads back the scale factors 1 and 2, which
are `float` values, as themselves. -/
theorem isSingle_one_two : isSingle (1 : qreal) ∧ isSingle (2 : qreal) := by
  constructor <;> decide

/-- Witness of the amended C17: the two tabs of `twoTabs`, whose scale factors 1
and 2 are `float` values, written with 16 significant digits and read back,
come back with the scale factors 1 and 2. -/
theorem restored_scaleFactor_round_trip_witness :
    (∀ v ∈ twoTabs.views, decimalEnv.toFloat (decimalEnv.numberReal v.scaleFactor)
      = toSingle (toDouble (roundTo 10 16 v.scaleFactor))) ∧
    twoTabs.views.map DocumentView.scaleFactor = [1, 2] ∧
    (isSingle (1 : qreal) ∧ isSingle (2 : qreal)) ∧
    ∃ w1, restoreTabs decimalEnv (MainWindow.create settingsOn)
        (saveTabs decimalEnv twoTabs emptyFiles) = some w1 ∧
      w1.views.length = twoTabs.views.length ∧
      (∀ q ∈ w1.views.map DocumentView.scaleFactor, isSingle q) ∧
      (∀ (i : Nat) (q : qreal),
        (twoTabs.views.map DocumentView.scaleFactor).get? i = some q →
        isSingle q → 0 ≤ q → (w1.views.map DocumentView.scaleFactor).get? i = some q) :=
  ⟨fun v _ => decimalEnv_read_back v.scaleFactor, rfl, isSingle_one_two,
    restored_scaleFactor_round_trip decimalEnv 16 twoTabs (MainWindow.create settingsOn)
      emptyFiles rfl rfl rfl rfl rfl (by decide) (by decide)
      (fun v _ => decimalEnv_read_back v.scaleFactor)⟩

/-! ## Lists, the tab widget and the sender of a slot -/

/-- A list is split at the index of one of its elements. -/
theorem split_at_get? {α : Type} (l : List α) (i : Nat) (a : α) (h : l.get? i = some a) :
    l = l.take i ++ a :: l.drop (i + 1) ∧ (l.take i).length = i := by
  induction l generalizing i with
  | nil => cases i <;> cases h
  | cons x xs ih =>
    cases i with
    | zero =>
      have hx : x = a := by
        have h1 : some x = some a := h
        exact Option.some.inj h1
      subst hx
      exact ⟨rfl, rfl⟩
    | succ i =>
      have h1 : xs.get? i = some a := h
      obtain ⟨e, hl⟩ := ih i h1
      refine ⟨?_, ?_⟩
      · show x :: xs = x :: (xs.take i ++ a :: xs.drop (i + 1))
        rw [← e]
      · show (xs.take i).length + 1 = i + 1
        rw [hl]

/-- Among the elements of a list one of which has a decidable property there is
a first one that has it. -/
theorem exists_first {α : Type} (P : α → Prop) [DecidablePred P] (l : List α)
    (h : ∃ q ∈ l, P q) :
    ∃ (i : Nat) (a : α), l.get? i = some a ∧ P a ∧ ∀ q ∈ l.take i, ¬ P q := by
  induction l with
  | nil =>
    obtain ⟨q, hq, _⟩ := h
    cases hq
  | cons x xs ih =>
    by_cases hx : P x
    · exact ⟨0, x, rfl, hx, fun q hq => by cases hq⟩
    · have h1 : ∃ q ∈ xs, P q := by
        obtain ⟨q, hq, hp⟩ := h
        rcases List.mem_cons.mp hq with e | hm
        · exact absurd (e ▸ hp) hx
        · exact ⟨q, hm, hp⟩
      obtain ⟨i, a, hg, hp, hfirst⟩ := ih h1
      refine ⟨i + 1, a, hg, hp, ?_⟩
      intro q hq
      have hq1 : q ∈ x :: xs.take i := hq
      rcases List.mem_cons.mp hq1 with e | hm
      · rw [e]
        exact hx
      · exact hfirst q hm

/-- The element after a prefix is at the index that is the length of the prefix. -/
theorem get?_append_length {α : Type} (done : List α) (a : α) (post : List α) :
    (done ++ a :: post).get? done.length = some a := by
  induction done with
  | nil => rfl
  | cons x xs ih => exact ih

/-- Selecting the index of a tab makes it the current index. -/
theorem setCurrentIndex_valid (w : MainWindow) (index : Int) (h0 : 0 ≤ index)
    (h1 : index < w.count) : w.setCurrentIndex index = { w with currentIndex := index } := by
  simp [MainWindow.setCurrentIndex, h0, h1]

/-- The current tab after selecting the index of a tab. -/
theorem currentTab_setCurrentIndex (w : MainWindow) (i : Nat) (tabPage : TabPage)
    (h : w.tabs.get? i = some tabPage) :
    w.setCurrentIndex (i : Int) = { w with currentIndex := (i : Int) } ∧
    MainWindow.currentTab { w with currentIndex := (i : Int) } = some tabPage.widget := by
  have hlt : i < w.tabs.length := by
    by_contra hge
    rw [List.get?_eq_none.mpr (by omega)] at h
    cases h
  refine ⟨setCurrentIndex_valid w _ (by omega) (by unfold MainWindow.count; omega), ?_⟩
  show (if 0 ≤ (i : Int) then (w.tabs.get? (i : Int).toNat).map TabPage.widget else none) = _
  rw [if_pos (by omega), Int.toNat_ofNat, h]
  rfl

/-- The current tab passes `senderIsCurrentTab`. -/
theorem senderIsCurrentTab_current (w : MainWindow) (v : DocumentView)
    (h : w.currentTab = some v) : senderIsCurrentTab w (Sender.view v.object) = true := by
  unfold senderIsCurrentTab
  rw [h]
  simp

/-- A setter call on the current tab, when there is one: the current tab
afterwards is the result of the setter, at the same current index. -/
theorem onCurrentTab_of_currentTab (w : MainWindow) (v : DocumentView)
    (f : DocumentView → DocumentView) (h : w.currentTab = some v) :
    ∃ w1, w.onCurrentTab f = some w1 ∧ w1.currentTab = some (f v) ∧
      w1.currentIndex = w.currentIndex ∧ w1.tabs.length = w.tabs.length := by
  refine ⟨{ w with
    tabs := w.tabs.modify (fun t => { t with widget := f t.widget }) w.currentIndex.toNat },
    ?_, ?_, rfl, ?_⟩
  · simp [MainWindow.onCurrentTab, h]
  · unfold MainWindow.currentTab MainWindow.tab at h ⊢
    by_cases h0 : 0 ≤ w.currentIndex
    · rw [if_pos h0] at h ⊢
      rw [get?_modify_same]
      cases hg : w.tabs.get? w.currentIndex.toNat with
      | none =>
        rw [hg] at h
        cases h
      | some t =>
        rw [hg] at h
        have e : t.widget = v := Option.some.inj h
        show some (f t.widget) = some (f v)
        rw [e]
    · rw [if_neg h0] at h
      cases h
  · simp

/-! ## Properties of the file-path slot -/

/-- The loop of `on_currentTab_filePathChanged` ends at the first tab whose
widget is the sender: the text and the tool tip are set on the tab at the
current index, and the action of the sender in the tabs menu gets the text that
the tab of the sender has then. -/
theorem filePathChangedLoop_found (env : Env) (filePath : String) (tabPage : TabPage)
    (post : List TabPage) (w : MainWindow) (pre : List TabPage) :
    ∀ (index : Nat), (∀ q ∈ pre, q.widget.object ≠ tabPage.widget.object) →
      filePathChangedLoop env (Sender.view tabPage.widget.object) filePath index
          (pre ++ tabPage :: post) w
        = { (w.setTabText w.currentIndex (env.completeBaseName filePath)).setTabToolTip
              w.currentIndex (env.absoluteFilePath filePath) with
            tabsMenu := setTextOfTabAction tabPage.widget.object
              (((w.setTabText w.currentIndex (env.completeBaseName filePath)).setTabToolTip
                w.currentIndex (env.absoluteFilePath filePath)).tabText
                  ((index + pre.length : Nat) : Int))
              w.tabsMenu } := by
  induction pre with
  | nil =>
    intro index _
    show filePathChangedLoop env _ filePath index (tabPage :: post) w = _
    unfold filePathChangedLoop
    rw [if_pos rfl]
    have hi : (w.setTabText w.currentIndex (env.completeBaseName filePath)).currentIndex
        = w.currentIndex := by
      unfold MainWindow.setTabText
      by_cases h0 : 0 ≤ w.currentIndex
      · rw [if_pos h0]
      · rw [if_neg h0]
    have hm : ((w.setTabText w.currentIndex (env.completeBaseName filePath)).setTabToolTip
        w.currentIndex (env.absoluteFilePath filePath)).tabsMenu = w.tabsMenu := by
      unfold MainWindow.setTabText MainWindow.setTabToolTip
      by_cases h0 : 0 ≤ w.currentIndex
      · simp only [if_pos h0]
      · simp only [if_neg h0]
    simp only [hi, hm, List.length_nil, Nat.add_zero]
  | cons q pre ih =>
    intro index h
    have hq : Sender.view tabPage.widget.object ≠ Sender.view q.widget.object := by
      intro e
      exact h q (List.mem_cons_self _ _) (Sender.view.inj e).symm
    show filePathChangedLoop env _ filePath index (q :: (pre ++ tabPage :: post)) w = _
    unfold filePathChangedLoop
    rw [if_neg hq, ih (index + 1) (fun p hp => h p (List.mem_cons_of_mem _ hp))]
    have hl : index + 1 + pre.length = index + (q :: pre).length := by
      simp
      omega
    rw [hl]

/-- C22, the code at a failing input: with the tabs `a.pdf` and `/b.pdf` open
and `/b.pdf` the current tab, the view of `a.pdf` reports the file path
`/c.pdf`, whose base name is `c`. Afterwards the tab of `/b.pdf`, which
reported nothing, carries `c` and `/c.pdf` as its text and tool tip; the
reporting tab keeps the text `a` and the tool tip of `a.pdf`, and its entry in
the tabs menu keeps the text `a`. The window title, which shows the current
tab, is left as it is. -/
theorem on_currentTab_filePathChanged_other_tab :
    namedEnv.completeBaseName "/c.pdf" = "c" ∧
    namedEnv.absoluteFilePath "/c.pdf" = "/c.pdf" ∧
    tabsWithActions.currentIndex = 1 ∧
    tabsWithActions.tabs.map (fun t => (t.widget.object, t.text, t.toolTip))
      = [(0, "a", "/home/user/a.pdf"), (1, "b", "/b.pdf")] ∧
    (on_currentTab_filePathChanged namedEnv tabsWithActions sampleWidgets (Sender.view 0)
        "/c.pdf").1.tabs.map (fun t => (t.widget.object, t.text, t.toolTip))
      = [(0, "a", "/home/user/a.pdf"), (1, "c", "/c.pdf")] ∧
    (on_currentTab_filePathChanged namedEnv tabsWithActions sampleWidgets (Sender.view 0)
        "/c.pdf").1.tabsMenu
      = twoTabs.tabsMenu ++ [QAction.tabAction "a" 0, QAction.tabAction "b" 1] ∧
    (on_currentTab_filePathChanged namedEnv tabsWithActions sampleWidgets (Sender.view 0)
        "/c.pdf").2.windowTitle = sampleWidgets.windowTitle := by
  decide

/-- The file-path slot does what the claim says when the reporting tab is the
current tab: with the views of the tabs distinct objects, the tab of the sender
gets the base name and the absolute path of the new file as its text and tool
tip, its action in the tabs menu gets that base name, the window title is made
of it, and the other tabs keep their text and tool tip. -/
theorem on_currentTab_filePathChanged_current_tab (env : Env) (w : MainWindow) (ui : Widgets)
    (filePath : String) (pre post : List TabPage) (tabPage : TabPage)
    (htabs : w.tabs = pre ++ tabPage :: post) (hcur : w.currentIndex = (pre.length : Int))
    (hpre : ∀ q ∈ pre, q.widget.object ≠ tabPage.widget.object) :
    on_currentTab_filePathChanged env w ui (Sender.view tabPage.widget.object) filePath
      = ({ w with
            tabs := pre ++
              { tabPage with
                text := env.completeBaseName filePath
                toolTip := env.absoluteFilePath filePath } :: post
            tabsMenu := setTextOfTabAction tabPage.widget.object (env.completeBaseName filePath)
              w.tabsMenu },
          { ui with windowTitle := env.completeBaseName filePath ++ " - qpdfview" }) := by
  have hmod : ∀ (f : TabPage → TabPage) (l : List TabPage) (p : TabPage) (r : List TabPage),
      (l ++ p :: r).modify f l.length = l ++ f p :: r := by
    intro f l p r
    induction l with
    | nil => rfl
    | cons x xs ih =>
      show x :: (xs ++ p :: r).modify f xs.length = x :: (xs ++ f p :: r)
      rw [ih]
  have h0 : (0 : Int) ≤ (pre.length : Int) := by omega
  have hw1 : (w.setTabText w.currentIndex (env.completeBaseName filePath)).setTabToolTip
      w.currentIndex (env.absoluteFilePath filePath)
      = { w with
          tabs := pre ++
            { tabPage with
              text := env.completeBaseName filePath
              toolTip := env.absoluteFilePath filePath } :: post } := by
    unfold MainWindow.setTabText MainWindow.setTabToolTip
    rw [hcur]
    simp only [if_pos h0, Int.toNat_ofNat, htabs, hmod]
  have htext : ∀ (text toolTip : String),
      MainWindow.tabText
        { w with tabs := pre ++ { tabPage with text := text, toolTip := toolTip } :: post }
        ((0 + pre.length : Nat) : Int) = text := by
    intro text toolTip
    unfold MainWindow.tabText
    rw [Nat.zero_add, if_pos h0, Int.toNat_ofNat]
    show (match (pre ++ { tabPage with text := text, toolTip := toolTip } :: post).get?
        pre.length with
      | some t => t.text
      | none => "") = text
    rw [get?_append_length]
  unfold on_currentTab_filePathChanged
  rw [htabs, filePathChangedLoop_found env filePath tabPage post w pre 0 hpre, hw1, htext]
  have hsend : senderIsCurrentTab
      { w with
        tabs := pre ++
          { tabPage with
            text := env.completeBaseName filePath
            toolTip := env.absoluteFilePath filePath } :: post
        tabsMenu := setTextOfTabAction tabPage.widget.object (env.completeBaseName filePath)
          w.tabsMenu }
      (Sender.view tabPage.widget.object) = true := by
    unfold senderIsCurrentTab MainWindow.currentTab MainWindow.tab
    simp only [hcur, if_pos h0, Int.toNat_ofNat, get?_append_length]
    simp
  simp only [hsend, if_true]
  have htitle : MainWindow.tabText
      { w with
        tabs := pre ++
          { tabPage with
            text := env.completeBaseName filePath
            toolTip := env.absoluteFilePath filePath } :: post
        tabsMenu := setTextOfTabAction tabPage.widget.object (env.completeBaseName filePath)
          w.tabsMenu }
      w.currentIndex = env.completeBaseName filePath := by
    unfold MainWindow.tabText
    rw [hcur, if_pos h0, Int.toNat_ofNat]
    show (match (pre ++ _ :: post).get? pre.length with
      | some t => t.text
      | none => "") = _
    rw [get?_append_length]
  show (_, { ui with windowTitle := MainWindow.tabText _ w.currentIndex ++ " - qpdfview" }) = _
  rw [htitle]

/-! ## Properties of refresh-or-open -/

/-- The loop of `refreshOrOpenInNewTab` over tabs of other paths ends without
`return true` and leaves the window as it is. -/
theorem refreshOrOpenLoop_no_match (env : Env) (refresh : DocumentView → Bool)
    (filePath : String) (page : Int) (rest : List TabPage) :
    ∀ (index : Nat) (w : MainWindow),
      (∀ q ∈ rest, ¬ samePath env q.widget.filePath filePath) →
      refreshOrOpenLoop env refresh filePath page index rest w = some (w, false) := by
  induction rest with
  | nil => intro index w _; rfl
  | cons q rest ih =>
    intro index w h
    have hq : ¬ env.absoluteFilePath q.widget.filePath = env.absoluteFilePath filePath :=
      h q (List.mem_cons_self _ _)
    unfold refreshOrOpenLoop
    rw [if_neg hq]
    exact ih (index + 1) w (fun p hp => h p (List.mem_cons_of_mem _ hp))

/-- The loop of `refreshOrOpenInNewTab` ends at the first tab that shows the
file and refreshes: that tab is made current and sent to the page. -/
theorem refreshOrOpenLoop_found (env : Env) (refresh : DocumentView → Bool)
    (filePath : String) (page : Int) (pre : List TabPage) :
    ∀ (done : List TabPage) (tabPage : TabPage) (post : List TabPage) (w : MainWindow),
      w.tabs = done ++ (pre ++ tabPage :: post) →
      (∀ q ∈ pre, ¬ refreshes env refresh filePath q) →
      refreshes env refresh filePath tabPage →
      refreshOrOpenLoop env refresh filePath page done.length (pre ++ tabPage :: post) w
        = some (refreshedWindow w (done.length + pre.length) page, true) := by
  induction pre with
  | nil =>
    intro done tabPage post w hw _ hp
    have hg : w.tabs.get? done.length = some tabPage := by
      rw [hw]
      exact get?_append_length done tabPage post
    have hs : env.absoluteFilePath tabPage.widget.filePath = env.absoluteFilePath filePath :=
      hp.1
    obtain ⟨hset, hcur⟩ := currentTab_setCurrentIndex w done.length tabPage hg
    show refreshOrOpenLoop env refresh filePath page done.length (tabPage :: post) w = _
    unfold refreshOrOpenLoop
    rw [if_pos hs, hset]
    simp only [hcur, hp.2, if_true]
    simp [MainWindow.onCurrentTab, hcur, refreshedWindow]
  | cons q pre ih =>
    intro done tabPage post w hw hpre hp
    have hq : ¬ refreshes env refresh filePath q := hpre q (List.mem_cons_self _ _)
    have hpre1 : ∀ p ∈ pre, ¬ refreshes env refresh filePath p :=
      fun p hm => hpre p (List.mem_cons_of_mem _ hm)
    have hg : w.tabs.get? done.length = some q := by
      rw [hw]
      exact get?_append_length done q (pre ++ tabPage :: post)
    have hlen : (done ++ [q]).length = done.length + 1 := by simp
    have hsum : (done ++ [q]).length + pre.length = done.length + (q :: pre).length := by
      simp
      omega
    show refreshOrOpenLoop env refresh filePath page done.length (q :: (pre ++ tabPage :: post)) w
      = _
    unfold refreshOrOpenLoop
    by_cases hs : env.absoluteFilePath q.widget.filePath = env.absoluteFilePath filePath
    · obtain ⟨hset, hcur⟩ := currentTab_setCurrentIndex w done.length q hg
      have hr : refresh q.widget = false := by
        cases hb : refresh q.widget with
        | false => rfl
        | true => exact absurd ⟨hs, hb⟩ hq
      rw [if_pos hs, hset]
      simp only [hcur, hr]
      have h1 := ih (done ++ [q]) tabPage post { w with currentIndex := (done.length : Int) }
        (by show w.tabs = _; rw [hw]; simp) hpre1 hp
      rw [hsum, hlen] at h1
      exact h1
    · rw [if_neg hs]
      have h1 := ih (done ++ [q]) tabPage post w (by rw [hw]; simp) hpre1 hp
      rw [hsum, hlen] at h1
      exact h1

/-- The tab made current by `refreshedWindow` is the tab at the index, sent to
the page. -/
theorem refreshedWindow_currentTab (w : MainWindow) (i : Nat) (page : Int) (tabPage : TabPage)
    (h : w.tabs.get? i = some tabPage) :
    (refreshedWindow w i page).currentTab = some (tabPage.widget.jumpToPage page) := by
  show (if 0 ≤ (i : Int) then
      ((w.tabs.modify (fun t => { t with widget := t.widget.jumpToPage page }) i).get?
        (i : Int).toNat).map TabPage.widget
    else none) = _
  rw [if_pos (by omega), Int.toNat_ofNat, get?_modify_same, h]
  rfl

/-- C23: `refreshOrOpenInNewTab(path, page)`. If some open tab shows the same
absolute file path and refreshes, there is a first such tab, the call returns
true, that tab is the current tab afterwards and has jumped to the page, and
the number of tabs is unchanged. If no open tab shows that absolute path, the
call returns what `openInNewTab(path, page)` returns and leaves the window
that `openInNewTab(path, page)` leaves. -/
theorem refreshOrOpenInNewTab_spec (env : Env) (refresh : DocumentView → Bool) (w : MainWindow)
    (filePath : String) (page : Int) :
    ((∃ q ∈ w.tabs, refreshes env refresh filePath q) →
      ∃ (i : Nat) (tabPage : TabPage) (w1 : MainWindow),
        w.tabs.get? i = some tabPage ∧ refreshes env refresh filePath tabPage ∧
        (∀ q ∈ w.tabs.take i, ¬ refreshes env refresh filePath q) ∧
        refreshOrOpenInNewTab env refresh w filePath page = some (w1, true) ∧
        w1.currentIndex = (i : Int) ∧
        w1.currentTab = some (tabPage.widget.jumpToPage page) ∧
        w1.tabs.length = w.tabs.length) ∧
    ((∀ q ∈ w.tabs, ¬ samePath env q.widget.filePath filePath) →
      refreshOrOpenInNewTab env refresh w filePath page
        = some (openInNewTab env w filePath page)) := by
  constructor
  · intro h
    obtain ⟨i, tabPage, hg, hp, hfirst⟩ := exists_first _ w.tabs h
    obtain ⟨hsplit, hlen⟩ := split_at_get? w.tabs i tabPage hg
    have hloop := refreshOrOpenLoop_found env refresh filePath page (w.tabs.take i) []
      tabPage (w.tabs.drop (i + 1)) w (by rw [List.nil_append]; exact hsplit) hfirst hp
    rw [← hsplit, hlen] at hloop
    refine ⟨i, tabPage, refreshedWindow w i page, hg, hp, hfirst, ?_, rfl,
      refreshedWindow_currentTab w i page tabPage hg, ?_⟩
    · unfold refreshOrOpenInNewTab
      have h0 : ([] : List TabPage).length + i = i := by simp
      rw [h0] at hloop
      show (match refreshOrOpenLoop env refresh filePath page 0 w.tabs w with
        | some (w1, true) => some (w1, true)
        | some (w1, false) => some (openInNewTab env w1 filePath page)
        | none => none) = _
      have hloop0 : refreshOrOpenLoop env refresh filePath page 0 w.tabs w
          = some (refreshedWindow w i page, true) := hloop
      rw [hloop0]
    · simp [refreshedWindow]
  · intro h
    unfold refreshOrOpenInNewTab
    rw [refreshOrOpenLoop_no_match env refresh filePath page w.tabs 0 w h]

/-- C23 at the window `twoTabs`: `a.pdf` is open in the first tab, which
refreshes, and `/z.pdf` is open in no tab. -/
theorem refreshOrOpenInNewTab_spec_witness :
    ((∃ q ∈ twoTabs.tabs, refreshes sampleEnv (fun _ => true) "a.pdf" q) ∧
      ∃ (i : Nat) (tabPage : TabPage) (w1 : MainWindow),
        twoTabs.tabs.get? i = some tabPage ∧
        refreshes sampleEnv (fun _ => true) "a.pdf" tabPage ∧
        (∀ q ∈ twoTabs.tabs.take i, ¬ refreshes sampleEnv (fun _ => true) "a.pdf" q) ∧
        refreshOrOpenInNewTab sampleEnv (fun _ => true) twoTabs "a.pdf" 3 = some (w1, true) ∧
        w1.currentIndex = (i : Int) ∧
        w1.currentTab = some (tabPage.widget.jumpToPage 3) ∧
        w1.tabs.length = twoTabs.tabs.length) ∧
    ((∀ q ∈ twoTabs.tabs, ¬ samePath sampleEnv q.widget.filePath "/z.pdf") ∧
      refreshOrOpenInNewTab sampleEnv (fun _ => true) twoTabs "/z.pdf" 3
        = some (openInNewTab sampleEnv twoTabs "/z.pdf" 3)) :=
  ⟨⟨by decide,
      (refreshOrOpenInNewTab_spec sampleEnv (fun _ => true) twoTabs "a.pdf" 3).1 (by decide)⟩,
    ⟨by decide,
      (refreshOrOpenInNewTab_spec sampleEnv (fun _ => true) twoTabs "/z.pdf" 3).2 (by decide)⟩⟩

/-! ## Properties of the tab slots -/

/-- Next-tab on a window whose current index is the index of a tab. -/
theorem on_nextTab_triggered_eq (w : MainWindow) (h0 : 0 ≤ w.currentIndex)
    (h1 : w.currentIndex < w.count) :
    on_nextTab_triggered w = { w with currentIndex := (w.currentIndex + 1) % w.count } := by
  unfold on_nextTab_triggered
  by_cases h : w.currentIndex < w.count - 1
  · rw [if_pos h, setCurrentIndex_valid w _ (by omega) (by omega),
      Int.emod_eq_of_lt (by omega) (by omega)]
  · have hn : w.currentIndex + 1 = w.count := by omega
    rw [if_neg h, setCurrentIndex_valid w 0 (le_refl 0) (by omega), hn, Int.emod_self]

/-- Previous-tab on a window whose current index is the index of a tab. -/
theorem on_previousTab_triggered_eq (w : MainWindow) (h0 : 0 ≤ w.currentIndex)
    (h1 : w.currentIndex < w.count) :
    on_previousTab_triggered w
      = { w with currentIndex := (w.currentIndex - 1 + w.count) % w.count } := by
  unfold on_previousTab_triggered
  by_cases h : w.currentIndex > 0
  · rw [if_pos h, setCurrentIndex_valid w _ (by omega) (by omega), Int.add_emod_self,
      Int.emod_eq_of_lt (by omega) (by omega)]
  · have hn : w.currentIndex = 0 := by omega
    rw [if_neg h, setCurrentIndex_valid w _ (by omega) (by omega), hn]
    have e : (0 : Int) - 1 + w.count = w.count - 1 := by ring
    rw [e, Int.emod_eq_of_lt (by omega) (by omega)]

/-- Next-tab applied `k` times moves the current index `k` places on, modulo
the number of tabs. -/
theorem on_nextTab_triggered_iterate (w : MainWindow) (h0 : 0 ≤ w.currentIndex)
    (h1 : w.currentIndex < w.count) (k : Nat) :
    on_nextTab_triggered^[k] w
      = { w with currentIndex := (w.currentIndex + (k : Int)) % w.count } := by
  have hn : 0 < w.count := by omega
  induction k with
  | zero =>
    show w = _
    rw [Nat.cast_zero, add_zero, Int.emod_eq_of_lt h0 h1]
  | succ k ih =>
    rw [Function.iterate_succ_apply', ih]
    have hc : MainWindow.count { w with currentIndex := (w.currentIndex + (k : Int)) % w.count }
        = w.count := rfl
    rw [on_nextTab_triggered_eq _ (Int.emod_nonneg _ (by omega))
      (by rw [hc]; exact Int.emod_lt_of_pos _ hn)]
    show ({ w with currentIndex := ((w.currentIndex + (k : Int)) % w.count + 1) % w.count }
      : MainWindow) = _
    rw [Int.emod_add_emod, Nat.cast_succ, add_assoc]

/-- C24: tab cycling wraps and is invertible. On a window with `n` tabs whose
current index `i` satisfies `0 ≤ i < n`, next-tab selects `(i + 1) mod n` and
previous-tab selects `(i - 1 + n) mod n`, both indices of tabs; next-tab
followed by previous-tab, and previous-tab followed by next-tab, give the
window back; and so do `n` applications of next-tab. -/
theorem tab_cycling (w : MainWindow) (h0 : 0 ≤ w.currentIndex) (h1 : w.currentIndex < w.count) :
    (on_nextTab_triggered w).currentIndex = (w.currentIndex + 1) % w.count ∧
    (on_previousTab_triggered w).currentIndex = (w.currentIndex - 1 + w.count) % w.count ∧
    (0 ≤ (on_nextTab_triggered w).currentIndex ∧
      (on_nextTab_triggered w).currentIndex < w.count) ∧
    (0 ≤ (on_previousTab_triggered w).currentIndex ∧
      (on_previousTab_triggered w).currentIndex < w.count) ∧
    on_previousTab_triggered (on_nextTab_triggered w) = w ∧
    on_nextTab_triggered (on_previousTab_triggered w) = w ∧
    on_nextTab_triggered^[w.tabs.length] w = w := by
  have hn : 0 < w.count := by omega
  have hnext := on_nextTab_triggered_eq w h0 h1
  have hprev := on_previousTab_triggered_eq w h0 h1
  have hnext0 : 0 ≤ (w.currentIndex + 1) % w.count := Int.emod_nonneg _ (by omega)
  have hnext1 : (w.currentIndex + 1) % w.count < w.count := Int.emod_lt_of_pos _ hn
  have hprev0 : 0 ≤ (w.currentIndex - 1 + w.count) % w.count := Int.emod_nonneg _ (by omega)
  have hprev1 : (w.currentIndex - 1 + w.count) % w.count < w.count := Int.emod_lt_of_pos _ hn
  refine ⟨by rw [hnext], by rw [hprev], by rw [hnext]; exact ⟨hnext0, hnext1⟩,
    by rw [hprev]; exact ⟨hprev0, hprev1⟩, ?_, ?_, ?_⟩
  · rw [hnext, on_previousTab_triggered_eq _ hnext0 hnext1]
    show ({ w with
      currentIndex := ((w.currentIndex + 1) % w.count - 1 + w.count) % w.count } : MainWindow) = w
    have e : ((w.currentIndex + 1) % w.count - 1 + w.count) % w.count = w.currentIndex := by
      rw [Int.add_emod_self, sub_eq_add_neg, Int.emod_add_emod, add_neg_cancel_right,
        Int.emod_eq_of_lt h0 h1]
    rw [e]
  · rw [hprev, on_nextTab_triggered_eq _ hprev0 hprev1]
    show ({ w with
      currentIndex := ((w.currentIndex - 1 + w.count) % w.count + 1) % w.count } : MainWindow) = w
    have e : ((w.currentIndex - 1 + w.count) % w.count + 1) % w.count = w.currentIndex := by
      rw [Int.emod_add_emod,
        show w.currentIndex - 1 + w.count + 1 = w.currentIndex + w.count by ring,
        Int.add_emod_self, Int.emod_eq_of_lt h0 h1]
    rw [e]
  · rw [on_nextTab_triggered_iterate w h0 h1]
    show ({ w with currentIndex := (w.currentIndex + w.count) % w.count } : MainWindow) = w
    rw [Int.add_emod_self, Int.emod_eq_of_lt h0 h1]

/-- C24 at the window `twoTabs`, whose second tab is current. -/
theorem tab_cycling_witness :
    (0 ≤ twoTabs.currentIndex ∧ twoTabs.currentIndex < twoTabs.count) ∧
    (on_nextTab_triggered twoTabs).currentIndex = (twoTabs.currentIndex + 1) % twoTabs.count ∧
    (on_previousTab_triggered twoTabs).currentIndex
      = (twoTabs.currentIndex - 1 + twoTabs.count) % twoTabs.count ∧
    (0 ≤ (on_nextTab_triggered twoTabs).currentIndex ∧
      (on_nextTab_triggered twoTabs).currentIndex < twoTabs.count) ∧
    (0 ≤ (on_previousTab_triggered twoTabs).currentIndex ∧
      (on_previousTab_triggered twoTabs).currentIndex < twoTabs.count) ∧
    on_previousTab_triggered (on_nextTab_triggered twoTabs) = twoTabs ∧
    on_nextTab_triggered (on_previousTab_triggered twoTabs) = twoTabs ∧
    on_nextTab_triggered^[twoTabs.tabs.length] twoTabs = twoTabs :=
  ⟨by decide, tab_cycling twoTabs (by decide) (by decide)⟩

/-! ## Properties of the slots of the view signals -/

/-- The scale-factor slot, run for the current tab `v`: the text of the scale
box is set while `v` scales by its factor. -/
theorem on_currentTab_scaleFactorChanged_eq (w : MainWindow) (ui : Widgets) (sender : Sender)
    (scaleFactor : qreal) (v : DocumentView) (hs : senderIsCurrentTab w sender = true)
    (hv : w.currentTab = some v) :
    on_currentTab_scaleFactorChanged w ui sender scaleFactor
      = some (if v.scaleMode = ScaleMode.ScaleFactor then
          { ui with
            scaleFactorLineEdit := numberInt (qRound (toDouble (scaleFactor * 100))) ++ " %" }
        else ui) := by
  unfold on_currentTab_scaleFactorChanged
  rw [if_pos hs, hv]
  by_cases h : v.scaleMode = ScaleMode.ScaleFactor
  · simp only [h, if_true]
  · simp only [h, if_false]

/-- The scale-mode slot, run for the current tab `v` with the mode of scaling
by the factor. -/
theorem on_currentTab_scaleModeChanged_factor (w : MainWindow) (ui : Widgets) (sender : Sender)
    (v : DocumentView) (hs : senderIsCurrentTab w sender = true) (hv : w.currentTab = some v) :
    on_currentTab_scaleModeChanged w ui sender ScaleMode.ScaleFactor
      = on_currentTab_scaleFactorChanged w
          (Widgets.setScaleFactorIndex
            { ui with fitToPageWidthAction := false, fitToPageSizeAction := false } (-1))
          sender v.scaleFactor := by
  unfold on_currentTab_scaleModeChanged
  rw [if_pos hs, if_pos rfl, hv]

/-- The scale-mode slot, run with the mode of fitting the page width. -/
theorem on_currentTab_scaleModeChanged_width (w : MainWindow) (ui : Widgets) (sender : Sender)
    (hs : senderIsCurrentTab w sender = true) :
    on_currentTab_scaleModeChanged w ui sender ScaleMode.FitToPageWidth
      = some (Widgets.setScaleFactorIndex
          { ui with fitToPageWidthAction := true, fitToPageSizeAction := false } 0) := by
  unfold on_currentTab_scaleModeChanged
  rw [if_pos hs, if_neg (by decide), if_pos rfl]

/-- The scale-mode slot, run with the mode of fitting the whole page. -/
theorem on_currentTab_scaleModeChanged_size (w : MainWindow) (ui : Widgets) (sender : Sender)
    (hs : senderIsCurrentTab w sender = true) :
    on_currentTab_scaleModeChanged w ui sender ScaleMode.FitToPageSize
      = some (Widgets.setScaleFactorIndex
          { ui with fitToPageWidthAction := false, fitToPageSizeAction := true } 1) := by
  unfold on_currentTab_scaleModeChanged
  rw [if_pos hs, if_neg (by decide), if_neg (by decide), if_pos rfl]

/-- The current index of the tab widget when there is a current tab. -/
theorem currentIndex_of_currentTab (w : MainWindow) (v : DocumentView)
    (h : w.currentTab = some v) : 0 ≤ w.currentIndex := by
  unfold MainWindow.currentTab MainWindow.tab at h
  by_contra h0
  rw [if_neg h0] at h
  cases h

/-- Storing in the current tab the scale mode it has leaves the window as it
is. -/
theorem onCurrentTab_setScaleMode_same (w : MainWindow) (v : DocumentView)
    (h : w.currentTab = some v) :
    w.onCurrentTab (fun t => t.setScaleMode v.scaleMode) = some w := by
  have h0 := currentIndex_of_currentTab w v h
  unfold MainWindow.onCurrentTab
  rw [h]
  unfold MainWindow.currentTab MainWindow.tab at h
  rw [if_pos h0] at h
  have hm : ∀ (l : List TabPage) (n : Nat),
      (l.get? n).map TabPage.widget = some v →
      l.modify (fun t => { t with widget := t.widget.setScaleMode v.scaleMode }) n = l := by
    intro l
    induction l with
    | nil => intro n _; cases n <;> rfl
    | cons x xs ih =>
      intro n hn
      cases n with
      | zero =>
        have hx : x.widget = v := Option.some.inj hn
        show { x with widget := x.widget.setScaleMode v.scaleMode } :: xs = x :: xs
        have hx1 : ({ x with widget := x.widget.setScaleMode v.scaleMode } : TabPage) = x := by
          cases x with
          | mk widget text toolTip =>
            have hw : widget = v := hx
            subst hw
            rfl
        rw [hx1]
      | succ n =>
        show x :: xs.modify _ n = x :: xs
        rw [ih n hn]
  show some { w with tabs := _ } = some w
  rw [hm w.tabs _ h]

/-- C26: the scale-mode widgets stay consistent. After
`on_currentTab_scaleModeChanged` has handled one of the three scale modes for
the current tab, the fit-to-page-width action is checked exactly when the mode
is fit-to-width and the fit-to-page-size action exactly when it is fit-to-page,
never both, and the index of the scale box is 0 for fit-to-width and 1 for
fit-to-page. Conversely, selecting index 0 or 1 of the scale box sets on the
current tab the mode for which the slot, run for that tab, sets the scale box
to that index: fit-to-width for 0 and fit-to-page for 1. -/
theorem scaleMode_widgets_consistent (w : MainWindow) (ui : Widgets) (sender : Sender)
    (scaleMode : ScaleMode) (v : DocumentView) (hv : w.currentTab = some v)
    (hs : sender = Sender.other ∨ sender = Sender.view v.object)
    (hm : scaleMode.value ≤ 2) :
    (∃ ui1, on_currentTab_scaleModeChanged w ui sender scaleMode = some ui1 ∧
      (ui1.fitToPageWidthAction = true ↔ scaleMode = ScaleMode.FitToPageWidth) ∧
      (ui1.fitToPageSizeAction = true ↔ scaleMode = ScaleMode.FitToPageSize) ∧
      ¬ (ui1.fitToPageWidthAction = true ∧ ui1.fitToPageSizeAction = true) ∧
      (scaleMode = ScaleMode.FitToPageWidth → ui1.scaleFactorComboBox = 0) ∧
      (scaleMode = ScaleMode.FitToPageSize → ui1.scaleFactorComboBox = 1)) ∧
    (∀ index : Int, index = 0 ∨ index = 1 →
      ∃ w1 v1 ui2, on_scaleFactor_currentIndexChanged w index = some w1 ∧
        w1.currentTab = some v1 ∧
        v1 = v.setScaleMode
          (if index = 0 then ScaleMode.FitToPageWidth else ScaleMode.FitToPageSize) ∧
        on_currentTab_scaleModeChanged w1 ui (Sender.view v1.object) v1.scaleMode = some ui2 ∧
        ui2.scaleFactorComboBox = index) := by
  have hsend : senderIsCurrentTab w sender = true := by
    rcases hs with e | e
    · rw [e]
      rfl
    · rw [e]
      exact senderIsCurrentTab_current w v hv
  have hcases : scaleMode = ScaleMode.ScaleFactor ∨ scaleMode = ScaleMode.FitToPageWidth ∨
      scaleMode = ScaleMode.FitToPageSize := by
    cases scaleMode with
    | mk value =>
      have hval : value ≤ 2 := hm
      have h3 : value = 0 ∨ value = 1 ∨ value = 2 := by omega
      rcases h3 with e | e | e
      · exact Or.inl (by rw [e]; rfl)
      · exact Or.inr (Or.inl (by rw [e]; rfl))
      · exact Or.inr (Or.inr (by rw [e]; rfl))
  constructor
  · rcases hcases with e | e | e
    · subst e
      rw [on_currentTab_scaleModeChanged_factor w ui sender v hsend hv,
        on_currentTab_scaleFactorChanged_eq w _ sender _ v hsend hv]
      refine ⟨_, rfl, ?_⟩
      by_cases hv0 : v.scaleMode = ScaleMode.ScaleFactor
      · rw [if_pos hv0]
        exact ⟨⟨fun h => Bool.noConfusion (show false = true from h),
            fun h => absurd h (by decide)⟩,
          ⟨fun h => Bool.noConfusion (show false = true from h), fun h => absurd h (by decide)⟩,
          fun h => Bool.noConfusion (show false = true from h.1),
          fun h => absurd h (by decide), fun h => absurd h (by decide)⟩
      · rw [if_neg hv0]
        exact ⟨⟨fun h => Bool.noConfusion (show false = true from h),
            fun h => absurd h (by decide)⟩,
          ⟨fun h => Bool.noConfusion (show false = true from h), fun h => absurd h (by decide)⟩,
          fun h => Bool.noConfusion (show false = true from h.1),
          fun h => absurd h (by decide), fun h => absurd h (by decide)⟩
    · subst e
      rw [on_currentTab_scaleModeChanged_width w ui sender hsend]
      exact ⟨_, rfl, ⟨fun _ => rfl, fun _ => rfl⟩,
        ⟨fun h => Bool.noConfusion (show false = true from h), fun h => absurd h (by decide)⟩,
        fun h => Bool.noConfusion (show false = true from h.2),
        fun _ => rfl, fun h => absurd h (by decide)⟩
    · subst e
      rw [on_currentTab_scaleModeChanged_size w ui sender hsend]
      exact ⟨_, rfl,
        ⟨fun h => Bool.noConfusion (show false = true from h), fun h => absurd h (by decide)⟩,
        ⟨fun _ => rfl, fun _ => rfl⟩,
        fun h => Bool.noConfusion (show false = true from h.1),
        fun h => absurd h (by decide), fun _ => rfl⟩
  · intro index hindex
    have h0 := currentIndex_of_currentTab w v hv
    have hne : w.currentIndex ≠ -1 := by omega
    rcases hindex with e | e
    · subst e
      obtain ⟨w1, hw1, hc1, _, _⟩ :=
        onCurrentTab_of_currentTab w v (fun t => t.setScaleMode ScaleMode.FitToPageWidth) hv
      refine ⟨w1, v.setScaleMode ScaleMode.FitToPageWidth,
        Widgets.setScaleFactorIndex
          { ui with fitToPageWidthAction := true, fitToPageSizeAction := false } 0,
        ?_, hc1, rfl, ?_, ?_⟩
      · unfold on_scaleFactor_currentIndexChanged
        rw [if_pos hne, if_pos rfl]
        exact hw1
      · exact on_currentTab_scaleModeChanged_width w1 ui _
          (senderIsCurrentTab_current w1 _ hc1)
      · rfl
    · subst e
      obtain ⟨w1, hw1, hc1, _, _⟩ :=
        onCurrentTab_of_currentTab w v (fun t => t.setScaleMode ScaleMode.FitToPageSize) hv
      refine ⟨w1, v.setScaleMode ScaleMode.FitToPageSize,
        Widgets.setScaleFactorIndex
          { ui with fitToPageWidthAction := false, fitToPageSizeAction := true } 1,
        ?_, hc1, rfl, ?_, ?_⟩
      · unfold on_scaleFactor_currentIndexChanged
        rw [if_pos hne, if_neg (by decide), if_pos rfl]
        exact hw1
      · exact on_currentTab_scaleModeChanged_size w1 ui _
          (senderIsCurrentTab_current w1 _ hc1)
      · rfl

/-- C26 at the window `twoTabs`, the slot run for its current tab with the mode
of fitting the page width. -/
theorem scaleMode_widgets_consistent_witness :
    (twoTabs.currentTab = some
        { object := 1, filePath := "/b.pdf", currentPage := 7, continousMode := false,
          twoPagesMode := true, scaleMode := ScaleMode.ScaleFactor, scaleFactor := 2,
          rotation := { value := 0 } } ∧
      (Sender.view 1 = Sender.other ∨ Sender.view 1 = Sender.view 1) ∧
      ScaleMode.FitToPageWidth.value ≤ 2) ∧
    ∃ ui1, on_currentTab_scaleModeChanged twoTabs sampleWidgets (Sender.view 1)
        ScaleMode.FitToPageWidth = some ui1 ∧
      (ui1.fitToPageWidthAction = true ↔ ScaleMode.FitToPageWidth = ScaleMode.FitToPageWidth) ∧
      (ui1.fitToPageSizeAction = true ↔ ScaleMode.FitToPageWidth = ScaleMode.FitToPageSize) ∧
      ¬ (ui1.fitToPageWidthAction = true ∧ ui1.fitToPageSizeAction = true) ∧
      (ScaleMode.FitToPageWidth = ScaleMode.FitToPageWidth → ui1.scaleFactorComboBox = 0) ∧
      (ScaleMode.FitToPageWidth = ScaleMode.FitToPageSize → ui1.scaleFactorComboBox = 1) :=
  ⟨⟨by decide, Or.inr rfl, by decide⟩,
    (scaleMode_widgets_consistent twoTabs sampleWidgets (Sender.view 1) ScaleMode.FitToPageWidth
      { object := 1, filePath := "/b.pdf", currentPage := 7, continousMode := false,
        twoPagesMode := true, scaleMode := ScaleMode.ScaleFactor, scaleFactor := 2,
        rotation := { value := 0 } }
      (by decide) (Or.inr rfl) (by decide)).1⟩

/-- The slot that the scale box runs when the scale-mode slot has changed its
index finds nothing to change: when the current tab is in the mode handed to
the scale-mode slot, one of the three enumerators, the slot of the index which
the scale-mode slot sets leaves the window as it is. For the two fit modes it
stores the mode the tab has; for the fixed factor the index is -1, which is the
index of no item. -/
theorem on_scaleFactor_currentIndexChanged_stable (w : MainWindow) (ui ui1 : Widgets)
    (sender : Sender) (v : DocumentView) (hv : w.currentTab = some v)
    (hm : v.scaleMode.value ≤ 2) (hs : senderIsCurrentTab w sender = true)
    (h : on_currentTab_scaleModeChanged w ui sender v.scaleMode = some ui1) :
    on_scaleFactor_currentIndexChanged w ui1.scaleFactorComboBox = some w := by
  have h0 := currentIndex_of_currentTab w v hv
  have hne : w.currentIndex ≠ -1 := by omega
  have hsame := onCurrentTab_setScaleMode_same w v hv
  have hcases : v.scaleMode = ScaleMode.ScaleFactor ∨ v.scaleMode = ScaleMode.FitToPageWidth ∨
      v.scaleMode = ScaleMode.FitToPageSize := by
    cases hsm : v.scaleMode with
    | mk value =>
      rw [hsm] at hm
      have hval : value ≤ 2 := hm
      have h3 : value = 0 ∨ value = 1 ∨ value = 2 := by omega
      rcases h3 with e | e | e
      · exact Or.inl (by rw [e]; rfl)
      · exact Or.inr (Or.inl (by rw [e]; rfl))
      · exact Or.inr (Or.inr (by rw [e]; rfl))
  rcases hcases with e | e | e
  · rw [e] at h
    rw [on_currentTab_scaleModeChanged_factor w ui sender v hs hv,
      on_currentTab_scaleFactorChanged_eq w _ sender _ v hs hv, if_pos e] at h
    have hi : ui1.scaleFactorComboBox = -1 := by
      rw [← Option.some.inj h]
      rfl
    unfold on_scaleFactor_currentIndexChanged
    rw [if_pos hne, hi, if_neg (by decide), if_neg (by decide)]
    rfl
  · rw [e] at h hsame
    rw [on_currentTab_scaleModeChanged_width w ui sender hs] at h
    have hi : ui1.scaleFactorComboBox = 0 := by
      rw [← Option.some.inj h]
      rfl
    unfold on_scaleFactor_currentIndexChanged
    rw [if_pos hne, hi, if_pos rfl]
    exact hsame
  · rw [e] at h hsame
    rw [on_currentTab_scaleModeChanged_size w ui sender hs] at h
    have hi : ui1.scaleFactorComboBox = 1 := by
      rw [← Option.some.inj h]
      rfl
    unfold on_scaleFactor_currentIndexChanged
    rw [if_pos hne, hi, if_neg (by decide), if_pos rfl]
    exact hsame

/-! ## Properties of the slot of the current tab and of close-all-tabs -/

/-- A run of `setEnabled(b)` calls over a list of controls gives the controls
of the list the flag and leaves the others as they are. -/
theorem foldl_setEnabled (l : List Control) (b : Bool) (c : Control) :
    ∀ ui : Widgets, (l.foldl (fun ui x => ui.setEnabled x b) ui).enabled c
      = if c ∈ l then b else ui.enabled c := by
  induction l with
  | nil => intro ui; rfl
  | cons x xs ih =>
    intro ui
    show (xs.foldl (fun ui x => ui.setEnabled x b) (ui.setEnabled x b)).enabled c = _
    rw [ih]
    by_cases hc : c ∈ xs
    · rw [if_pos hc, if_pos (List.mem_cons_of_mem _ hc)]
    · rw [if_neg hc]
      show (if c = x then b else ui.enabled c) = _
      by_cases hx : c = x
      · rw [if_pos hx, if_pos (by rw [hx]; exact List.mem_cons_self _ _)]
      · rw [if_neg hx, if_neg (fun hm => by
          rcases List.mem_cons.mp hm with e | e
          · exact hx e
          · exact hc e)]

/-- The controls that `on_tabWidget_currentChanged` enables or disables are the
controls that the claim lists. -/
theorem mem_currentTabControls (c : Control) :
    c ∈ currentTabControls ↔ c.usesCurrentTab = true := by
  cases c <;> simp [currentTabControls, Control.usesCurrentTab]

/-- The `setEnabled` calls of `on_tabWidget_currentChanged` give every control
the claim lists the flag, and leave the other controls as they are. -/
theorem setCurrentTabControlsEnabled_enabled (ui : Widgets) (b : Bool) (c : Control) :
    (setCurrentTabControlsEnabled ui b).enabled c
      = if c.usesCurrentTab = true then b else ui.enabled c := by
  unfold setCurrentTabControlsEnabled
  rw [foldl_setEnabled]
  by_cases h : c ∈ currentTabControls
  · rw [if_pos h, if_pos ((mem_currentTabControls c).mp h)]
  · rw [if_neg h, if_neg (fun hu => h ((mem_currentTabControls c).mpr hu))]

/-- The file-path loop leaves the widgets of the tabs and the current index as
they are. -/
theorem filePathChangedLoop_currentTab (env : Env) (sender : Sender) (filePath : String)
    (rest : List TabPage) :
    ∀ (index : Nat) (w : MainWindow),
      (filePathChangedLoop env sender filePath index rest w).currentTab = w.currentTab := by
  induction rest with
  | nil => intro index w; rfl
  | cons tabPage rest ih =>
    intro index w
    unfold filePathChangedLoop
    by_cases h : sender = Sender.view tabPage.widget.object
    · rw [if_pos h]
      have hmod2 : ∀ (f : TabPage → TabPage) (l : List TabPage) (n m : Nat),
          (∀ t, (f t).widget = t.widget) →
          ((l.modify f n).get? m).map TabPage.widget = (l.get? m).map TabPage.widget := by
        intro f l
        induction l with
        | nil => intro n m _; cases n <;> rfl
        | cons x xs ihl =>
          intro n m hf
          cases n with
          | zero =>
            cases m with
            | zero => exact congrArg some (hf x)
            | succ m => rfl
          | succ n =>
            cases m with
            | zero => rfl
            | succ m => exact ihl n m hf
      unfold MainWindow.currentTab MainWindow.tab MainWindow.setTabToolTip MainWindow.setTabText
      by_cases h0 : 0 ≤ w.currentIndex
      · simp only [if_pos h0]
        rw [hmod2 (fun t => { t with toolTip := env.absoluteFilePath filePath }) _ _ _
            (fun _ => rfl),
          hmod2 (fun t => { t with text := env.completeBaseName filePath }) _ _ _
            (fun _ => rfl)]
      · simp only [if_neg h0]
    · rw [if_neg h]
      exact ih (index + 1) w

/-- The window that the file-path slot leaves is the window that its loop
leaves. -/
theorem on_currentTab_filePathChanged_window (env : Env) (w : MainWindow) (ui : Widgets)
    (sender : Sender) (filePath : String) :
    (on_currentTab_filePathChanged env w ui sender filePath).1
      = filePathChangedLoop env sender filePath 0 w.tabs w := by
  unfold on_currentTab_filePathChanged
  by_cases h : senderIsCurrentTab (filePathChangedLoop env sender filePath 0 w.tabs w) sender
      = true
  · simp only [h, if_true]
  · simp only [h]
    rfl

/-- The loop of the file-path slot finds no tab when the sender is no view. -/
theorem filePathChangedLoop_other (env : Env) (filePath : String) (rest : List TabPage) :
    ∀ (index : Nat) (w : MainWindow),
      filePathChangedLoop env Sender.other filePath index rest w = w := by
  induction rest with
  | nil => intro index w; rfl
  | cons tabPage rest ih =>
    intro index w
    unfold filePathChangedLoop
    rw [if_neg (fun e => Sender.noConfusion e)]
    exact ih (index + 1) w

/-- The file-path slot leaves the current tab as it is. -/
theorem on_currentTab_filePathChanged_currentTab (env : Env) (w : MainWindow) (ui : Widgets)
    (sender : Sender) (filePath : String) :
    (on_currentTab_filePathChanged env w ui sender filePath).1.currentTab = w.currentTab := by
  unfold on_currentTab_filePathChanged
  by_cases h : senderIsCurrentTab (filePathChangedLoop env sender filePath 0 w.tabs w) sender
      = true
  · simp only [h, if_true]
    exact filePathChangedLoop_currentTab env sender filePath w.tabs 0 w
  · simp only [h]
    exact filePathChangedLoop_currentTab env sender filePath w.tabs 0 w

/-- The file-path slot leaves the enabled flags of the controls as they are. -/
theorem on_currentTab_filePathChanged_enabled (env : Env) (w : MainWindow) (ui : Widgets)
    (sender : Sender) (filePath : String) :
    (on_currentTab_filePathChanged env w ui sender filePath).2.enabled = ui.enabled := by
  unfold on_currentTab_filePathChanged
  by_cases h : senderIsCurrentTab (filePathChangedLoop env sender filePath 0 w.tabs w) sender
      = true
  · simp only [h, if_true]
  · simp only [h]
    rfl

/-- The scale-factor slot leaves the enabled flags of the controls as they
are. -/
theorem on_currentTab_scaleFactorChanged_enabled (w : MainWindow) (ui ui1 : Widgets)
    (sender : Sender) (scaleFactor : qreal)
    (h : on_currentTab_scaleFactorChanged w ui sender scaleFactor = some ui1) :
    ui1.enabled = ui.enabled := by
  unfold on_currentTab_scaleFactorChanged at h
  by_cases hs : senderIsCurrentTab w sender = true
  · rw [if_pos hs] at h
    cases hv : w.currentTab with
    | none =>
      rw [hv] at h
      cases h
    | some v =>
      rw [hv] at h
      by_cases hm : v.scaleMode = ScaleMode.ScaleFactor
      · simp only [hm, if_true] at h
        rw [← Option.some.inj h]
      · simp only [hm, if_false] at h
        rw [← Option.some.inj h]
  · rw [if_neg hs] at h
    rw [← Option.some.inj h]

/-- Setting the index of the scale box leaves the enabled flags as they are. -/
theorem setScaleFactorIndex_enabled (ui : Widgets) (index : Int) :
    (ui.setScaleFactorIndex index).enabled = ui.enabled := by
  unfold Widgets.setScaleFactorIndex
  cases scaleFactorItem index with
  | none => rfl
  | some item => rfl

/-- The scale-mode slot leaves the enabled flags of the controls as they are. -/
theorem on_currentTab_scaleModeChanged_enabled (w : MainWindow) (ui ui1 : Widgets)
    (sender : Sender) (scaleMode : ScaleMode)
    (h : on_currentTab_scaleModeChanged w ui sender scaleMode = some ui1) :
    ui1.enabled = ui.enabled := by
  unfold on_currentTab_scaleModeChanged at h
  by_cases hs : senderIsCurrentTab w sender = true
  · rw [if_pos hs] at h
    by_cases h0 : scaleMode = ScaleMode.ScaleFactor
    · rw [if_pos h0] at h
      cases hv : w.currentTab with
      | none =>
        rw [hv] at h
        cases h
      | some v =>
        rw [hv] at h
        rw [on_currentTab_scaleFactorChanged_enabled w _ ui1 sender _ h,
          setScaleFactorIndex_enabled]
    · rw [if_neg h0] at h
      by_cases h1 : scaleMode = ScaleMode.FitToPageWidth
      · rw [if_pos h1] at h
        rw [← Option.some.inj h, setScaleFactorIndex_enabled]
      · rw [if_neg h1] at h
        by_cases h2 : scaleMode = ScaleMode.FitToPageSize
        · rw [if_pos h2] at h
          rw [← Option.some.inj h, setScaleFactorIndex_enabled]
        · rw [if_neg h2] at h
          rw [← Option.some.inj h]
  · rw [if_neg hs] at h
    rw [← Option.some.inj h]

/-- The current-page slot leaves the enabled flags of the controls as they
are. -/
theorem on_currentTab_currentPageChanged_enabled (w : MainWindow) (ui ui1 : Widgets)
    (sender : Sender) (currentPage : Int)
    (h : on_currentTab_currentPageChanged w ui sender currentPage = some ui1) :
    ui1.enabled = ui.enabled := by
  unfold on_currentTab_currentPageChanged at h
  by_cases hs : senderIsCurrentTab w sender = true
  · rw [if_pos hs] at h
    cases hv : w.currentTab with
    | none =>
      rw [hv] at h
      cases h
    | some v =>
      rw [hv] at h
      rw [← Option.some.inj h]
  · rw [if_neg hs] at h
    rw [← Option.some.inj h]

/-- The slots that cannot fail leave the enabled flags of the controls as they
are. -/
theorem total_slots_enabled (w : MainWindow) (ui : Widgets) (sender : Sender) (n : Int)
    (b : Bool) :
    (on_currentTab_numberOfPagesChaned w ui sender n).enabled = ui.enabled ∧
    (on_currentTab_continuousModeChanged w ui sender b).enabled = ui.enabled ∧
    (on_currentTab_twoPagesModeChanged w ui sender b).enabled = ui.enabled ∧
    (on_currentTab_highlightAllChanged w ui sender b).enabled = ui.enabled := by
  unfold on_currentTab_numberOfPagesChaned on_currentTab_continuousModeChanged
    on_currentTab_twoPagesModeChanged on_currentTab_highlightAllChanged
  by_cases hs : senderIsCurrentTab w sender = true
  · simp only [hs, if_true, and_self]
  · simp only [hs]
    exact ⟨rfl, rfl, rfl, rfl⟩

/-- With a current tab, the slots that dereference it return. -/
theorem slots_return (w : MainWindow) (ui : Widgets) (sender : Sender) (v : DocumentView)
    (hv : w.currentTab = some v) (currentPage : Int) (scaleMode : ScaleMode)
    (scaleFactor : qreal) :
    (∃ ui1, on_currentTab_currentPageChanged w ui sender currentPage = some ui1) ∧
    (∃ ui1, on_currentTab_scaleModeChanged w ui sender scaleMode = some ui1) ∧
    (∃ ui1, on_currentTab_scaleFactorChanged w ui sender scaleFactor = some ui1) := by
  have hf : ∀ (u : Widgets) (f : qreal),
      ∃ ui1, on_currentTab_scaleFactorChanged w u sender f = some ui1 := by
    intro u f
    unfold on_currentTab_scaleFactorChanged
    rw [hv]
    by_cases hs : senderIsCurrentTab w sender = true
    · rw [if_pos hs]
      by_cases hm : v.scaleMode = ScaleMode.ScaleFactor
      · simp only [hm, if_true]
        exact ⟨_, rfl⟩
      · simp only [hm, if_false]
        exact ⟨u, rfl⟩
    · rw [if_neg hs]
      exact ⟨u, rfl⟩
  refine ⟨?_, ?_, hf ui scaleFactor⟩
  · unfold on_currentTab_currentPageChanged
    rw [hv]
    by_cases hs : senderIsCurrentTab w sender = true
    · rw [if_pos hs]
      exact ⟨_, rfl⟩
    · rw [if_neg hs]
      exact ⟨ui, rfl⟩
  · unfold on_currentTab_scaleModeChanged
    rw [hv]
    by_cases hs : senderIsCurrentTab w sender = true
    · rw [if_pos hs]
      by_cases h0 : scaleMode = ScaleMode.ScaleFactor
      · rw [if_pos h0]
        exact hf _ _
      · rw [if_neg h0]
        by_cases h1 : scaleMode = ScaleMode.FitToPageWidth
        · rw [if_pos h1]
          exact ⟨_, rfl⟩
        · rw [if_neg h1]
          by_cases h2 : scaleMode = ScaleMode.FitToPageSize
          · rw [if_pos h2]
            exact ⟨_, rfl⟩
          · rw [if_neg h2]
            exact ⟨ui, rfl⟩
    · rw [if_neg hs]
      exact ⟨ui, rfl⟩

/-- With a current tab `on_tabWidget_currentChanged(index)` returns for an
index other than -1, and the enabled flags it leaves are those that its
`setEnabled(true)` calls leave. -/
theorem on_tabWidget_currentChanged_some (env : Env) (numberOfPages : DocumentView → Int)
    (highlightAll : DocumentView → Bool) (w : MainWindow) (ui : Widgets) (sender : Sender)
    (index : Int) (v : DocumentView) (hi : index ≠ -1) (hv : w.currentTab = some v) :
    ∃ r, on_tabWidget_currentChanged env numberOfPages highlightAll w ui sender index = some r ∧
      r.2.enabled = (setCurrentTabControlsEnabled ui true).enabled ∧
      r.1 = filePathChangedLoop env sender v.filePath 0 w.tabs w := by
  let ui1 := setCurrentTabControlsEnabled ui true
  let ui2 : Widgets :=
    if ui1.searchToolBar then
      { ui1 with searchTimer := false, searchLineEdit := "", searchProgress := 0 }
    else ui1
  have he2 : ui2.enabled = ui1.enabled := by
    show (if ui1.searchToolBar = true then _ else ui1).enabled = ui1.enabled
    by_cases hb : ui1.searchToolBar = true
    · rw [if_pos hb]
    · rw [if_neg hb]
  let r3 := on_currentTab_filePathChanged env w ui2 sender v.filePath
  have hr3 : on_currentTab_filePathChanged env w ui2 sender v.filePath = (r3.1, r3.2) := rfl
  have hcur : r3.1.currentTab = some v := by
    rw [on_currentTab_filePathChanged_currentTab]
    exact hv
  have he3 : r3.2.enabled = ui2.enabled := on_currentTab_filePathChanged_enabled _ _ _ _ _
  let ui4 := on_currentTab_numberOfPagesChaned r3.1 r3.2 sender (numberOfPages v)
  have he4 : ui4.enabled = r3.2.enabled := (total_slots_enabled r3.1 r3.2 sender _ false).1
  obtain ⟨ui5, h5⟩ := (slots_return r3.1 ui4 sender v hcur v.currentPage v.scaleMode 0).1
  have he5 := on_currentTab_currentPageChanged_enabled _ _ _ _ _ h5
  let ui6 := on_currentTab_continuousModeChanged r3.1 ui5 sender v.continousMode
  have he6 : ui6.enabled = ui5.enabled := (total_slots_enabled r3.1 ui5 sender 0 _).2.1
  let ui7 := on_currentTab_twoPagesModeChanged r3.1 ui6 sender v.twoPagesMode
  have he7 : ui7.enabled = ui6.enabled := (total_slots_enabled r3.1 ui6 sender 0 _).2.2.1
  obtain ⟨ui8, h8⟩ := (slots_return r3.1 ui7 sender v hcur v.currentPage v.scaleMode 0).2.1
  have he8 := on_currentTab_scaleModeChanged_enabled _ _ _ _ _ h8
  obtain ⟨ui9, h9⟩ := (slots_return r3.1 ui8 sender v hcur 0 v.scaleMode v.scaleFactor).2.2
  have he9 := on_currentTab_scaleFactorChanged_enabled _ _ _ _ _ h9
  let ui10 := on_currentTab_highlightAllChanged r3.1 ui9 sender (highlightAll v)
  have he10 : ui10.enabled = ui9.enabled := (total_slots_enabled r3.1 ui9 sender 0 _).2.2.2
  refine ⟨(r3.1, ui10), ?_, ?_, ?_⟩
  · unfold on_tabWidget_currentChanged
    rw [if_pos hi]
    simp only [hv, hr3, hcur, h5, h8, h9, Option.bind_eq_bind, Option.some_bind, Option.pure_def,
      Option.bind_some]
  · show ui10.enabled = ui1.enabled
    rw [he10, he9, he8, he7, he6, he5, he4, he3, he2]
  · exact on_currentTab_filePathChanged_window env w ui2 sender v.filePath

/-- C27: after `on_tabWidget_currentChanged(index)`, which returns whenever
there is a current tab or the index is -1, every action and input widget that
the claim lists (refresh, save copy, print, page navigation, jump to page,
search and find, view modes, zoom, fit, rotate, fonts, presentation, tab
navigation and closing, add bookmark, page line edit, scale box, search box and
its check boxes) is enabled if and only if the index is not -1; the other
controls keep their state. -/
theorem on_tabWidget_currentChanged_enabled (env : Env) (numberOfPages : DocumentView → Int)
    (highlightAll : DocumentView → Bool) (w : MainWindow) (ui : Widgets) (sender : Sender)
    (index : Int) (h : index ≠ -1 → w.currentTab ≠ none) :
    ∃ r, on_tabWidget_currentChanged env numberOfPages highlightAll w ui sender index = some r ∧
      (∀ c : Control, c.usesCurrentTab = true → (r.2.enabled c = true ↔ index ≠ -1)) ∧
      (∀ c : Control, c.usesCurrentTab = false → r.2.enabled c = ui.enabled c) := by
  by_cases hi : index ≠ -1
  · cases hv : w.currentTab with
    | none => exact absurd hv (h hi)
    | some v =>
      obtain ⟨r, hr, he, _⟩ := on_tabWidget_currentChanged_some env numberOfPages highlightAll w
        ui sender index v hi hv
      refine ⟨r, hr, ?_, ?_⟩
      · intro c hc
        rw [he, setCurrentTabControlsEnabled_enabled, if_pos hc]
        exact ⟨fun _ => hi, fun _ => rfl⟩
      · intro c hc
        rw [he, setCurrentTabControlsEnabled_enabled, if_neg (by rw [hc]; decide)]
  · have he : ∃ r, on_tabWidget_currentChanged env numberOfPages highlightAll w ui sender index
          = some r ∧ r.2.enabled = (setCurrentTabControlsEnabled ui false).enabled := by
      unfold on_tabWidget_currentChanged
      rw [if_neg hi]
      refine ⟨_, rfl, ?_⟩
      show (Widgets.setScaleFactorIndex _ 4).enabled = _
      rw [setScaleFactorIndex_enabled]
      show (if (setCurrentTabControlsEnabled ui false).searchToolBar = true then _
        else setCurrentTabControlsEnabled ui false).enabled = _
      by_cases hb : (setCurrentTabControlsEnabled ui false).searchToolBar = true
      · rw [if_pos hb]
      · rw [if_neg hb]
    obtain ⟨r, hr, he⟩ := he
    refine ⟨r, hr, ?_, ?_⟩
    · intro c hc
      rw [he, setCurrentTabControlsEnabled_enabled, if_pos hc]
      exact ⟨fun hf => Bool.noConfusion hf, fun hne => absurd hne hi⟩
    · intro c hc
      rw [he, setCurrentTabControlsEnabled_enabled, if_neg (by rw [hc]; decide)]

/-- C27 at the window `twoTabs`, for the index of its current tab. -/
theorem on_tabWidget_currentChanged_enabled_witness :
    ((1 : Int) ≠ -1 → twoTabs.currentTab ≠ none) ∧
    ∃ r, on_tabWidget_currentChanged sampleEnv (fun _ => 9) (fun _ => false) twoTabs
        sampleWidgets Sender.other 1 = some r ∧
      (∀ c : Control, c.usesCurrentTab = true → (r.2.enabled c = true ↔ (1 : Int) ≠ -1)) ∧
      (∀ c : Control, c.usesCurrentTab = false → r.2.enabled c = sampleWidgets.enabled c) :=
  ⟨fun _ => by decide,
    on_tabWidget_currentChanged_enabled sampleEnv (fun _ => 9) (fun _ => false) twoTabs
      sampleWidgets Sender.other 1 (fun _ => by decide)⟩

/-- Deleting the first widget of a window with tabs leaves one tab less. -/
theorem deleteWidget_zero_length (w : MainWindow) (h : 0 < w.tabs.length) :
    (w.deleteWidget 0).tabs.length + 1 = w.tabs.length := by
  unfold MainWindow.deleteWidget
  cases ht : w.tabs with
  | nil =>
    rw [ht] at h
    cases h
  | cons tabPage rest => rfl

/-- The loop of close-all-tabs ends when it may run once for every tab, and
leaves no tab. -/
theorem closeAllTabsLoop_terminates (fuel : Nat) :
    ∀ w : MainWindow, w.tabs.length ≤ fuel →
      ∃ w1, closeAllTabsLoop fuel w = some w1 ∧ w1.tabs = [] := by
  induction fuel with
  | zero =>
    intro w h
    have h0 : w.tabs = [] := List.eq_nil_of_length_eq_zero (by omega)
    refine ⟨w, ?_, h0⟩
    unfold closeAllTabsLoop
    rw [if_neg (by unfold MainWindow.count; rw [h0]; decide)]
  | succ fuel ih =>
    intro w h
    unfold closeAllTabsLoop
    by_cases hc : w.count > 0
    · rw [if_pos hc]
      have hpos : 0 < w.tabs.length := by
        unfold MainWindow.count at hc
        omega
      have hlen := deleteWidget_zero_length w hpos
      exact ih (w.deleteWidget 0) (by omega)
    · rw [if_neg hc]
      refine ⟨w, rfl, ?_⟩
      unfold MainWindow.count at hc
      exact List.eq_nil_of_length_eq_zero (by omega)

/-- The loop of close-all-tabs has not ended after fewer iterations than there
are tabs. -/
theorem closeAllTabsLoop_out_of_fuel (fuel : Nat) :
    ∀ w : MainWindow, fuel < w.tabs.length → closeAllTabsLoop fuel w = none := by
  induction fuel with
  | zero =>
    intro w h
    unfold closeAllTabsLoop
    rw [if_pos (by unfold MainWindow.count; omega)]
  | succ fuel ih =>
    intro w h
    unfold closeAllTabsLoop
    rw [if_pos (by unfold MainWindow.count; omega)]
    have hlen := deleteWidget_zero_length w (by omega)
    exact ih (w.deleteWidget 0) (by omega)

/-- The slot `on_tabWidget_currentChanged(-1)` returns, leaves the tabs as they
are and puts the widgets in the no-document state. -/
theorem on_tabWidget_currentChanged_no_tab (env : Env) (numberOfPages : DocumentView → Int)
    (highlightAll : DocumentView → Bool) (w : MainWindow) (ui : Widgets) (sender : Sender) :
    ∃ r, on_tabWidget_currentChanged env numberOfPages highlightAll w ui sender (-1) = some r ∧
      r.1 = w ∧
      r.2.windowTitle = "qpdfview" ∧
      r.2.currentPageLineEdit = "" ∧
      r.2.numberOfPagesLabel = "" ∧
      r.2.continuousModeAction = false ∧
      r.2.twoPagesModeAction = false ∧
      r.2.fitToPageWidthAction = false ∧
      r.2.fitToPageSizeAction = false := by
  unfold on_tabWidget_currentChanged
  rw [if_neg (by decide)]
  exact ⟨_, rfl, rfl, rfl, rfl, rfl, rfl, rfl, rfl, rfl⟩

/-- Run with a sender that is no view, as it is by the signal of the tab widget
and in every direct call of the source, `on_tabWidget_currentChanged(index)`
leaves the tabs, the current index and the menus as they are: it is a step on
the widgets alone. -/
theorem on_tabWidget_currentChanged_window (env : Env) (numberOfPages : DocumentView → Int)
    (highlightAll : DocumentView → Bool) (w : MainWindow) (ui : Widgets) (index : Int)
    (r : MainWindow × Widgets)
    (h : on_tabWidget_currentChanged env numberOfPages highlightAll w ui Sender.other index
      = some r) : r.1 = w := by
  by_cases hi : index ≠ -1
  · cases hv : w.currentTab with
    | none =>
      unfold on_tabWidget_currentChanged at h
      rw [if_pos hi] at h
      simp [hv] at h
    | some v =>
      obtain ⟨r1, hr1, _, hw⟩ := on_tabWidget_currentChanged_some env numberOfPages highlightAll
        w ui Sender.other index v hi hv
      rw [hr1] at h
      rw [← Option.some.inj h, hw]
      exact filePathChangedLoop_other env v.filePath w.tabs 0 w
  · unfold on_tabWidget_currentChanged at h
    rw [if_neg hi] at h
    rw [← Option.some.inj h]

/-- Deleting the first widget keeps the current index that of a tab, or -1 when
no tab is left. -/
theorem deleteWidget_zero_valid (w : MainWindow) (h : validCurrentIndex w) :
    validCurrentIndex (w.deleteWidget 0) := by
  unfold MainWindow.deleteWidget
  cases ht : w.tabs with
  | nil => exact h
  | cons tabPage rest =>
    have hv : 0 ≤ w.currentIndex ∧ w.currentIndex < (rest.length : Int) + 1 := by
      rcases h with ⟨hnil, _⟩ | hr
      · rw [hnil] at ht
        cases ht
      · unfold MainWindow.count at hr
        rw [ht] at hr
        exact ⟨hr.1, by simpa using hr.2⟩
    show validCurrentIndex
      { w with
        tabs := rest
        currentIndex :=
          if ((0 : Nat) : Int) < w.currentIndex then w.currentIndex - 1
          else if ((0 : Nat) : Int) = w.currentIndex then
            if 0 < rest.length then ((0 : Nat) : Int) else (rest.length : Int) - 1
          else w.currentIndex
        tabsMenu := w.tabsMenu.filter (fun a => a.parent != some tabPage.widget.object) }
    by_cases h1 : ((0 : Nat) : Int) < w.currentIndex
    · rw [if_pos h1]
      refine Or.inr ⟨by show 0 ≤ w.currentIndex - 1; omega, ?_⟩
      show w.currentIndex - 1 < (rest.length : Int)
      omega
    · rw [if_neg h1]
      have h2 : ((0 : Nat) : Int) = w.currentIndex := by
        have := hv.1
        push_cast at h1 ⊢
        omega
      rw [if_pos h2]
      by_cases h3 : 0 < rest.length
      · rw [if_pos h3]
        refine Or.inr ⟨le_refl _, ?_⟩
        show ((0 : Nat) : Int) < (rest.length : Int)
        omega
      · rw [if_neg h3]
        have hr0 : rest = [] := List.eq_nil_of_length_eq_zero (by omega)
        refine Or.inl ⟨hr0, ?_⟩
        show (rest.length : Int) - 1 = -1
        rw [hr0]
        rfl

/-- After the loop of close-all-tabs the current index is -1, when it was the
index of a tab, or -1 without tabs, before. -/
theorem closeAllTabsLoop_currentIndex (fuel : Nat) :
    ∀ (w w1 : MainWindow), validCurrentIndex w → closeAllTabsLoop fuel w = some w1 →
      w1.currentIndex = -1 := by
  induction fuel with
  | zero =>
    intro w w1 hv h
    unfold closeAllTabsLoop at h
    by_cases hc : w.count > 0
    · rw [if_pos hc] at h
      cases h
    · rw [if_neg hc] at h
      rw [← Option.some.inj h]
      rcases hv with ⟨_, hi⟩ | hr
      · exact hi
      · omega
  | succ fuel ih =>
    intro w w1 hv h
    unfold closeAllTabsLoop at h
    by_cases hc : w.count > 0
    · rw [if_pos hc] at h
      exact ih (w.deleteWidget 0) w1 (deleteWidget_zero_valid w hv) h
    · rw [if_neg hc] at h
      rw [← Option.some.inj h]
      rcases hv with ⟨_, hi⟩ | hr
      · exact hi
      · omega

/-- The slot that the scale box runs when `on_tabWidget_currentChanged(-1)` has
set its index finds no tab at the end of close-all-tabs and leaves the window
as it is. -/
theorem on_closeAllTabs_triggered_scale_box_slot (fuel : Nat) (env : Env)
    (numberOfPages : DocumentView → Int) (highlightAll : DocumentView → Bool) (w : MainWindow)
    (ui : Widgets) (r : MainWindow × Widgets) (hv : validCurrentIndex w)
    (h : on_closeAllTabs_triggered fuel env numberOfPages highlightAll w ui Sender.other
      = some r) :
    on_scaleFactor_currentIndexChanged r.1 r.2.scaleFactorComboBox = some r.1 := by
  unfold on_closeAllTabs_triggered at h
  cases hl : closeAllTabsLoop fuel w with
  | none =>
    rw [hl] at h
    cases h
  | some w1 =>
    rw [hl] at h
    have hw := on_tabWidget_currentChanged_window env numberOfPages highlightAll w1 ui (-1) r h
    have hi := closeAllTabsLoop_currentIndex fuel w w1 hv hl
    unfold on_scaleFactor_currentIndexChanged
    rw [hw, if_neg (by rw [hi]; decide)]

/-- C28: close-all-tabs terminates for every number of open tabs and leaves the
window in the no-document state. Its loop ends within as many iterations as
there are tabs, the slot returns, and afterwards no tab remains, the window
title is "qpdfview", the page line edit and the page-count label are empty, and
the continuous, two-pages and both fit actions are unchecked. -/
theorem on_closeAllTabs_triggered_no_document (fuel : Nat) (env : Env)
    (numberOfPages : DocumentView → Int) (highlightAll : DocumentView → Bool) (w : MainWindow)
    (ui : Widgets) (sender : Sender) (h : w.tabs.length ≤ fuel) :
    ∃ r, on_closeAllTabs_triggered fuel env numberOfPages highlightAll w ui sender = some r ∧
      r.1.tabs = [] ∧
      r.2.windowTitle = "qpdfview" ∧
      r.2.currentPageLineEdit = "" ∧
      r.2.numberOfPagesLabel = "" ∧
      r.2.continuousModeAction = false ∧
      r.2.twoPagesModeAction = false ∧
      r.2.fitToPageWidthAction = false ∧
      r.2.fitToPageSizeAction = false := by
  obtain ⟨w1, hloop, hnil⟩ := closeAllTabsLoop_terminates fuel w h
  obtain ⟨r, hr, hw, hrest⟩ :=
    on_tabWidget_currentChanged_no_tab env numberOfPages highlightAll w1 ui sender
  refine ⟨r, ?_, by rw [hw]; exact hnil, hrest⟩
  unfold on_closeAllTabs_triggered
  rw [hloop]
  exact hr

/-- C28 at the window `twoTabs`, its loop allowed two iterations. -/
theorem on_closeAllTabs_triggered_no_document_witness :
    twoTabs.tabs.length ≤ 2 ∧
    ∃ r, on_closeAllTabs_triggered 2 sampleEnv (fun _ => 9) (fun _ => false) twoTabs
        sampleWidgets Sender.other = some r ∧
      r.1.tabs = [] ∧
      r.2.windowTitle = "qpdfview" ∧
      r.2.currentPageLineEdit = "" ∧
      r.2.numberOfPagesLabel = "" ∧
      r.2.continuousModeAction = false ∧
      r.2.twoPagesModeAction = false ∧
      r.2.fitToPageWidthAction = false ∧
      r.2.fitToPageSizeAction = false :=
  ⟨by decide,
    on_closeAllTabs_triggered_no_document 2 sampleEnv (fun _ => 9) (fun _ => false) twoTabs
      sampleWidgets Sender.other (by decide)⟩

/-! ## Properties of the geometry written at close -/

/-- While the fullscreen action is checked its data is the geometry the window
had when fullscreen was entered last. -/
theorem fullscreenData_run (ws : WindowSystem) (events : List FrameEvent) :
    ∀ (s : WindowFrame) (entered : Option QByteArray),
      (s.fullscreenChecked = true → s.fullscreenData = entered) →
      ((s.run ws events).fullscreenChecked = true →
        (s.run ws events).fullscreenData = geometryOnEntering ws s entered events) := by
  induction events with
  | nil =>
    intro s entered h
    exact h
  | cons e rest ih =>
    intro s entered h
    cases e with
    | fullscreenTriggered =>
      show ((s.step ws FrameEvent.fullscreenTriggered).run ws rest).fullscreenChecked = true →
        ((s.step ws FrameEvent.fullscreenTriggered).run ws rest).fullscreenData
          = geometryOnEntering ws (s.step ws FrameEvent.fullscreenTriggered)
              (if s.fullscreenChecked then entered else some s.geometry) rest
      apply ih
      intro hc
      cases hs : s.fullscreenChecked with
      | true =>
        exfalso
        have : (s.step ws FrameEvent.fullscreenTriggered).fullscreenChecked = false := by
          simp [WindowFrame.step, on_fullscreen_triggered, hs]
        rw [this] at hc
        cases hc
      | false =>
        simp [WindowFrame.step, on_fullscreen_triggered, hs]
    | geometryChanged geometry =>
      show ((s.step ws (FrameEvent.geometryChanged geometry)).run ws rest).fullscreenChecked
          = true →
        ((s.step ws (FrameEvent.geometryChanged geometry)).run ws rest).fullscreenData
          = geometryOnEntering ws (s.step ws (FrameEvent.geometryChanged geometry)) entered rest
      apply ih
      exact h

/-- C29: the window geometry persisted at close. Whatever happens to the frame
of a window between its construction and its close, `closeEvent` writes to the
settings, when the fullscreen action is checked, the geometry the window had
at the moment fullscreen was entered, and when it is not checked, the geometry
the window has at close. -/
theorem closeEvent_geometry (env : Env) (ws : WindowSystem) (w : MainWindow) (fs : FileSystem)
    (geometry : QByteArray) (stored : Option QByteArray) (events : List FrameEvent) :
    (closeEvent env w fs ((WindowFrame.create geometry stored).run ws events)).2.settingsGeometry
      = if ((WindowFrame.create geometry stored).run ws events).fullscreenChecked then
          geometryOnEntering ws (WindowFrame.create geometry stored) none events
        else some ((WindowFrame.create geometry stored).run ws events).geometry := by
  have h := fullscreenData_run ws events (WindowFrame.create geometry stored) none
    (fun hc => Bool.noConfusion (show false = true from hc))
  show (if ((WindowFrame.create geometry stored).run ws events).fullscreenChecked = true then
      ((WindowFrame.create geometry stored).run ws events).fullscreenData
    else some ((WindowFrame.create geometry stored).run ws events).geometry) = _
  by_cases hc : ((WindowFrame.create geometry stored).run ws events).fullscreenChecked = true
  · rw [if_pos hc, if_pos hc, h hc]
  · rw [if_neg hc, if_neg hc]

/-- The geometry written at close in two runs: the window is resized to `[2]`
and made fullscreen, which gives it the geometry `[9]`, and closed, so `[2]` is
written; and the window leaves fullscreen again, is resized to `[3]` and
closed, so `[3]` is written. -/
theorem two_closes_write_geometry :
    (closeEvent sampleEnv twoTabs emptyFiles
      ((WindowFrame.create [1] none).run sampleWindowSystem
        [FrameEvent.geometryChanged [2], FrameEvent.fullscreenTriggered])).2
      = { geometry := [9], fullscreenChecked := true, fullscreenData := some [2],
          settingsGeometry := some [2] } ∧
    (closeEvent sampleEnv twoTabs emptyFiles
      ((WindowFrame.create [1] none).run sampleWindowSystem
        [FrameEvent.geometryChanged [2], FrameEvent.fullscreenTriggered,
          FrameEvent.fullscreenTriggered, FrameEvent.geometryChanged [3]])).2
      = { geometry := [3], fullscreenChecked := false, fullscreenData := some [2],
          settingsGeometry := some [3] } := by
  decide

end Qpdfview
